import Mathlib

/-!
KeystoneService reconciler: a shallow embedding.

The development embeds `controllers/keystoneservice_controller.go` of the
keystone-operator: the functions `Reconcile`, `reconcileDelete`,
`reconcileDeleteFinalizersOnly`, `reconcileNormal`, `reconcileService` and
`reconcileUser` of `KeystoneServiceReconciler`.

Everything the controller talks to (the Kubernetes client, the secret
provider, the admin-client provider and the identity backend) is an
external collaborator.  Each collaborator is an oracle: a function from
the state of the outside world to an answer and a new state.  The embedding
threads that state through the controller code and records every call the
controller issues, in order, so that statements of the form
"issues exactly these calls" are statements about the recorded list.

Two smaller parts follow the controller: the admission webhook of the
KeystoneAPI (`api/v1beta1/keystoneapi_webhook.go`), and the fernet key ring,
whose manager is modelled from the spec while the assertions of the functional
tests are embedded from `tests/functional/keystoneapi_controller_test.go`.
-/

namespace Keystone

/-! ## Go values -/

/-- A Go `error` value: the text `err.Error()` returns and whether
`k8s_errors.IsNotFound(err)` holds for it. -/
structure GoError where
  text : String
  notFound : Bool
  deriving DecidableEq, Repr

/-- Some suffix of the list starts with `sub`. -/
def containsChars (sub : List Char) : List Char → Bool
  | [] => sub.isEmpty
  | c :: cs => sub.isPrefixOf (c :: cs) || containsChars sub cs

/-- The Go expression `strings.Contains(s, substr)`. -/
def strings.Contains (s substr : String) : Bool :=
  containsChars substr.toList s.toList

/-- The Go function `k8s_errors.IsNotFound(err)`. -/
def k8s_errors.IsNotFound (err : GoError) : Bool := err.notFound

/-- A Go `interface{}` value as far as the controller inspects one: the nil
interface, a string, or a value of some other dynamic type. -/
inductive Any where
  | nil
  | str (s : String)
  | other (repr : String)
  deriving DecidableEq, Repr

/-- The Go comparison `v != s` of an `interface{}` value with a `string`:
the two are equal only when the dynamic type of `v` is `string` and the
values agree. -/
def Any.neString (v : Any) (s : String) : Bool :=
  match v with
  | Any.str t => t != s
  | _ => true

/-- The Go map index expression `m[key]` on a `map[string]interface{}`:
a missing key yields the nil interface. -/
def mapIndex (m : List (String × Any)) (key : String) : Any :=
  match m.lookup key with
  | some v => v
  | none => Any.nil

/-- The duration `time.Second`, in nanoseconds. -/
def time.Second : Int := 1000000000

/-- The type `ctrl.Result` (also `reconcile.Result`). -/
structure Result where
  Requeue : Bool := false
  RequeueAfter : Int := 0
  deriving DecidableEq, Repr

/-! ## The condition package -/

namespace condition

/-- The type `corev1.ConditionStatus`. -/
inductive ConditionStatus where
  | ConditionTrue
  | ConditionFalse
  | ConditionUnknown
  deriving DecidableEq, Repr

/-- The type `condition.Severity`; `SeverityNone` is the empty severity. -/
inductive Severity where
  | SeverityError
  | SeverityWarning
  | SeverityInfo
  | SeverityNone
  deriving DecidableEq, Repr

/-- The reasons of `condition.Reason` the controller uses. -/
inductive Reason where
  | ReadyReason
  | InitReason
  | ErrorReason
  | RequestedReason
  deriving DecidableEq, Repr

/-- The message formats the controller passes to the condition package,
by the name of the Go constant. The texts are declared outside the
controller; the embedding keeps the constant and the arguments apart instead
of formatting them. -/
inductive MessageFormat where
  | ReadyMessage
  | ReadyInitMessage
  | KeystoneAPIReadyInitMessage
  | KeystoneAPIReadyMessage
  | KeystoneAPIReadyNotFoundMessage
  | KeystoneAPIReadyErrorMessage
  | KeystoneAPIReadyWaitingMessage
  | AdminServiceClientReadyInitMessage
  | AdminServiceClientReadyMessage
  | AdminServiceClientReadyErrorMessage
  | AdminServiceClientReadyWaitingMessage
  | KeystoneServiceOSServiceReadyInitMessage
  | KeystoneServiceOSServiceReadyMessage
  | KeystoneServiceOSServiceReadyErrorMessage
  | KeystoneServiceOSUserReadyInitMessage
  | KeystoneServiceOSUserReadyMessage
  | KeystoneServiceOSUserReadyErrorMessage
  | KeystoneServiceOSUserReadyWaitingMessage
  deriving DecidableEq, Repr

/-- A condition message: a format and the arguments given with it. -/
structure Message where
  format : MessageFormat
  args : List String := []
  deriving DecidableEq, Repr

/-- The type `condition.Type`: the name of a condition (`Type` is reserved in Lean). -/
abbrev CondType := String

/-- The aggregate condition, `condition.ReadyCondition`. -/
def ReadyCondition : CondType := "Ready"

/-- The struct `condition.Condition`, without the transition time; the field
`Type_` is the Go field `Type`. -/
structure Condition where
  Type_ : CondType
  Status : ConditionStatus
  Severity : Severity := Severity.SeverityNone
  Reason : Reason
  Message : Message
  deriving DecidableEq, Repr

/-- The type `condition.Conditions`: a list of conditions. -/
abbrev Conditions := List Condition

/-- Modelled from the spec: the constructor `condition.TrueCondition` of the
condition package: a condition of type `t` with status True. -/
def TrueCondition (t : CondType) (messageFormat : MessageFormat) (messageArgs : List String) :
    Condition :=
  { Type_ := t, Status := ConditionStatus.ConditionTrue, Reason := Reason.ReadyReason,
    Message := { format := messageFormat, args := messageArgs } }

/-- Modelled from the spec: the constructor `condition.FalseCondition` of the
condition package: a condition of type `t` with status False and the reason,
severity and message given. -/
def FalseCondition (t : CondType) (reason : Reason) (severity : Severity)
    (messageFormat : MessageFormat) (messageArgs : List String) : Condition :=
  { Type_ := t, Status := ConditionStatus.ConditionFalse, Severity := severity, Reason := reason,
    Message := { format := messageFormat, args := messageArgs } }

/-- Modelled from the spec: the constructor `condition.UnknownCondition` of
the condition package: a condition of type `t` with status Unknown and the
reason and message given. -/
def UnknownCondition (t : CondType) (reason : Reason) (messageFormat : MessageFormat)
    (messageArgs : List String) : Condition :=
  { Type_ := t, Status := ConditionStatus.ConditionUnknown, Reason := reason,
    Message := { format := messageFormat, args := messageArgs } }

/-- Modelled from the spec: `Conditions.Set` of the condition package, which
is not part of the sources at hand. "`setSubCondition(type, ok, reason,
message)` records one sub-condition": the condition of the same type is
replaced where one exists, and the condition is added otherwise. -/
def Conditions.Set : Conditions → Condition → Conditions
  | [], c => [c]
  | x :: xs, c => if x.Type_ = c.Type_ then c :: xs else x :: Conditions.Set xs c

/-- Modelled from the spec: `Conditions.MarkTrue` of the condition package:
records the condition of type `t` as True. -/
def Conditions.MarkTrue (conditions : Conditions) (t : CondType) (messageFormat : MessageFormat)
    (messageArgs : List String) : Conditions :=
  Conditions.Set conditions (TrueCondition t messageFormat messageArgs)

/-- Modelled from the spec: `Conditions.MarkUnknown` of the condition package:
records the condition of type `t` as Unknown. -/
def Conditions.MarkUnknown (conditions : Conditions) (t : CondType) (reason : Reason)
    (messageFormat : MessageFormat) (messageArgs : List String) : Conditions :=
  Conditions.Set conditions (UnknownCondition t reason messageFormat messageArgs)

/-- Modelled from the spec: `condition.CreateList` of the condition package:
the list of the conditions given. -/
def CreateList (conditions : List Condition) : Conditions := conditions

/-- Modelled from the spec: `Conditions.Init` of the condition package: the
list starts over with the aggregate Ready condition as Unknown ("exactly one
condition of type Ready exists per object"), followed by the conditions
given ("all sub-conditions are seeded Unknown"). -/
def Conditions.Init (cl : Conditions) : Conditions :=
  cl.foldl Conditions.Set [UnknownCondition ReadyCondition Reason.InitReason
    MessageFormat.ReadyInitMessage []]

/-- Modelled from the spec: `Conditions.AllSubConditionIsTrue` of the
condition package: "all tracked sub-conditions are True", a sub-condition
being every condition other than Ready. -/
def Conditions.AllSubConditionIsTrue (conditions : Conditions) : Bool :=
  conditions.all fun c => c.Type_ == ReadyCondition || c.Status == ConditionStatus.ConditionTrue

/-- Modelled from the spec: the precedence of a condition when the aggregate
is recomputed, lowest number first: False before Unknown before True, and
among the False ones the most severe first. -/
def mergePriority (c : Condition) : Nat :=
  match c.Status, c.Severity with
  | ConditionStatus.ConditionFalse, Severity.SeverityError => 0
  | ConditionStatus.ConditionFalse, Severity.SeverityWarning => 1
  | ConditionStatus.ConditionFalse, Severity.SeverityInfo => 2
  | ConditionStatus.ConditionFalse, Severity.SeverityNone => 3
  | ConditionStatus.ConditionUnknown, _ => 4
  | ConditionStatus.ConditionTrue, _ => 5

/-- Modelled from the spec: the choice `Mirror` makes. The first condition of
least `mergePriority` in a list, `best` being the one found so far. -/
def pickFirstMin (best : Condition) : List Condition → Condition
  | [] => best
  | c :: cs => if mergePriority c < mergePriority best then pickFirstMin c cs
               else pickFirstMin best cs

/-- Modelled from the spec: `Conditions.Mirror` of the condition package:
"Ready = Unknown if any sub-condition is Unknown and none is False, else
Ready = False (mirrors the most severe failing sub-condition's
reason/message)". The condition of highest precedence in the list gives its
status, severity, reason and message to a condition of type `t`; an empty
list gives no condition (Go `nil`). Among conditions of equal precedence the
first in the list is taken. -/
def Conditions.Mirror (conditions : Conditions) (t : CondType) : Option Condition :=
  match conditions with
  | [] => none
  | c :: cs =>
    let top := pickFirstMin c cs
    some { Type_ := t, Status := top.Status, Severity := top.Severity, Reason := top.Reason,
           Message := top.Message }

/-- Modelled from the spec: the call `conditions.Set(c)` with a condition
pointer that may be nil, as `Mirror` returns one: a nil condition changes
nothing. -/
def Conditions.SetPtr (conditions : Conditions) : Option Condition → Conditions
  | none => conditions
  | some c => Conditions.Set conditions c

end condition

/-! ## Kubernetes objects -/

/-- The method `IsZero` of `*metav1.Time`: a nil pointer and the zero time
are both zero. Times are seconds, `0` being the zero time. -/
def IsZero (t : Option Nat) : Bool :=
  match t with
  | none => true
  | some n => n == 0

/-- The fields of `keystonev1.KeystoneServiceSpec` the controller reads. -/
structure KeystoneServiceSpec where
  ServiceType : String
  ServiceName : String
  ServiceDescription : String
  Enabled : Bool
  ServiceUser : String
  Secret : String
  PasswordSelector : String
  deriving DecidableEq, Repr

/-- The fields of `keystonev1.KeystoneServiceStatus` the controller uses;
`Conditions` is `none` for the Go nil slice. -/
structure KeystoneServiceStatus where
  Conditions : Option condition.Conditions
  ServiceID : String
  deriving DecidableEq, Repr

/-- The object `keystonev1.KeystoneService`. -/
structure KeystoneService where
  Name : String
  Namespace : String
  DeletionTimestamp : Option Nat
  Finalizers : List String
  Spec : KeystoneServiceSpec
  Status : KeystoneServiceStatus
  deriving DecidableEq, Repr

/-- The object `keystonev1.KeystoneAPI`, as far as the controller looks at it. -/
structure KeystoneAPI where
  Name : String
  Namespace : String
  DeletionTimestamp : Option Nat
  Finalizers : List String
  Conditions : condition.Conditions
  deriving DecidableEq, Repr

/-- The helper object of `helper.NewHelper`: `GetFinalizer()` returns `finalizer`. -/
structure Helper where
  finalizer : String
  deriving DecidableEq, Repr

/-- The method `helper.GetFinalizer()`. -/
def Helper.GetFinalizer (h : Helper) : String := h.finalizer

/-! ## Identity backend values -/

/-- The struct `openstack.Service`: the service the controller asks for
(`Type_` is the Go field `Type`). -/
structure openstack.Service where
  Name : String
  Type_ : String
  Description : String
  Enabled : Bool
  deriving DecidableEq, Repr

/-- The struct `openstack.Project`. -/
structure openstack.Project where
  Name : String
  Description : String
  DomainID : String
  deriving DecidableEq, Repr

/-- The struct `openstack.User`. -/
structure openstack.User where
  Name : String
  Password : String
  ProjectID : String
  DomainID : String
  deriving DecidableEq, Repr

/-- The struct `services.Service` the backend returns from `GetService`
(`Type_` is the Go field `Type`). -/
structure services.Service where
  ID : String
  Type_ : String
  Enabled : Bool
  Extra : List (String × Any)
  deriving DecidableEq, Repr

/-! ## Calls and runs -/

/-- One call to a collaborator, with the arguments the controller passed. -/
inductive Call where
  | Get (name : String) (ns : String)
  | NewHelper (obj : KeystoneService)
  | PatchInstance (obj : KeystoneService)
  | GetKeystoneAPI (ns : String)
  | Update (keystoneAPI : KeystoneAPI)
  | GetAdminServiceClient (keystoneAPI : KeystoneAPI)
  | GetDataFromSecret (secretName : String) (requeueAfter : Int) (key : String)
  | GetService (serviceType serviceName : String)
  | CreateService (s : openstack.Service)
  | UpdateService (s : openstack.Service) (serviceID : String)
  | DeleteUser (userName domainID : String)
  | DeleteService (serviceID : String)
  | CreateProject (p : openstack.Project)
  | CreateUser (u : openstack.User)
  | CreateRole (roleName : String)
  | AssignUserRole (roleName userID projectID : String)
  deriving DecidableEq, Repr

/-- How a piece of Go code ends: it returns a value or it panics with a value. -/
inductive Res (α : Type) where
  | ok (a : α)
  | panic (v : String)
  deriving DecidableEq, Repr

/-- The state of a run: the state of the outside world and the calls
issued so far, oldest first. -/
structure Run (σ : Type) where
  world : σ
  calls : List Call

/-- A piece of controller code: from the state of the run to how it ends
and the state of the run after it. -/
def M (σ α : Type) : Type := Run σ → Res α × Run σ

/-- Code that returns `a` and issues no call. -/
def M.pure {σ α : Type} (a : α) : M σ α := fun r => (Res.ok a, r)

/-- Code that panics with `v`. -/
def M.panic {σ α : Type} (v : String) : M σ α := fun r => (Res.panic v, r)

/-- Sequencing: a panic of the first part ends the whole. -/
def M.bind {σ α β : Type} (m : M σ α) (f : α → M σ β) : M σ β := fun r =>
  match m r with
  | (Res.ok a, r1) => f a r1
  | (Res.panic v, r1) => (Res.panic v, r1)

instance {σ : Type} : Monad (M σ) where
  pure := M.pure
  bind := M.bind

/-- Issue the call `c`: the collaborator answers from the state of the world,
and the call is recorded. -/
def call {σ α : Type} (c : Call) (f : σ → Res α × σ) : M σ α := fun r =>
  match f r.world with
  | (a, s) => (a, { world := s, calls := r.calls ++ [c] })

/-- The panic value of a nil pointer dereference. -/
def nilDereference : String := "runtime error: invalid memory address or nil pointer dereference"

/-- The identity backend client `*openstack.OpenStack`: its methods, each
an oracle over the state of the world. A Go result pair `(v, err)` is a pair
whose second component is `none` for a nil error. -/
structure OpenStack (σ : Type) where
  GetService : String → String → σ → Res (Option services.Service × Option GoError) × σ
  CreateService : openstack.Service → σ → Res (String × Option GoError) × σ
  UpdateService : openstack.Service → String → σ → Res (Option GoError) × σ
  DeleteUser : String → String → σ → Res (Option GoError) × σ
  DeleteService : String → σ → Res (Option GoError) × σ
  CreateProject : openstack.Project → σ → Res (String × Option GoError) × σ
  CreateUser : openstack.User → σ → Res (String × Option GoError) × σ
  CreateRole : String → σ → Res (String × Option GoError) × σ
  AssignUserRole : String → String → String → σ → Res (Option GoError) × σ

/-- A method call on the client pointer `os`: a nil pointer panics, a
client is called and the call recorded. -/
def onClient {σ α : Type} (os : Option (OpenStack σ)) (c : Call)
    (method : OpenStack σ → σ → Res α × σ) : M σ α :=
  match os with
  | none => M.panic nilDereference
  | some o => call c (method o)

/-- The collaborators other than the identity backend: the Kubernetes
client (`Get`, `Update`), `helper.NewHelper`, `helper.PatchInstance`,
`keystonev1.GetKeystoneAPI`, `keystonev1.GetAdminServiceClient` and
`secret.GetDataFromSecret`, each an oracle over the state of the world. -/
structure World (σ : Type) where
  Get : String → String → σ → Res (KeystoneService × Option GoError) × σ
  NewHelper : KeystoneService → σ → Res (Helper × Option GoError) × σ
  PatchInstance : KeystoneService → σ → Res (Option GoError) × σ
  GetKeystoneAPI : String → σ → Res (Option KeystoneAPI × Option GoError) × σ
  Update : KeystoneAPI → σ → Res (Option GoError) × σ
  GetAdminServiceClient : KeystoneAPI → σ →
    Res (Option (OpenStack σ) × Result × Option GoError) × σ
  GetDataFromSecret : String → Int → String → σ → Res (String × Result × Option GoError) × σ

/-! ## Finalizers, readiness and the condition types of the controller -/

/-- Modelled from the spec: `controllerutil.AddFinalizer` on the finalizer
list of an object: "adds the token to the dependent's finalizer set if
absent; idempotent". The result is the new list and whether it changed. -/
def controllerutil.AddFinalizer (finalizers : List String) (finalizer : String) :
    List String × Bool :=
  if finalizer ∈ finalizers then (finalizers, false) else (finalizers ++ [finalizer], true)

/-- Modelled from the spec: `controllerutil.RemoveFinalizer` on the finalizer
list of an object: "removes the token if present; idempotent". The result is
the new list and whether it changed. -/
def controllerutil.RemoveFinalizer (finalizers : List String) (finalizer : String) :
    List String × Bool :=
  let kept := finalizers.filter (fun f => f != finalizer)
  (kept, kept.length != finalizers.length)

/-- The Go expression `fmt.Sprintf("%s-%s", a, b)`. -/
def sprintfDash (a b : String) : String := a ++ "-" ++ b

/-- The condition types of `keystonev1` the controller sets. They are
declared outside the controller; each is taken to be the name of its constant
without the suffix `Condition`. -/
def KeystoneAPIReadyCondition : condition.CondType := "KeystoneAPIReady"

/-- The condition type `keystonev1.AdminServiceClientReadyCondition`. -/
def AdminServiceClientReadyCondition : condition.CondType := "AdminServiceClientReady"

/-- The condition type `keystonev1.KeystoneServiceOSServiceReadyCondition`. -/
def KeystoneServiceOSServiceReadyCondition : condition.CondType :=
  "KeystoneServiceOSServiceReady"

/-- The condition type `keystonev1.KeystoneServiceOSUserReadyCondition`. -/
def KeystoneServiceOSUserReadyCondition : condition.CondType := "KeystoneServiceOSUserReady"

/-- Modelled from the spec: `Conditions.IsTrue` of the condition package: a
condition of type `t` is in the list and its status is True. -/
def condition.Conditions.IsTrue (conditions : condition.Conditions) (t : condition.CondType) :
    Bool :=
  match conditions.find? (fun c => c.Type_ == t) with
  | some c => c.Status == condition.ConditionStatus.ConditionTrue
  | none => false

/-- Modelled from the spec: `KeystoneAPI.IsReady`, declared outside the
controller: the KeystoneAPI "exists but is not ready" unless its Ready
condition is True. -/
def KeystoneAPI.IsReady (keystoneAPI : KeystoneAPI) : Bool :=
  keystoneAPI.Conditions.IsTrue condition.ReadyCondition

/-- The Go statement `instance.Status.Conditions.Set(c)`. -/
def KeystoneService.setCondition (inst : KeystoneService) (c : condition.Condition) :
    KeystoneService :=
  { inst with Status := { inst.Status with
      Conditions := some (condition.Conditions.Set (inst.Status.Conditions.getD []) c) } }

/-- The Go statement `instance.Status.Conditions.MarkTrue(t, messageFormat, messageArgs...)`. -/
def KeystoneService.markTrue (inst : KeystoneService) (t : condition.CondType)
    (messageFormat : condition.MessageFormat) (messageArgs : List String) : KeystoneService :=
  { inst with Status := { inst.Status with
      Conditions := some (condition.Conditions.MarkTrue (inst.Status.Conditions.getD []) t
        messageFormat messageArgs) } }

/-- The Go statement `controllerutil.RemoveFinalizer(instance, finalizer)`,
its result dropped. -/
def KeystoneService.removeFinalizer (inst : KeystoneService) (finalizer : String) :
    KeystoneService :=
  { inst with Finalizers := (controllerutil.RemoveFinalizer inst.Finalizers finalizer).1 }

/-- The request `ctrl.Request`: the namespaced name of the object. -/
structure Request where
  Namespace : String
  Name : String
  deriving DecidableEq, Repr

/-! ## The controller -/

namespace KeystoneServiceReconciler

open condition

/-- The part of `reconcileService` after the error check: the service is
created when `GetService` returned none, and adopted (and updated when it
differs) when it returned one. -/
def reconcileService.sync {σ : Type} (inst : KeystoneService) (os : Option (OpenStack σ))
    (service : Option services.Service) : M σ (KeystoneService × Option GoError) :=
  let wanted : openstack.Service :=
    { Name := inst.Spec.ServiceName, Type_ := inst.Spec.ServiceType,
      Description := inst.Spec.ServiceDescription, Enabled := inst.Spec.Enabled }
  match service with
  | none => do
    -- create the service
    let (id, err) ← onClient os (Call.CreateService wanted) (fun o => o.CreateService wanted)
    let inst := { inst with Status := { inst.Status with ServiceID := id } }
    match err with
    | some e => pure (inst, some e)
    | none => pure (inst, none)
  | some service =>
    -- propagate the service ID from the DB to the KeystoneService CR
    let inst := { inst with Status := { inst.Status with ServiceID := service.ID } }
    if service.Enabled != inst.Spec.Enabled ||
        (mapIndex service.Extra "description").neString inst.Spec.ServiceDescription then do
      -- update the service ONLY if Enabled or Description changed
      let err ← onClient os (Call.UpdateService wanted service.ID)
        (fun o => o.UpdateService wanted service.ID)
      match err with
      | some e => pure (inst, some e)
      | none => pure (inst, none)
    else pure (inst, none)

/-- The function `reconcileService`. The Go code changes `instance` in
place; here the changed object is returned next to the error.
`ServiceNotFound` is the constant `openstack.ServiceNotFound`, whose text is
declared outside the controller. -/
def reconcileService {σ : Type} (ServiceNotFound : String) (inst : KeystoneService)
    (os : Option (OpenStack σ)) : M σ (KeystoneService × Option GoError) := do
  -- verify if there is already a service in keystone for the type and name
  let (service, err) ← onClient os
    (Call.GetService inst.Spec.ServiceType inst.Spec.ServiceName)
    (fun o => o.GetService inst.Spec.ServiceType inst.Spec.ServiceName)
  -- If the service is not found, don't count that as an error here
  match err with
  | some e =>
    if !strings.Contains e.text ServiceNotFound then pure (inst, some e)
    else reconcileService.sync inst os service
  | none => reconcileService.sync inst os service

/-- The loop over `roleNames` in `reconcileUser`: for each role `CreateRole`
and then `AssignUserRole`; the first error ends the loop and is returned. -/
def reconcileUser.roles {σ : Type} (os : Option (OpenStack σ)) (userID serviceProjectID : String) :
    List String → M σ (Option GoError)
  | [] => pure none
  | roleName :: rest => do
    -- create role if it does not exist
    let (_, err) ← onClient os (Call.CreateRole roleName) (fun o => o.CreateRole roleName)
    match err with
    | some e => pure (some e)
    | none => do
      -- add the role to the user
      let err ← onClient os (Call.AssignUserRole roleName userID serviceProjectID)
        (fun o => o.AssignUserRole roleName userID serviceProjectID)
      match err with
      | some e => pure (some e)
      | none => reconcileUser.roles os userID serviceProjectID rest

/-- The function `reconcileUser`. -/
def reconcileUser {σ : Type} (w : World σ) (inst : KeystoneService)
    (os : Option (OpenStack σ)) : M σ (Result × Option GoError) := do
  let roleNames := ["admin", "service"]
  -- get the password of the service user from the secret
  let (password, ctrlResult, err) ← call
    (Call.GetDataFromSecret inst.Spec.Secret (10 * time.Second) inst.Spec.PasswordSelector)
    (w.GetDataFromSecret inst.Spec.Secret (10 * time.Second) inst.Spec.PasswordSelector)
  match err with
  | some e => pure ({}, some e)
  | none =>
    if ctrlResult != {} then pure (ctrlResult, none)
    else do
      -- create service project if it does not exist
      let project : openstack.Project :=
        { Name := "service", Description := "service", DomainID := "default" }
      let (serviceProjectID, err) ← onClient os (Call.CreateProject project)
        (fun o => o.CreateProject project)
      match err with
      | some e => pure ({}, some e)
      | none => do
        -- create user if it does not exist
        let user : openstack.User :=
          { Name := inst.Spec.ServiceUser, Password := password,
            ProjectID := serviceProjectID, DomainID := "default" }
        let (userID, err) ← onClient os (Call.CreateUser user) (fun o => o.CreateUser user)
        match err with
        | some e => pure ({}, some e)
        | none => do
          let err ← reconcileUser.roles os userID serviceProjectID roleNames
          match err with
          | some e => pure ({}, some e)
          | none => pure ({}, none)

/-- The part of `reconcileDelete` after the cleanup of the backend: the
finalizer of this service leaves the KeystoneAPI, when there is one, and
the finalizer of the instance is removed. -/
def reconcileDelete.finalizers {σ : Type} (w : World σ) (inst : KeystoneService)
    (helper : Helper) (keystoneAPI : Option KeystoneAPI) :
    M σ (KeystoneService × Result × Option GoError) :=
  -- There are certain deletion scenarios where we might not have the keystoneAPI
  match keystoneAPI with
  | some api =>
    -- Remove the finalizer for this service from the KeystoneAPI
    let removed := controllerutil.RemoveFinalizer api.Finalizers
      (sprintfDash helper.GetFinalizer inst.Name)
    let api := { api with Finalizers := removed.1 }
    if removed.2 then do
      let err ← call (Call.Update api) (w.Update api)
      match err with
      | some e => pure (inst, {}, some e)
      | none =>
        -- Service is deleted so remove the finalizer.
        pure (inst.removeFinalizer helper.GetFinalizer, {}, none)
    else pure (inst.removeFinalizer helper.GetFinalizer, {}, none)
  | none => pure (inst.removeFinalizer helper.GetFinalizer, {}, none)

/-- The function `reconcileDelete`. -/
def reconcileDelete {σ : Type} (w : World σ) (inst : KeystoneService) (helper : Helper)
    (os : Option (OpenStack σ)) (keystoneAPI : Option KeystoneAPI) :
    M σ (KeystoneService × Result × Option GoError) :=
  -- only cleanup the service if there is the ServiceID reference in the
  -- object status and if we have an OpenStack backend to use
  if inst.Status.ServiceID != "" && os.isSome then do
    -- Delete User
    let err ← onClient os (Call.DeleteUser inst.Spec.ServiceUser "default")
      (fun o => o.DeleteUser inst.Spec.ServiceUser "default")
    match err with
    | some e => pure (inst, {}, some e)
    | none => do
      -- Delete Service
      let err ← onClient os (Call.DeleteService inst.Status.ServiceID)
        (fun o => o.DeleteService inst.Status.ServiceID)
      match err with
      | some e => pure (inst, {}, some e)
      | none =>
        -- Clear the service ID
        let inst := { inst with Status := { inst.Status with ServiceID := "" } }
        reconcileDelete.finalizers w inst helper keystoneAPI
  else reconcileDelete.finalizers w inst helper keystoneAPI

/-- The function `reconcileDeleteFinalizersOnly`. -/
def reconcileDeleteFinalizersOnly {σ : Type} (w : World σ) (inst : KeystoneService)
    (helper : Helper) (keystoneAPI : Option KeystoneAPI) :
    M σ (KeystoneService × Result × Option GoError) :=
  match keystoneAPI with
  | none => M.panic nilDereference
  | some api =>
    let removed := controllerutil.RemoveFinalizer api.Finalizers
      (sprintfDash helper.GetFinalizer inst.Name)
    let api := { api with Finalizers := removed.1 }
    if removed.2 then do
      let err ← call (Call.Update api) (w.Update api)
      match err with
      | some e => pure (inst, {}, some e)
      | none => pure (inst.removeFinalizer helper.GetFinalizer, {}, none)
    else pure (inst.removeFinalizer helper.GetFinalizer, {}, none)

/-- The part of `reconcileNormal` after the finalizer of the KeystoneAPI:
the service and then the user. -/
def reconcileNormal.sync {σ : Type} (ServiceNotFound : String) (w : World σ)
    (inst : KeystoneService) (os : Option (OpenStack σ)) :
    M σ (KeystoneService × Result × Option GoError) := do
  -- Create new service if ServiceID is not already set
  let (inst, err) ← reconcileService ServiceNotFound inst os
  match err with
  | some e =>
    pure (inst.setCondition (FalseCondition KeystoneServiceOSServiceReadyCondition
      Reason.ErrorReason Severity.SeverityWarning
      MessageFormat.KeystoneServiceOSServiceReadyErrorMessage [e.text]), {}, some e)
  | none => do
    let inst := inst.markTrue KeystoneServiceOSServiceReadyCondition
      MessageFormat.KeystoneServiceOSServiceReadyMessage
      [inst.Spec.ServiceName, inst.Status.ServiceID]
    -- create/update service user
    let (ctrlResult, err) ← reconcileUser w inst os
    match err with
    | some e =>
      pure (inst.setCondition (FalseCondition KeystoneServiceOSUserReadyCondition
        Reason.ErrorReason Severity.SeverityWarning
        MessageFormat.KeystoneServiceOSUserReadyErrorMessage [e.text]), ctrlResult, some e)
    | none =>
      if ctrlResult != {} then
        pure (inst.setCondition (FalseCondition KeystoneServiceOSUserReadyCondition
          Reason.RequestedReason Severity.SeverityInfo
          MessageFormat.KeystoneServiceOSUserReadyWaitingMessage []), ctrlResult, none)
      else
        pure (inst.markTrue KeystoneServiceOSUserReadyCondition
          MessageFormat.KeystoneServiceOSUserReadyMessage [inst.Spec.ServiceUser], {}, none)

/-- The function `reconcileNormal`. -/
def reconcileNormal {σ : Type} (ServiceNotFound : String) (w : World σ) (inst : KeystoneService)
    (helper : Helper) (os : Option (OpenStack σ)) (keystoneAPI : Option KeystoneAPI) :
    M σ (KeystoneService × Result × Option GoError) :=
  match keystoneAPI with
  | none => M.panic nilDereference
  | some api =>
    -- Add a finalizer to the KeystoneAPI for this service instance
    let added := controllerutil.AddFinalizer api.Finalizers
      (sprintfDash helper.GetFinalizer inst.Name)
    let api := { api with Finalizers := added.1 }
    if added.2 then do
      let err ← call (Call.Update api) (w.Update api)
      match err with
      | some e => pure (inst, {}, some e)
      | none => reconcileNormal.sync ServiceNotFound w inst os
    else reconcileNormal.sync ServiceNotFound w inst os

/-- The recomputation of the Ready condition in the deferred function of
`Reconcile`, on the condition list of the instance. -/
def Reconcile.updateReady (conditions : Conditions) : Conditions :=
  -- update the Ready condition based on the sub conditions
  if conditions.AllSubConditionIsTrue then
    conditions.MarkTrue ReadyCondition MessageFormat.ReadyMessage []
  else
    -- something is not ready so reset the Ready condition
    let conditions := conditions.MarkUnknown ReadyCondition Reason.InitReason
      MessageFormat.ReadyInitMessage []
    -- and recalculate it based on the state of the rest of the conditions
    conditions.SetPtr (conditions.Mirror ReadyCondition)

/-- The deferred function of `Reconcile`, applied to the way the body ended:
after a panic it panics again with the recovered value; otherwise it
recomputes Ready and patches the instance, and an error of the patch replaces
the error of the body. -/
def Reconcile.deferred {σ : Type} (w : World σ)
    (body : Res (KeystoneService × Result × Option GoError)) : M σ (Result × Option GoError) :=
  match body with
  | Res.panic r =>
    -- Don't update the status, if Reconciler Panics
    M.panic r
  | Res.ok (inst, result, _err) => do
    let inst := { inst with Status := { inst.Status with
      Conditions := some (Reconcile.updateReady (inst.Status.Conditions.getD [])) } }
    let err ← call (Call.PatchInstance inst) (w.PatchInstance inst)
    match err with
    | some e => pure (result, some e)
    | none => pure (result, _err)

/-- The body of `Reconcile` after the deferred function is registered. It
returns the instance as the body leaves it, next to the result and the error. -/
def Reconcile.body {σ : Type} (ServiceNotFound : String) (w : World σ) (inst : KeystoneService)
    (helper : Helper) : M σ (KeystoneService × Result × Option GoError) :=
  -- initialize status
  if inst.Status.Conditions.isNone then
    let cl := CreateList [
      UnknownCondition KeystoneAPIReadyCondition Reason.InitReason
        MessageFormat.KeystoneAPIReadyInitMessage [],
      UnknownCondition AdminServiceClientReadyCondition Reason.InitReason
        MessageFormat.AdminServiceClientReadyInitMessage [],
      UnknownCondition KeystoneServiceOSServiceReadyCondition Reason.InitReason
        MessageFormat.KeystoneServiceOSServiceReadyInitMessage [],
      UnknownCondition KeystoneServiceOSUserReadyCondition Reason.InitReason
        MessageFormat.KeystoneServiceOSUserReadyInitMessage []]
    -- Register overall status immediately to have an early feedback
    pure ({ inst with Status := { inst.Status with Conditions := some (Conditions.Init cl) } },
      {}, none)
  else
    -- If we're not deleting this and the service object doesn't have our finalizer, add it.
    let added := controllerutil.AddFinalizer inst.Finalizers helper.GetFinalizer
    if IsZero inst.DeletionTimestamp && added.2 then
      pure ({ inst with Finalizers := added.1 }, {}, none)
    else do
      -- Validate that keystoneAPI is up
      let (keystoneAPI, err) ← call (Call.GetKeystoneAPI inst.Namespace)
        (w.GetKeystoneAPI inst.Namespace)
      match err with
      | some e =>
        if k8s_errors.IsNotFound e then
          if !IsZero inst.DeletionTimestamp && inst.Status.ServiceID == "" then
            reconcileDelete w inst helper none none
          else
            pure (inst.setCondition (FalseCondition KeystoneAPIReadyCondition Reason.ErrorReason
              Severity.SeverityWarning MessageFormat.KeystoneAPIReadyNotFoundMessage []),
              { RequeueAfter := time.Second * 5 }, none)
        else
          pure (inst.setCondition (FalseCondition KeystoneAPIReadyCondition Reason.ErrorReason
            Severity.SeverityWarning MessageFormat.KeystoneAPIReadyErrorMessage [e.text]),
            {}, some e)
      | none =>
        match keystoneAPI with
        | none => M.panic nilDereference
        | some api =>
          -- If both the service and the KeystoneAPI is deleted then we can skip
          -- the cleanup of the service in the DB as the DB is going away as well.
          if !IsZero inst.DeletionTimestamp && !IsZero api.DeletionTimestamp then
            reconcileDeleteFinalizersOnly w inst helper (some api)
          else if !IsZero inst.DeletionTimestamp && inst.Status.ServiceID == "" then
            reconcileDelete w inst helper none (some api)
          else if !api.IsReady then
            pure (inst.setCondition (FalseCondition KeystoneAPIReadyCondition
              Reason.RequestedReason Severity.SeverityInfo
              MessageFormat.KeystoneAPIReadyWaitingMessage []),
              { RequeueAfter := time.Second * 5 }, none)
          else do
            let inst := inst.markTrue KeystoneAPIReadyCondition
              MessageFormat.KeystoneAPIReadyMessage []
            -- get admin authentication OpenStack
            let (os, ctrlResult, err) ← call (Call.GetAdminServiceClient api)
              (w.GetAdminServiceClient api)
            match err with
            | some e =>
              pure (inst.setCondition (FalseCondition AdminServiceClientReadyCondition
                Reason.ErrorReason Severity.SeverityWarning
                MessageFormat.AdminServiceClientReadyErrorMessage [e.text]), {}, some e)
            | none =>
              if ctrlResult != {} then
                pure (inst.setCondition (FalseCondition AdminServiceClientReadyCondition
                  Reason.RequestedReason Severity.SeverityInfo
                  MessageFormat.AdminServiceClientReadyWaitingMessage []), ctrlResult, none)
              else
                let inst := inst.markTrue AdminServiceClientReadyCondition
                  MessageFormat.AdminServiceClientReadyMessage []
                -- Handle normal service delete
                if !IsZero inst.DeletionTimestamp then
                  reconcileDelete w inst helper os (some api)
                else
                  -- Handle non-deleted clusters
                  reconcileNormal ServiceNotFound w inst helper os (some api)

/-- The function `Reconcile`. The deferred function runs on every way out
of the body once it is registered, that is after the instance is fetched and
the helper is built. -/
def Reconcile {σ : Type} (ServiceNotFound : String) (w : World σ) (req : Request) :
    M σ (Result × Option GoError) := do
  -- Fetch the KeystoneService instance
  let (inst, err) ← call (Call.Get req.Name req.Namespace) (w.Get req.Name req.Namespace)
  match err with
  | some e =>
    if k8s_errors.IsNotFound e then
      -- Request object not found, could have been deleted after reconcile request.
      pure ({}, none)
    else
      -- Error reading the object - requeue the request.
      pure ({}, some e)
  | none => do
    let (helper, err) ← call (Call.NewHelper inst) (w.NewHelper inst)
    match err with
    | some e => pure ({}, some e)
    | none => fun r =>
      match Reconcile.body ServiceNotFound w inst helper r with
      | (body, r1) => Reconcile.deferred w body r1

end KeystoneServiceReconciler


/-! ## Vocabulary of the statements -/

/-- The calls a piece of code issues from a run state: those recorded after it
that were not recorded before. -/
def issued {σ α : Type} (m : M σ α) (r : Run σ) : List Call :=
  (m r).2.calls.drop r.calls.length

/-- The call is a `CreateService`. -/
def Call.isCreateService : Call → Bool
  | Call.CreateService _ => true
  | _ => false

/-- The call is an `UpdateService`. -/
def Call.isUpdateService : Call → Bool
  | Call.UpdateService _ _ => true
  | _ => false

/-- The call goes to the identity backend or asks for its client. -/
def Call.isIdentity : Call → Bool
  | Call.GetAdminServiceClient _ => true
  | Call.GetService _ _ => true
  | Call.CreateService _ => true
  | Call.UpdateService _ _ => true
  | Call.DeleteUser _ _ => true
  | Call.DeleteService _ => true
  | Call.CreateProject _ => true
  | Call.CreateUser _ => true
  | Call.CreateRole _ => true
  | Call.AssignUserRole _ _ _ => true
  | _ => false

/-- The call writes to the identity backend. -/
def Call.isIdentityWrite : Call → Bool
  | Call.CreateService _ => true
  | Call.UpdateService _ _ => true
  | Call.DeleteUser _ _ => true
  | Call.DeleteService _ => true
  | Call.CreateProject _ => true
  | Call.CreateUser _ => true
  | Call.CreateRole _ => true
  | Call.AssignUserRole _ _ _ => true
  | _ => false

/-- The service `reconcileService` asks the backend to create or update:
the four fields of the spec. -/
abbrev wantedService (inst : KeystoneService) : openstack.Service :=
  { Name := inst.Spec.ServiceName, Type_ := inst.Spec.ServiceType,
    Description := inst.Spec.ServiceDescription, Enabled := inst.Spec.Enabled }

/-- The instance with `Status.ServiceID` set to `id` and nothing else changed. -/
abbrev withServiceID (inst : KeystoneService) (id : String) : KeystoneService :=
  { inst with Status := { inst.Status with ServiceID := id } }

/-- The error of `GetService` makes `reconcileService` return at once: there
is one and its text does not contain `ServiceNotFound`. -/
def getServiceFails (ServiceNotFound : String) (err : Option GoError) : Bool :=
  match err with
  | some e => !strings.Contains e.text ServiceNotFound
  | none => false

/-! ## An identity backend and a cluster kept in memory -/

/-- The state of the example collaborators: the services the backend holds. -/
structure Backend where
  services : List services.Service
  deriving DecidableEq, Repr

/-- The text of `openstack.ServiceNotFound` the example backend uses. -/
def exampleServiceNotFound : String := "service not found in keystone"

/-- The answer of an example collaborator to a call that returns an error
only: the fault planned for the call, if any. -/
def faultOnly (fault : Call → Option GoError) (c : Call) (b : Backend) :
    Res (Option GoError) × Backend :=
  (Res.ok (fault c), b)

/-- An identity backend kept in memory. Services are keyed by type and name
(the name is the entry `name` of `Extra`); `fault` plans the calls that fail. -/
def exampleOpenStack (fault : Call → Option GoError) : OpenStack Backend where
  GetService := fun t n b =>
    match fault (Call.GetService t n) with
    | some e => (Res.ok (none, some e), b)
    | none =>
      match b.services.filter (fun s => s.Type_ == t && mapIndex s.Extra "name" == Any.str n) with
      | [] => (Res.ok (none, some { text := n ++ " " ++ exampleServiceNotFound, notFound := false }), b)
      | s :: _ => (Res.ok (some s, none), b)
  CreateService := fun s b =>
    match fault (Call.CreateService s) with
    | some e => (Res.ok ("", some e), b)
    | none =>
      let id := s.Type_ ++ "/" ++ s.Name
      let created : services.Service :=
        { ID := id, Type_ := s.Type_, Enabled := s.Enabled,
          Extra := [("name", Any.str s.Name), ("description", Any.str s.Description)] }
      (Res.ok (id, none), { services := b.services ++ [created] })
  UpdateService := fun s id b =>
    match fault (Call.UpdateService s id) with
    | some e => (Res.ok (some e), b)
    | none =>
      let updated (x : services.Service) : services.Service :=
        if x.ID == id then
          { x with
            Type_ := s.Type_, Enabled := s.Enabled,
            Extra := [("name", Any.str s.Name), ("description", Any.str s.Description)] }
        else x
      (Res.ok none, { services := b.services.map updated })
  DeleteUser := fun n d b => faultOnly fault (Call.DeleteUser n d) b
  DeleteService := fun id b =>
    match fault (Call.DeleteService id) with
    | some e => (Res.ok (some e), b)
    | none => (Res.ok none, { services := b.services.filter (fun x => x.ID != id) })
  CreateProject := fun p b =>
    match fault (Call.CreateProject p) with
    | some e => (Res.ok ("", some e), b)
    | none => (Res.ok ("project/" ++ p.Name, none), b)
  CreateUser := fun u b =>
    match fault (Call.CreateUser u) with
    | some e => (Res.ok ("", some e), b)
    | none => (Res.ok ("user/" ++ u.Name, none), b)
  CreateRole := fun n b =>
    match fault (Call.CreateRole n) with
    | some e => (Res.ok ("", some e), b)
    | none => (Res.ok ("role/" ++ n, none), b)
  AssignUserRole := fun n u p b => faultOnly fault (Call.AssignUserRole n u p) b

/-- No call fails. -/
def noFault : Call → Option GoError := fun _ => none

/-- An example instance: the service `placement`. -/
def exampleInstance : KeystoneService :=
  { Name := "placement", Namespace := "openstack", DeletionTimestamp := none,
    Finalizers := [],
    Spec := { ServiceType := "placement", ServiceName := "placement",
              ServiceDescription := "Placement service", Enabled := true,
              ServiceUser := "placement", Secret := "osp-secret",
              PasswordSelector := "PlacementPassword" },
    Status := { Conditions := none, ServiceID := "" } }

/-- An empty run over an empty backend. -/
def emptyRun : Run Backend := { world := { services := [] }, calls := [] }

/-- A backend that already holds the service of `exampleInstance`, with the
flag and the description the spec asks for. -/
def adoptedBackend : Backend :=
  { services := [
      { ID := "placement/placement", Type_ := "placement", Enabled := true,
        Extra := [("name", Any.str "placement"), ("description", Any.str "Placement service")] }] }

/-- A run that starts on `adoptedBackend`. -/
def adoptedRun : Run Backend := { world := adoptedBackend, calls := [] }

/-- The service `adoptedBackend` holds. -/
def adoptedService : services.Service :=
  { ID := "placement/placement", Type_ := "placement", Enabled := true,
    Extra := [("name", Any.str "placement"), ("description", Any.str "Placement service")] }

/-- A fresh instance that still carries a stale identifier. -/
def staleInstance : KeystoneService :=
  { exampleInstance with Status := { Conditions := none, ServiceID := "stale" } }

/-- The plan of faults in which `GetService` fails for a reason other than
a missing service. -/
def getServiceFault : Call → Option GoError
  | Call.GetService _ _ => some { text := "connection refused", notFound := false }
  | _ => none

/-- The helper the example cluster builds. -/
def exampleHelper : Helper := { finalizer := "openstack.org/keystoneservice" }

/-- A cluster kept in memory: `Get` returns `inst`, `GetKeystoneAPI` returns
`api` (a not-found error when there is none), the secret holds a password and
the admin client is `exampleOpenStack`; `fault` plans the calls that fail. -/
def exampleWorld (inst : KeystoneService) (api : Option KeystoneAPI)
    (fault : Call → Option GoError) : World Backend where
  Get := fun name ns b => (Res.ok (inst, fault (Call.Get name ns)), b)
  NewHelper := fun i b => (Res.ok (exampleHelper, fault (Call.NewHelper i)), b)
  PatchInstance := fun i b => (Res.ok (fault (Call.PatchInstance i)), b)
  GetKeystoneAPI := fun ns b =>
    match fault (Call.GetKeystoneAPI ns) with
    | some e => (Res.ok (none, some e), b)
    | none =>
      match api with
      | some a => (Res.ok (some a, none), b)
      | none => (Res.ok (none, some { text := "keystoneapi not found", notFound := true }), b)
  Update := fun a b => (Res.ok (fault (Call.Update a)), b)
  GetAdminServiceClient := fun a b =>
    match fault (Call.GetAdminServiceClient a) with
    | some e => (Res.ok (none, {}, some e), b)
    | none => (Res.ok (some (exampleOpenStack fault), {}, none), b)
  GetDataFromSecret := fun name after key b =>
    match fault (Call.GetDataFromSecret name after key) with
    | some e => (Res.ok ("", {}, some e), b)
    | none => (Res.ok ("12345678", {}, none), b)

/-- The plan of faults in which creating the role `service` fails. -/
def serviceRoleFault : Call → Option GoError
  | Call.CreateRole "service" => some { text := "role quota exceeded", notFound := false }
  | _ => none

/-- The number of conditions of type `t` in the list. -/
def condition.Conditions.count (conditions : condition.Conditions) (t : condition.CondType) :
    Nat :=
  conditions.countP (fun c => c.Type_ == t)

/-- Every value the code returns satisfies `P`, from whatever state it runs. -/
def M.returns {σ α : Type} (m : M σ α) (P : α → Prop) : Prop :=
  ∀ r a r1, m r = (Res.ok a, r1) → P a

/-- The instance holds at most one condition of type Ready. -/
def KeystoneService.readyAtMostOnce (inst : KeystoneService) : Prop :=
  condition.Conditions.count (inst.Status.Conditions.getD []) condition.ReadyCondition ≤ 1

/-- The conditions of an instance after its first pass: Ready and the four
sub-conditions, all Unknown. -/
def seededConditions : condition.Conditions :=
  [ condition.UnknownCondition condition.ReadyCondition condition.Reason.InitReason
      condition.MessageFormat.ReadyInitMessage [],
    condition.UnknownCondition KeystoneAPIReadyCondition condition.Reason.InitReason
      condition.MessageFormat.KeystoneAPIReadyInitMessage [],
    condition.UnknownCondition AdminServiceClientReadyCondition condition.Reason.InitReason
      condition.MessageFormat.AdminServiceClientReadyInitMessage [],
    condition.UnknownCondition KeystoneServiceOSServiceReadyCondition
      condition.Reason.InitReason
      condition.MessageFormat.KeystoneServiceOSServiceReadyInitMessage [],
    condition.UnknownCondition KeystoneServiceOSUserReadyCondition condition.Reason.InitReason
      condition.MessageFormat.KeystoneServiceOSUserReadyInitMessage [] ]

/-- The example instance after its first pass. -/
def seededInstance : KeystoneService :=
  { exampleInstance with Status := { Conditions := some seededConditions, ServiceID := "" } }

/-- The request for the example instance. -/
def exampleRequest : Request := { Namespace := "openstack", Name := "placement" }

/-- The instance the deferred function of `Reconcile` patches when the body
left `inst`: `inst` with its conditions recomputed. -/
def patchedInstance (inst : KeystoneService) : KeystoneService :=
  { inst with Status := { inst.Status with
      Conditions := some (KeystoneServiceReconciler.Reconcile.updateReady
        (inst.Status.Conditions.getD [])) } }

/-- Conditions of an instance that waits for its KeystoneAPI: one
sub-condition is False, one is True and two are Unknown. -/
def waitingConditions : condition.Conditions :=
  [ condition.UnknownCondition condition.ReadyCondition condition.Reason.InitReason
      condition.MessageFormat.ReadyInitMessage [],
    condition.TrueCondition AdminServiceClientReadyCondition
      condition.MessageFormat.AdminServiceClientReadyMessage [],
    condition.FalseCondition KeystoneAPIReadyCondition condition.Reason.RequestedReason
      condition.Severity.SeverityInfo condition.MessageFormat.KeystoneAPIReadyWaitingMessage [],
    condition.UnknownCondition KeystoneServiceOSServiceReadyCondition
      condition.Reason.InitReason
      condition.MessageFormat.KeystoneServiceOSServiceReadyInitMessage [],
    condition.UnknownCondition KeystoneServiceOSUserReadyCondition condition.Reason.InitReason
      condition.MessageFormat.KeystoneServiceOSUserReadyInitMessage [] ]

/-- The error of a status patch that meets a conflict. -/
def patchError : GoError :=
  { text := "the object has been modified; please apply your changes to the latest version",
    notFound := false }

/-- The plan of faults in which the status patch fails. -/
def patchFault : Call → Option GoError
  | Call.PatchInstance _ => some patchError
  | _ => none

/-- The plan of faults in which the helper cannot be built. -/
def helperFault : Call → Option GoError
  | Call.NewHelper _ => some { text := "no kind is registered for the type", notFound := false }
  | _ => none

/-- The list `cl` the first pass hands to `Init`: the four sub-conditions. -/
def seededSubConditions : condition.Conditions :=
  condition.CreateList [
    condition.UnknownCondition KeystoneAPIReadyCondition condition.Reason.InitReason
      condition.MessageFormat.KeystoneAPIReadyInitMessage [],
    condition.UnknownCondition AdminServiceClientReadyCondition condition.Reason.InitReason
      condition.MessageFormat.AdminServiceClientReadyInitMessage [],
    condition.UnknownCondition KeystoneServiceOSServiceReadyCondition
      condition.Reason.InitReason
      condition.MessageFormat.KeystoneServiceOSServiceReadyInitMessage [],
    condition.UnknownCondition KeystoneServiceOSUserReadyCondition condition.Reason.InitReason
      condition.MessageFormat.KeystoneServiceOSUserReadyInitMessage []]

/-- The instance with its conditions replaced by `conds`. -/
abbrev withConditions (inst : KeystoneService) (conds : condition.Conditions) :
    KeystoneService :=
  { inst with Status := { inst.Status with Conditions := some conds } }

/-- The KeystoneAPI with the finalizer `token` taken off its list. -/
abbrev withoutFinalizer (keystoneAPI : KeystoneAPI) (token : String) : KeystoneAPI :=
  { keystoneAPI with Finalizers := keystoneAPI.Finalizers.filter (fun f => f != token) }

/-- Every call the code issues satisfies `P`, from whatever state it runs and
however it ends. -/
def M.issuesOnly {σ α : Type} (m : M σ α) (P : Call → Prop) : Prop :=
  ∀ r, ∃ l, (m r).2.calls = r.calls ++ l ∧ ∀ c ∈ l, P c

/-- A KeystoneAPI that is being deleted and still carries the finalizer of
the example instance next to one of its own. -/
def deletedKeystoneAPI : KeystoneAPI :=
  { Name := "keystone", Namespace := "openstack", DeletionTimestamp := some 1700000000,
    Finalizers := ["openstack.org/keystoneapi", "openstack.org/keystoneservice-placement"],
    Conditions := [] }

/-- The example instance while it is being deleted: conditions seeded, its own
finalizer set, a service registered. -/
def deletedInstance : KeystoneService :=
  { exampleInstance with
    DeletionTimestamp := some 1700000000,
    Finalizers := ["openstack.org/keystoneservice"],
    Status := { Conditions := some seededConditions, ServiceID := "placement/placement" } }

/-- The plan of faults in which the update of the KeystoneAPI fails. -/
def updateFault : Call → Option GoError
  | Call.Update _ => some { text := "etcdserver: request timed out", notFound := false }
  | _ => none

/-- A KeystoneAPI that is ready and not being deleted, carrying the finalizer
of the example instance next to one of its own. -/
def readyKeystoneAPI : KeystoneAPI :=
  { Name := "keystone", Namespace := "openstack", DeletionTimestamp := none,
    Finalizers := ["openstack.org/keystoneapi", "openstack.org/keystoneservice-placement"],
    Conditions := [condition.TrueCondition condition.ReadyCondition
      condition.MessageFormat.ReadyMessage []] }

/-- A KeystoneAPI that is not ready yet and not being deleted, carrying the
finalizer of the example instance next to one of its own. -/
def waitingKeystoneAPI : KeystoneAPI :=
  { Name := "keystone", Namespace := "openstack", DeletionTimestamp := none,
    Finalizers := ["openstack.org/keystoneapi", "openstack.org/keystoneservice-placement"],
    Conditions := [] }

/-- A ready KeystoneAPI that no service has put a finalizer on yet. -/
def freshKeystoneAPI : KeystoneAPI :=
  { Name := "keystone", Namespace := "openstack", DeletionTimestamp := none,
    Finalizers := ["openstack.org/keystoneapi"],
    Conditions := [condition.TrueCondition condition.ReadyCondition
      condition.MessageFormat.ReadyMessage []] }

/-- The KeystoneAPI with the finalizer `token` put at the end of its list. -/
abbrev withFinalizer (keystoneAPI : KeystoneAPI) (token : String) : KeystoneAPI :=
  { keystoneAPI with Finalizers := keystoneAPI.Finalizers ++ [token] }

/-- The call is an `Update` of the KeystoneAPI. -/
def Call.isUpdate : Call → Bool
  | Call.Update _ => true
  | _ => false

/-- The example instance in normal operation: conditions seeded, its own
finalizer set, no service registered yet. -/
def liveInstance : KeystoneService :=
  { exampleInstance with
    Finalizers := ["openstack.org/keystoneservice"],
    Status := { Conditions := some seededConditions, ServiceID := "" } }

/-- The error `Reconcile` returns when its body returned `err` and the status
patch of the deferred function returned `perr`: the error of the patch when
there is one, the error of the body otherwise. -/
def returnedError (perr err : Option GoError) : Option GoError :=
  match perr with
  | some e => some e
  | none => err

/-- The error of an update that finds the KeystoneAPI gone. -/
def goneError : GoError :=
  { text := "keystoneapis.keystone.openstack.org keystone not found", notFound := true }

/-- The plan of faults in which the update of the KeystoneAPI reports
not-found. -/
def updateGoneFault : Call → Option GoError
  | Call.Update _ => some goneError
  | _ => none

/-- The example instance while it is being deleted with no service
registered: conditions seeded, its own finalizer set. -/
def deletedFreshInstance : KeystoneService :=
  { exampleInstance with
    DeletionTimestamp := some 1700000000,
    Finalizers := ["openstack.org/keystoneservice"],
    Status := { Conditions := some seededConditions, ServiceID := "" } }

/-- The example cluster while the password secret does not exist yet: the
secret provider returns no error and a requeue after the delay it was given. -/
def pendingSecretWorld (inst : KeystoneService) (api : Option KeystoneAPI)
    (fault : Call → Option GoError) : World Backend :=
  { exampleWorld inst api fault with
    GetDataFromSecret := fun _ after _ b => (Res.ok ("", { RequeueAfter := after }, none), b) }

/-- The plan of faults in which `DeleteUser` fails. -/
def deleteUserFault : Call → Option GoError
  | Call.DeleteUser _ _ => some { text := "keystone: 503 service unavailable", notFound := false }
  | _ => none

/-- The plan of faults in which `DeleteService` fails. -/
def deleteServiceFault : Call → Option GoError
  | Call.DeleteService _ => some { text := "keystone: 409 conflict", notFound := false }
  | _ => none

/-- The plan of faults in which `CreateService` fails. -/
def createServiceFault : Call → Option GoError
  | Call.CreateService _ => some { text := "keystone: 500 internal error", notFound := false }
  | _ => none

/-- The service of `exampleInstance` as a backend may hold it after an
adoption: the entry `description` of `Extra` is missing. -/
def bareService : services.Service :=
  { ID := "placement/placement", Type_ := "placement", Enabled := true,
    Extra := [("name", Any.str "placement")] }

/-- A run that starts on a backend that holds `bareService`. -/
def bareRun : Run Backend := { world := { services := [bareService] }, calls := [] }

/-- The example instance asking for the empty description. -/
def plainInstance : KeystoneService :=
  { exampleInstance with Spec := { exampleInstance.Spec with ServiceDescription := "" } }

/-- The example cluster when the provider of the admin client hands out a nil
client with no error and no requeue. -/
def clientlessWorld (inst : KeystoneService) (api : Option KeystoneAPI)
    (fault : Call → Option GoError) : World Backend :=
  { exampleWorld inst api fault with
    GetAdminServiceClient := fun _ b => (Res.ok (none, {}, none), b) }

/-- The plan of faults in which the instance of the request is gone. -/
def getGoneFault : Call → Option GoError
  | Call.Get _ _ =>
    some { text := "keystoneservices.keystone.openstack.org placement not found",
           notFound := true }
  | _ => none

/-- The plan of faults in which reading the instance fails. -/
def getFault : Call → Option GoError
  | Call.Get _ _ => some { text := "context deadline exceeded", notFound := false }
  | _ => none

/-- The plan of faults in which the admin client cannot be had. -/
def adminClientFault : Call → Option GoError
  | Call.GetAdminServiceClient _ =>
    some { text := "keystone endpoint not reachable", notFound := false }
  | _ => none

/-- The plan of faults in which the lookup of the KeystoneAPI fails for a
reason other than a missing object. -/
def lookupFault : Call → Option GoError
  | Call.GetKeystoneAPI _ => some { text := "connection reset by peer", notFound := false }
  | _ => none

/-! ## The admission webhook of the KeystoneAPI

The embedding of `api/v1beta1/keystoneapi_webhook.go`: the functions
`ValidateCreate` of `KeystoneAPI`, `KeystoneAPISpec` and `KeystoneAPISpecCore`,
over the fields of the object they read. -/

namespace v1beta1

/-- A `*field.Path`: the names from the root, as `NewPath`, `Child` and `Key`
put them together. -/
abbrev Path := List String

/-- The Go function `field.NewPath(name)`. -/
def NewPath (name : String) : Path := [name]

/-- The Go method `path.Child(name)`. -/
def Path.Child (path : Path) (name : String) : Path := path ++ [name]

/-- One `*field.Error`: the path of the field, the value found and the detail. -/
structure FieldError where
  Field : Path
  BadValue : String
  Detail : String
  deriving DecidableEq, Repr

/-- The type `field.ErrorList`. -/
abbrev ErrorList := List FieldError

/-- The struct `service.RoutedOverrideSpec`, as far as its endpoint URL. The
webhook hands it on without looking into it. -/
structure RoutedOverrideSpec where
  EndpointURL : Option String := none
  deriving DecidableEq, Repr

/-- The struct `APIOverrideSpec`: the map `Service` from endpoint to override,
as the list of its entries. -/
structure APIOverrideSpec where
  Service : List (String × RoutedOverrideSpec) := []
  deriving DecidableEq, Repr

/-- The struct `KeystoneAPISpecCore`, as far as the webhook and the claims
about the key ring read it: `FernetMaxActiveKeys` is a `*int32`. -/
structure KeystoneAPISpecCore where
  FernetMaxActiveKeys : Option Int := none
  Override : APIOverrideSpec := {}
  deriving DecidableEq, Repr

/-- The struct `KeystoneAPISpec`: the container image and the embedded core. -/
structure KeystoneAPISpec where
  ContainerImage : String := ""
  KeystoneAPISpecCore : KeystoneAPISpecCore := {}
  deriving DecidableEq, Repr

/-- The object `KeystoneAPI` as the webhook sees it: its name and its spec. -/
structure KeystoneAPI where
  Name : String
  Spec : KeystoneAPISpec := {}
  deriving DecidableEq, Repr

/-- The error of `apierrors.NewInvalid(groupKind, name, errs)`. -/
structure InvalidError where
  Group : String
  Kind : String
  Name : String
  Causes : ErrorList
  deriving DecidableEq, Repr

/-- The function `apierrors.NewInvalid` on the group kind
`GroupVersion.WithKind("KeystoneAPI").GroupKind()`; the group is the one of the
webhook markers of the file. -/
def NewInvalid (kind name : String) (errs : ErrorList) : InvalidError :=
  { Group := "keystone.openstack.org", Kind := kind, Name := name, Causes := errs }

/-- The function `KeystoneAPISpecCore.ValidateCreate`.
`ValidateRoutedOverrides` is `service.ValidateRoutedOverrides` of lib-common,
declared outside this repository. -/
def KeystoneAPISpecCore.ValidateCreate
    (ValidateRoutedOverrides : Path → List (String × RoutedOverrideSpec) → ErrorList)
    (spec : KeystoneAPISpecCore) (basePath : Path) : ErrorList :=
  let allErrs : ErrorList := []
  -- validate the service override key is valid
  let allErrs := allErrs ++
    ValidateRoutedOverrides ((basePath.Child "override").Child "service") spec.Override.Service
  allErrs

/-- The function `KeystoneAPISpec.ValidateCreate`. -/
def KeystoneAPISpec.ValidateCreate
    (ValidateRoutedOverrides : Path → List (String × RoutedOverrideSpec) → ErrorList)
    (spec : KeystoneAPISpec) (basePath : Path) : ErrorList :=
  spec.KeystoneAPISpecCore.ValidateCreate ValidateRoutedOverrides basePath

/-- The function `KeystoneAPI.ValidateCreate`: the warnings (always nil) and
the error. A nil `ErrorList` and an empty one are the same list here; appending
either leaves `allErrs` as it is. -/
def KeystoneAPI.ValidateCreate
    (ValidateRoutedOverrides : Path → List (String × RoutedOverrideSpec) → ErrorList)
    (r : KeystoneAPI) : Option (List String) × Option InvalidError :=
  let allErrs : ErrorList := []
  let basePath := NewPath "spec"
  let err := r.Spec.ValidateCreate ValidateRoutedOverrides basePath
  let allErrs := if !err.isEmpty then allErrs ++ err else allErrs
  if allErrs.length != 0 then
    (none, some (NewInvalid "KeystoneAPI" r.Name allErrs))
  else
    (none, none)

/-- An example of `service.ValidateRoutedOverrides`: an error for every key of
the map that is neither `internal` nor `public`. -/
def exampleValidateRoutedOverrides (basePath : Path)
    (overrides : List (String × RoutedOverrideSpec)) : ErrorList :=
  (overrides.filter (fun kv => kv.1 != "internal" && kv.1 != "public")).map
    (fun kv => { Field := basePath ++ [kv.1], BadValue := kv.1,
                 Detail := "invalid endpoint type: " ++ kv.1 })

/-- The KeystoneAPI of the test "FernetMaxActiveKeys is created with a number
lower than 3": `GetKeystoneAPISpec(-1)`, with no override. -/
def lowRingKeystoneAPI : KeystoneAPI :=
  { Name := "keystone",
    Spec := { KeystoneAPISpecCore := { FernetMaxActiveKeys := some (-1) } } }

/-- A KeystoneAPI with a key ring of the default size and an override for an
endpoint that does not exist. -/
def badOverrideKeystoneAPI : KeystoneAPI :=
  { Name := "keystone",
    Spec := { KeystoneAPISpecCore :=
      { FernetMaxActiveKeys := some 5, Override := { Service := [("wrooong", {})] } } } }

end v1beta1

/-! ## The fernet key ring

The code that manages the key ring is not under `src/`; its behaviour is
modelled from the spec. The assertions of the functional tests
(`tests/functional/keystoneapi_controller_test.go`) are embedded from the
source. -/

namespace fernet

/-- A key ring: the keys by index, index 0 first. -/
abbrev Ring := List String

/-- The data of a secret: its entries, name and value. -/
abbrev SecretData := List (String × String)

/-- The Go expression `"FernetKeys"+strconv.Itoa(i)`: the name of the entry of
the secret that holds the key at index `i`. -/
def keyName (i : Nat) : String := "FernetKeys" ++ toString i

/-- The data of the secret that holds the ring: the key at index `i` under the
name `FernetKeys<i>`. -/
def secretData (ring : Ring) : SecretData :=
  ring.enum.map (fun p => (keyName p.1, p.2))

/-- Modelled from the spec: the rotation of the Fernet Key Rotation Manager,
which is not under src/: "generate one new key, insert at index 0, shift all
existing keys up by one index, drop the entity previously at the highest
index". `fresh` is the key generated. -/
def rotate (ring : Ring) (fresh : String) : Ring :=
  fresh :: ring.dropLast

/-- Modelled from the spec: the resize of the Fernet Key Rotation Manager,
which is not under src/: "if desired > current, append freshly generated keys
at the tail immediately; if desired < current, truncate the tail immediately,
preserving index-0 primary". `fresh i` is the key generated for index `i`. -/
def resize (ring : Ring) (desired : Nat) (fresh : Nat → String) : Ring :=
  if desired > ring.length then
    ring ++ (List.range' ring.length (desired - ring.length)).map fresh
  else if desired < ring.length then
    ring.take desired
  else ring

/-- The Go function `strings.HasPrefix(s, prefix)`. -/
def hasPrefix (s pre : String) : Bool := pre.toList.isPrefixOf s.toList

/-- The Go expression `string(secret.Data[name])`: the empty string for a
name the secret does not hold. -/
def SecretData.get (data : SecretData) (name : String) : String :=
  (data.lookup name).getD ""

/-- The body of the `Eventually` of the tests "creates 3 keys", "creates 100
keys", "removes the additional key" and "creates an additional key", for the
number `n` of the test: the entries whose name starts with `FernetKeys` are
`n`, and `FernetKeys0` to `FernetKeys<n-1>` are there. -/
def keysAsserted (data : SecretData) (n : Nat) : Bool :=
  let numberFernetKeys := (data.filter (fun kv => hasPrefix kv.1 "FernetKeys")).length
  numberFernetKeys == n && (List.range n).all (fun i => (data.lookup (keyName i)).isSome)

/-- The body of the `Eventually` of the test "rotates the fernet keys", on the
data of the secret before and after: the loop over `i < 4`. For `i = 0` the old
key 0 is the new key 4; for `i = 1` the old key 1 is not the new key 0; for the
other `i` the old key `i` is the new key `i - 1`. -/
def rotationAsserted (currentSecret updatedSecret : SecretData) : Bool :=
  (List.range 4).all (fun i =>
    if i == 0 then
      -- old idx 0 > new 4
      currentSecret.get (keyName 0) == updatedSecret.get (keyName 4)
    else
      -- old idx > new idx-1, except idx 1 which should be gone and not match new idx 0
      let oldKey := currentSecret.get (keyName i)
      let newKey := updatedSecret.get (keyName (i - 1))
      if i == 1 then oldKey != newKey else oldKey == newKey)

/-- A ring of five keys. -/
def exampleRing : Ring := ["k0", "k1", "k2", "k3", "k4"]

/-- The keys the examples generate: `g<i>` for index `i`. -/
def exampleFresh (i : Nat) : String := "g" ++ toString i

end fernet

/-! # Theorems -/

open KeystoneServiceReconciler

open condition


/-! ## Lemmas on Go values -/

theorem Any.neString_eq_false_iff (v : Any) (s : String) :
    v.neString s = false ↔ v = Any.str s := by
  cases v <;> simp [Any.neString]

theorem Any.neString_eq_true_iff (v : Any) (s : String) :
    v.neString s = true ↔ v ≠ Any.str s := by
  cases v <;> simp [Any.neString]

/-- The comparison of `reconcileService` is false exactly when the flag and
the description both agree. -/
theorem differs_eq_false_iff (svc : services.Service) (inst : KeystoneService) :
    (svc.Enabled != inst.Spec.Enabled ||
      (mapIndex svc.Extra "description").neString inst.Spec.ServiceDescription) = false ↔
    (svc.Enabled = inst.Spec.Enabled ∧
      mapIndex svc.Extra "description" = Any.str inst.Spec.ServiceDescription) := by
  simp [Any.neString_eq_false_iff]

/-! ## How `reconcileService` runs -/

/-- The run of `reconcileService` when `GetService` returns an error that does
not mention `ServiceNotFound`. -/
theorem reconcileService_getFails {σ : Type} (nf : String) (inst : KeystoneService)
    (os : OpenStack σ) (r : Run σ) (service : Option services.Service) (err : Option GoError)
    (s1 : σ)
    (hget : os.GetService inst.Spec.ServiceType inst.Spec.ServiceName r.world
      = (Res.ok (service, err), s1))
    (herr : getServiceFails nf err = true) :
    reconcileService nf inst (some os) r =
      (Res.ok (inst, err),
        { world := s1,
          calls := r.calls ++ [Call.GetService inst.Spec.ServiceType inst.Spec.ServiceName] }) := by
  cases err with
  | none => simp [getServiceFails] at herr
  | some e =>
    simp only [getServiceFails, Bool.not_eq_true'] at herr
    simp [reconcileService, onClient, call, bind, M.bind, pure, M.pure, hget, herr]

/-- The run of `reconcileService` when `GetService` returns no service and no
error that ends the run: `CreateService` is called. -/
theorem reconcileService_absent {σ : Type} (nf : String) (inst : KeystoneService)
    (os : OpenStack σ) (r : Run σ) (err : Option GoError) (s1 : σ)
    (hget : os.GetService inst.Spec.ServiceType inst.Spec.ServiceName r.world
      = (Res.ok (none, err), s1))
    (herr : getServiceFails nf err = false) :
    reconcileService nf inst (some os) r =
      match os.CreateService (wantedService inst) s1 with
      | (Res.ok (id, cerr), s2) =>
        (Res.ok (withServiceID inst id, cerr),
          { world := s2,
            calls := r.calls ++ [Call.GetService inst.Spec.ServiceType inst.Spec.ServiceName,
              Call.CreateService (wantedService inst)] })
      | (Res.panic v, s2) =>
        (Res.panic v,
          { world := s2,
            calls := r.calls ++ [Call.GetService inst.Spec.ServiceType inst.Spec.ServiceName,
              Call.CreateService (wantedService inst)] }) := by
  have hrun : reconcileService nf inst (some os) r =
      reconcileService.sync inst (some os) none
        { world := s1,
          calls := r.calls ++ [Call.GetService inst.Spec.ServiceType inst.Spec.ServiceName] } := by
    cases err with
    | none => simp [reconcileService, onClient, call, bind, M.bind, hget]
    | some e =>
      simp only [getServiceFails, Bool.not_eq_false'] at herr
      simp [reconcileService, onClient, call, bind, M.bind, hget, herr]
  rw [hrun]
  rcases hc : os.CreateService (wantedService inst) s1 with ⟨res, s2⟩
  rcases res with ⟨id, cerr⟩ | v
  · cases cerr <;>
      simp [reconcileService.sync, onClient, call, bind, M.bind, pure, M.pure, withServiceID,
        show os.CreateService _ s1 = _ from hc]
  · simp [reconcileService.sync, onClient, call, bind, M.bind, pure, M.pure, withServiceID,
      show os.CreateService _ s1 = _ from hc]

/-- The run of `reconcileService` when `GetService` returns a service and no
error that ends the run: the identifier is taken over and `UpdateService` is
called when the comparison says so. -/
theorem reconcileService_found {σ : Type} (nf : String) (inst : KeystoneService)
    (os : OpenStack σ) (r : Run σ) (svc : services.Service) (err : Option GoError) (s1 : σ)
    (hget : os.GetService inst.Spec.ServiceType inst.Spec.ServiceName r.world
      = (Res.ok (some svc, err), s1))
    (herr : getServiceFails nf err = false) :
    reconcileService nf inst (some os) r =
      if (svc.Enabled != inst.Spec.Enabled ||
          (mapIndex svc.Extra "description").neString inst.Spec.ServiceDescription) = true then
        match os.UpdateService (wantedService inst) svc.ID s1 with
        | (Res.ok uerr, s2) =>
          (Res.ok (withServiceID inst svc.ID, uerr),
            { world := s2,
              calls := r.calls ++ [Call.GetService inst.Spec.ServiceType inst.Spec.ServiceName,
                Call.UpdateService (wantedService inst) svc.ID] })
        | (Res.panic v, s2) =>
          (Res.panic v,
            { world := s2,
              calls := r.calls ++ [Call.GetService inst.Spec.ServiceType inst.Spec.ServiceName,
                Call.UpdateService (wantedService inst) svc.ID] })
      else
        (Res.ok (withServiceID inst svc.ID, none),
          { world := s1,
            calls := r.calls ++ [Call.GetService inst.Spec.ServiceType inst.Spec.ServiceName] }) := by
  have hrun : reconcileService nf inst (some os) r =
      reconcileService.sync inst (some os) (some svc)
        { world := s1,
          calls := r.calls ++ [Call.GetService inst.Spec.ServiceType inst.Spec.ServiceName] } := by
    cases err with
    | none => simp [reconcileService, onClient, call, bind, M.bind, hget]
    | some e =>
      simp only [getServiceFails, Bool.not_eq_false'] at herr
      simp [reconcileService, onClient, call, bind, M.bind, hget, herr]
  rw [hrun]
  by_cases hd : (svc.Enabled != inst.Spec.Enabled ||
      (mapIndex svc.Extra "description").neString inst.Spec.ServiceDescription) = true
  · rw [if_pos hd]
    rcases hc : os.UpdateService (wantedService inst) svc.ID s1 with ⟨res, s2⟩
    rcases res with uerr | v
    · cases uerr <;>
        simp [reconcileService.sync, onClient, call, bind, M.bind, pure, M.pure, withServiceID,
          hd, show os.UpdateService _ svc.ID s1 = _ from hc]
    · simp [reconcileService.sync, onClient, call, bind, M.bind, pure, M.pure, withServiceID,
        hd, show os.UpdateService _ svc.ID s1 = _ from hc]
  · rw [if_neg hd]
    simp [reconcileService.sync, pure, M.pure, withServiceID, hd]


theorem getServiceFails_eq_false_iff (nf : String) (err : Option GoError) :
    getServiceFails nf err = false ↔ ∀ e, err = some e → strings.Contains e.text nf = true := by
  cases err <;> simp [getServiceFails]

theorem issued_eq_of_calls {σ α : Type} (m : M σ α) (r : Run σ) (l : List Call)
    (h : (m r).2.calls = r.calls ++ l) : issued m r = l := by
  simp [issued, h]

/-- The calls of `reconcileService` when `GetService` returns a service and no
error that ends the run. -/
theorem reconcileService_found_calls {σ : Type} (nf : String) (inst : KeystoneService)
    (os : OpenStack σ) (r : Run σ) (svc : services.Service) (err : Option GoError) (s1 : σ)
    (hget : os.GetService inst.Spec.ServiceType inst.Spec.ServiceName r.world
      = (Res.ok (some svc, err), s1))
    (herr : getServiceFails nf err = false) :
    issued (reconcileService nf inst (some os)) r =
      Call.GetService inst.Spec.ServiceType inst.Spec.ServiceName ::
        (if svc.Enabled = inst.Spec.Enabled ∧
            mapIndex svc.Extra "description" = Any.str inst.Spec.ServiceDescription then []
         else [Call.UpdateService (wantedService inst) svc.ID]) := by
  apply issued_eq_of_calls
  rw [reconcileService_found nf inst os r svc err s1 hget herr]
  by_cases hd : (svc.Enabled != inst.Spec.Enabled ||
      (mapIndex svc.Extra "description").neString inst.Spec.ServiceDescription) = true
  · have hn : ¬ (svc.Enabled = inst.Spec.Enabled ∧
        mapIndex svc.Extra "description" = Any.str inst.Spec.ServiceDescription) := by
      rw [← differs_eq_false_iff]; simp [hd]
    rw [if_pos hd, if_neg hn]
    rcases os.UpdateService (wantedService inst) svc.ID s1 with ⟨res, s2⟩
    rcases res with uerr | v <;> rfl
  · have hs : svc.Enabled = inst.Spec.Enabled ∧
        mapIndex svc.Extra "description" = Any.str inst.Spec.ServiceDescription := by
      rw [← differs_eq_false_iff]; simpa using hd
    rw [if_neg hd, if_pos hs]

/-- C1: when `GetService` finds a service for the type and name of the spec,
`reconcileService` issues `UpdateService` if and only if the enabled flag of
the service differs from `Spec.Enabled` or its description (the entry
`description` of `Extra`) differs from `Spec.ServiceDescription`; when both
agree it issues `GetService` alone, so no write reaches the identity backend. -/
theorem reconcileService_updates_iff_differs {σ : Type} (nf : String) (inst : KeystoneService)
    (os : OpenStack σ) (r : Run σ) (svc : services.Service) (err : Option GoError) (s1 : σ)
    (hget : os.GetService inst.Spec.ServiceType inst.Spec.ServiceName r.world
      = (Res.ok (some svc, err), s1))
    (herr : ∀ e, err = some e → strings.Contains e.text nf = true) :
    ((∃ c ∈ issued (reconcileService nf inst (some os)) r, c.isUpdateService = true) ↔
      (svc.Enabled ≠ inst.Spec.Enabled ∨
        mapIndex svc.Extra "description" ≠ Any.str inst.Spec.ServiceDescription)) ∧
    ((svc.Enabled ≠ inst.Spec.Enabled ∨
        mapIndex svc.Extra "description" ≠ Any.str inst.Spec.ServiceDescription) →
      issued (reconcileService nf inst (some os)) r =
        [Call.GetService inst.Spec.ServiceType inst.Spec.ServiceName,
         Call.UpdateService
           { Name := inst.Spec.ServiceName, Type_ := inst.Spec.ServiceType,
             Description := inst.Spec.ServiceDescription, Enabled := inst.Spec.Enabled }
           svc.ID]) ∧
    ((svc.Enabled = inst.Spec.Enabled ∧
        mapIndex svc.Extra "description" = Any.str inst.Spec.ServiceDescription) →
      issued (reconcileService nf inst (some os)) r =
        [Call.GetService inst.Spec.ServiceType inst.Spec.ServiceName] ∧
      ∀ c ∈ issued (reconcileService nf inst (some os)) r, c.isIdentityWrite = false) := by
  have hcalls := reconcileService_found_calls nf inst os r svc err s1 hget
    ((getServiceFails_eq_false_iff nf err).2 herr)
  by_cases hs : svc.Enabled = inst.Spec.Enabled ∧
      mapIndex svc.Extra "description" = Any.str inst.Spec.ServiceDescription
  · rw [if_pos hs] at hcalls
    have hnd : ¬ (svc.Enabled ≠ inst.Spec.Enabled ∨
        mapIndex svc.Extra "description" ≠ Any.str inst.Spec.ServiceDescription) := by
      simp [hs.1, hs.2]
    refine ⟨?_, fun hd => absurd hd hnd, fun _ => ⟨hcalls, ?_⟩⟩
    · simp [hcalls, Call.isUpdateService, hnd, hs.1, hs.2]
    · simp [hcalls, Call.isIdentityWrite]
  · rw [if_neg hs] at hcalls
    have hd : svc.Enabled ≠ inst.Spec.Enabled ∨
        mapIndex svc.Extra "description" ≠ Any.str inst.Spec.ServiceDescription := by
      by_contra hcon
      apply hs
      constructor
      · by_contra h1; exact hcon (Or.inl h1)
      · by_contra h2; exact hcon (Or.inr h2)
    refine ⟨?_, fun _ => hcalls, fun hs2 => absurd hs2 hs⟩
    simp only [hcalls, hd, iff_true]
    exact ⟨_, List.mem_cons_of_mem _ (List.mem_singleton.2 rfl), rfl⟩

/-- Witness of C1: on a backend that holds the service as the spec describes
it, the only call is `GetService`. -/
theorem reconcileService_updates_iff_differs_witness :
    (exampleOpenStack noFault).GetService exampleInstance.Spec.ServiceType
        exampleInstance.Spec.ServiceName adoptedRun.world
      = (Res.ok (some adoptedService, none), adoptedBackend) ∧
    issued (reconcileService exampleServiceNotFound exampleInstance
        (some (exampleOpenStack noFault))) adoptedRun =
      [Call.GetService exampleInstance.Spec.ServiceType exampleInstance.Spec.ServiceName] :=
  ⟨rfl, ((reconcileService_updates_iff_differs exampleServiceNotFound exampleInstance
    (exampleOpenStack noFault) adoptedRun adoptedService none adoptedBackend rfl
    (fun _ h => nomatch h)).2.2 ⟨rfl, rfl⟩).1⟩

/-- C2: on a backend that holds no service of the type and name of the spec,
a run of `reconcileService` that succeeds creates the service; a second run
with the same spec against the backend as the first run left it, which now
returns the created service with the stored flag and description, issues
`GetService` alone (no `CreateService`, no `UpdateService`), and
`Status.ServiceID` is the created identifier after both runs. -/
theorem reconcileService_second_run_no_write {σ : Type} (nf : String) (inst : KeystoneService)
    (os : OpenStack σ) (r : Run σ) (err1 err2 : Option GoError) (s1 s2 s3 : σ) (id : String)
    (svc : services.Service)
    (hget1 : os.GetService inst.Spec.ServiceType inst.Spec.ServiceName r.world
      = (Res.ok (none, err1), s1))
    (herr1 : ∀ e, err1 = some e → strings.Contains e.text nf = true)
    (hcreate : os.CreateService (wantedService inst) s1 = (Res.ok (id, none), s2))
    (hget2 : os.GetService inst.Spec.ServiceType inst.Spec.ServiceName s2
      = (Res.ok (some svc, err2), s3))
    (herr2 : ∀ e, err2 = some e → strings.Contains e.text nf = true)
    (hid : svc.ID = id) (henabled : svc.Enabled = inst.Spec.Enabled)
    (hdescription : mapIndex svc.Extra "description" = Any.str inst.Spec.ServiceDescription) :
    ∃ inst1 r1 inst2 r2,
      reconcileService nf inst (some os) r = (Res.ok (inst1, none), r1) ∧
      inst1.Spec = inst.Spec ∧
      reconcileService nf inst1 (some os) r1 = (Res.ok (inst2, none), r2) ∧
      issued (reconcileService nf inst1 (some os)) r1 =
        [Call.GetService inst.Spec.ServiceType inst.Spec.ServiceName] ∧
      (∀ c ∈ issued (reconcileService nf inst1 (some os)) r1,
        c.isCreateService = false ∧ c.isUpdateService = false) ∧
      inst1.Status.ServiceID = id ∧ inst2.Status.ServiceID = inst1.Status.ServiceID := by
  have h1 := reconcileService_absent nf inst os r err1 s1 hget1
    ((getServiceFails_eq_false_iff nf err1).2 herr1)
  rw [hcreate] at h1
  have hsame : (svc.Enabled != inst.Spec.Enabled ||
      (mapIndex svc.Extra "description").neString inst.Spec.ServiceDescription) = false :=
    (differs_eq_false_iff svc inst).2 ⟨henabled, hdescription⟩
  have h2 := reconcileService_found nf (withServiceID inst id) os
    { world := s2,
      calls := r.calls ++ [Call.GetService inst.Spec.ServiceType inst.Spec.ServiceName,
        Call.CreateService (wantedService inst)] }
    svc err2 s3 hget2 ((getServiceFails_eq_false_iff nf err2).2 herr2)
  have hsame2 : (svc.Enabled != (withServiceID inst id).Spec.Enabled ||
      (mapIndex svc.Extra "description").neString
        (withServiceID inst id).Spec.ServiceDescription) = false := hsame
  rw [hsame2] at h2
  simp only [Bool.false_eq_true, if_false] at h2
  have hcalls : issued (reconcileService nf (withServiceID inst id) (some os))
      { world := s2,
        calls := r.calls ++ [Call.GetService inst.Spec.ServiceType inst.Spec.ServiceName,
          Call.CreateService (wantedService inst)] } =
      [Call.GetService inst.Spec.ServiceType inst.Spec.ServiceName] :=
    issued_eq_of_calls _ _ _ (by rw [h2])
  refine ⟨withServiceID inst id, _, withServiceID (withServiceID inst id) svc.ID, _,
    h1, rfl, h2, hcalls, ?_, rfl, ?_⟩
  · intro c hc
    rw [hcalls] at hc
    rw [List.mem_singleton.1 hc]
    exact ⟨rfl, rfl⟩
  · exact hid

/-- Witness of C2: the example backend, empty at first, creates the service
of `exampleInstance` and returns it on the second run. -/
theorem reconcileService_second_run_no_write_witness :
    (exampleOpenStack noFault).GetService exampleInstance.Spec.ServiceType
        exampleInstance.Spec.ServiceName emptyRun.world
      = (Res.ok (none, some { text := "placement service not found in keystone",
                              notFound := false }), emptyRun.world) ∧
    (exampleOpenStack noFault).CreateService (wantedService exampleInstance) emptyRun.world
      = (Res.ok ("placement/placement", none), adoptedBackend) ∧
    (exampleOpenStack noFault).GetService exampleInstance.Spec.ServiceType
        exampleInstance.Spec.ServiceName adoptedBackend
      = (Res.ok (some adoptedService, none), adoptedBackend) ∧
    ∃ inst1 r1 inst2 r2,
      reconcileService exampleServiceNotFound exampleInstance
        (some (exampleOpenStack noFault)) emptyRun = (Res.ok (inst1, none), r1) ∧
      inst1.Spec = exampleInstance.Spec ∧
      reconcileService exampleServiceNotFound inst1 (some (exampleOpenStack noFault)) r1
        = (Res.ok (inst2, none), r2) ∧
      issued (reconcileService exampleServiceNotFound inst1
          (some (exampleOpenStack noFault))) r1 =
        [Call.GetService exampleInstance.Spec.ServiceType exampleInstance.Spec.ServiceName] ∧
      (∀ c ∈ issued (reconcileService exampleServiceNotFound inst1
          (some (exampleOpenStack noFault))) r1,
        c.isCreateService = false ∧ c.isUpdateService = false) ∧
      inst1.Status.ServiceID = "placement/placement" ∧
      inst2.Status.ServiceID = inst1.Status.ServiceID :=
  ⟨rfl, rfl, rfl,
    reconcileService_second_run_no_write exampleServiceNotFound exampleInstance
      (exampleOpenStack noFault) emptyRun
      (some { text := "placement service not found in keystone", notFound := false }) none
      emptyRun.world adoptedBackend adoptedBackend "placement/placement" adoptedService
      rfl (fun e h => by cases h; decide) rfl rfl (fun _ h => nomatch h) rfl rfl rfl⟩

/-- C3 (adoption): whenever `GetService` returns a service, and no error that
ends the run, `reconcileService` issues no `CreateService`, and the instance
it leaves has `Status.ServiceID` equal to the identifier of that service,
whatever `Status.ServiceID` held before. The run returns unless the
`UpdateService` it may issue panics. -/
theorem reconcileService_adopts_found_service {σ : Type} (nf : String) (inst : KeystoneService)
    (os : OpenStack σ) (r : Run σ) (svc : services.Service) (err : Option GoError) (s1 : σ)
    (hget : os.GetService inst.Spec.ServiceType inst.Spec.ServiceName r.world
      = (Res.ok (some svc, err), s1))
    (herr : ∀ e, err = some e → strings.Contains e.text nf = true) :
    (∀ c ∈ issued (reconcileService nf inst (some os)) r, c.isCreateService = false) ∧
    (∀ inst1 uerr r1, reconcileService nf inst (some os) r = (Res.ok (inst1, uerr), r1) →
      inst1.Status.ServiceID = svc.ID ∧ inst1.Spec = inst.Spec) ∧
    ((∃ inst1 uerr r1, reconcileService nf inst (some os) r = (Res.ok (inst1, uerr), r1)) ∨
      (∃ v s2, os.UpdateService (wantedService inst) svc.ID s1 = (Res.panic v, s2))) := by
  have hf := (getServiceFails_eq_false_iff nf err).2 herr
  have hcalls := reconcileService_found_calls nf inst os r svc err s1 hget hf
  have hrun := reconcileService_found nf inst os r svc err s1 hget hf
  refine ⟨?_, ?_, ?_⟩
  · intro c hc
    rw [hcalls] at hc
    rcases List.mem_cons.1 hc with h | h
    · rw [h]; rfl
    · split at h
      · cases h
      · rw [List.mem_singleton.1 h]; rfl
  · intro inst1 uerr r1 h
    rw [hrun] at h
    split at h
    · rcases hu : os.UpdateService (wantedService inst) svc.ID s1 with ⟨res, s2⟩
      rw [hu] at h
      rcases res with e | v
      · simp only [Prod.mk.injEq, Res.ok.injEq] at h
        rw [← h.1.1]
        exact ⟨rfl, rfl⟩
      · simp at h
    · simp only [Prod.mk.injEq, Res.ok.injEq] at h
      rw [← h.1.1]
      exact ⟨rfl, rfl⟩
  · rw [hrun]
    split
    · rcases hu : os.UpdateService (wantedService inst) svc.ID s1 with ⟨res, s2⟩
      rcases res with e | v
      · exact Or.inl ⟨_, _, _, rfl⟩
      · exact Or.inr ⟨v, s2, rfl⟩
    · exact Or.inl ⟨_, _, _, rfl⟩

/-- Witness of C3: an instance with a stale identifier adopts the service the
example backend holds. -/
theorem reconcileService_adopts_found_service_witness :
    (exampleOpenStack noFault).GetService staleInstance.Spec.ServiceType
        staleInstance.Spec.ServiceName adoptedRun.world
      = (Res.ok (some adoptedService, none), adoptedBackend) ∧
    (∀ c ∈ issued (reconcileService exampleServiceNotFound staleInstance
        (some (exampleOpenStack noFault))) adoptedRun, c.isCreateService = false) ∧
    (∀ inst1 uerr r1,
      reconcileService exampleServiceNotFound staleInstance (some (exampleOpenStack noFault))
        adoptedRun = (Res.ok (inst1, uerr), r1) →
      inst1.Status.ServiceID = adoptedService.ID ∧ inst1.Spec = staleInstance.Spec) ∧
    ((∃ inst1 uerr r1,
      reconcileService exampleServiceNotFound staleInstance (some (exampleOpenStack noFault))
        adoptedRun = (Res.ok (inst1, uerr), r1)) ∨
      (∃ v s2, (exampleOpenStack noFault).UpdateService (wantedService staleInstance)
        adoptedService.ID adoptedBackend = (Res.panic v, s2))) :=
  ⟨rfl, reconcileService_adopts_found_service exampleServiceNotFound staleInstance
    (exampleOpenStack noFault) adoptedRun adoptedService none adoptedBackend rfl
    (fun _ h => nomatch h)⟩

/-- C4: when `GetService` reports that no service exists (a nil service, with
no error or with an error whose text contains `ServiceNotFound`),
`reconcileService` does not return that error: it issues `GetService` and
then exactly one `CreateService` carrying the name, type, description and
enabled flag of the spec, no `UpdateService`, stores the identifier
`CreateService` returned in `Status.ServiceID` and returns what
`CreateService` returned as error, nil on success. Any other error of
`GetService` is returned after `GetService` alone, the instance unchanged. -/
theorem reconcileService_creates_when_absent {σ : Type} (nf : String) (inst : KeystoneService)
    (os : OpenStack σ) (r : Run σ) (service : Option services.Service) (err : Option GoError)
    (s1 : σ)
    (hget : os.GetService inst.Spec.ServiceType inst.Spec.ServiceName r.world
      = (Res.ok (service, err), s1)) :
    (service = none → (∀ e, err = some e → strings.Contains e.text nf = true) →
      ∀ id cerr s2,
        os.CreateService
          { Name := inst.Spec.ServiceName, Type_ := inst.Spec.ServiceType,
            Description := inst.Spec.ServiceDescription, Enabled := inst.Spec.Enabled } s1
          = (Res.ok (id, cerr), s2) →
        reconcileService nf inst (some os) r =
          (Res.ok ({ inst with Status := { inst.Status with ServiceID := id } }, cerr),
            { world := s2,
              calls := r.calls ++ [
                Call.GetService inst.Spec.ServiceType inst.Spec.ServiceName,
                Call.CreateService
                  { Name := inst.Spec.ServiceName, Type_ := inst.Spec.ServiceType,
                    Description := inst.Spec.ServiceDescription,
                    Enabled := inst.Spec.Enabled }] })) ∧
    (∀ e, err = some e → strings.Contains e.text nf = false →
      reconcileService nf inst (some os) r =
        (Res.ok (inst, some e),
          { world := s1,
            calls := r.calls ++
              [Call.GetService inst.Spec.ServiceType inst.Spec.ServiceName] })) := by
  constructor
  · intro hnone herr id cerr s2 hcreate
    subst hnone
    have h := reconcileService_absent nf inst os r err s1 hget
      ((getServiceFails_eq_false_iff nf err).2 herr)
    rw [show os.CreateService (wantedService inst) s1 = (Res.ok (id, cerr), s2) from hcreate] at h
    exact h
  · intro e he hc
    subst he
    exact reconcileService_getFails nf inst os r service (some e) s1 hget
      (by simp [getServiceFails, hc])

/-- Witness of C4: on the empty example backend the service is created, and
with a `GetService` that fails for another reason the error is returned. -/
theorem reconcileService_creates_when_absent_witness :
    (reconcileService exampleServiceNotFound exampleInstance (some (exampleOpenStack noFault))
        emptyRun =
      (Res.ok ({ exampleInstance with
          Status := { exampleInstance.Status with ServiceID := "placement/placement" } }, none),
        { world := adoptedBackend,
          calls := [Call.GetService "placement" "placement",
            Call.CreateService
              { Name := "placement", Type_ := "placement", Description := "Placement service",
                Enabled := true }] })) ∧
    (reconcileService exampleServiceNotFound exampleInstance
        (some (exampleOpenStack getServiceFault)) emptyRun =
      (Res.ok (exampleInstance, some { text := "connection refused", notFound := false }),
        { world := emptyRun.world, calls := [Call.GetService "placement" "placement"] })) :=
  ⟨(reconcileService_creates_when_absent exampleServiceNotFound exampleInstance
      (exampleOpenStack noFault) emptyRun none
      (some { text := "placement service not found in keystone", notFound := false })
      emptyRun.world rfl).1 rfl (fun e h => by cases h; decide) "placement/placement" none
      adoptedBackend rfl,
   (reconcileService_creates_when_absent exampleServiceNotFound exampleInstance
      (exampleOpenStack getServiceFault) emptyRun none
      (some { text := "connection refused", notFound := false })
      emptyRun.world rfl).2 _ rfl (by decide)⟩

/-! ## How `reconcileUser` runs -/

/-- C5: when the password secret is available and every backend call
succeeds, `reconcileUser` issues, after the secret lookup, exactly the calls
`CreateProject` (name `service`, domain `default`), `CreateUser` (the user of
the spec, the password of the secret, the project `CreateProject` returned,
domain `default`), and then for `admin` and for `service`, in that order,
`CreateRole` followed by `AssignUserRole` with the identifiers `CreateUser`
and `CreateProject` returned; it returns an empty result and no error. -/
theorem reconcileUser_call_sequence {σ : Type} (w : World σ) (os : OpenStack σ)
    (inst : KeystoneService) (r : Run σ) (password projectID userID role1 role2 : String)
    (s1 s2 s3 s4 s5 s6 s7 : σ)
    (hsecret : w.GetDataFromSecret inst.Spec.Secret (10 * time.Second)
      inst.Spec.PasswordSelector r.world = (Res.ok (password, {}, none), s1))
    (hproject : os.CreateProject
      { Name := "service", Description := "service", DomainID := "default" } s1
      = (Res.ok (projectID, none), s2))
    (huser : os.CreateUser
      { Name := inst.Spec.ServiceUser, Password := password, ProjectID := projectID,
        DomainID := "default" } s2 = (Res.ok (userID, none), s3))
    (hrole1 : os.CreateRole "admin" s3 = (Res.ok (role1, none), s4))
    (hassign1 : os.AssignUserRole "admin" userID projectID s4 = (Res.ok none, s5))
    (hrole2 : os.CreateRole "service" s5 = (Res.ok (role2, none), s6))
    (hassign2 : os.AssignUserRole "service" userID projectID s6 = (Res.ok none, s7)) :
    reconcileUser w inst (some os) r =
      (Res.ok ({}, none),
        { world := s7,
          calls := r.calls ++ [
            Call.GetDataFromSecret inst.Spec.Secret (10 * time.Second)
              inst.Spec.PasswordSelector,
            Call.CreateProject
              { Name := "service", Description := "service", DomainID := "default" },
            Call.CreateUser
              { Name := inst.Spec.ServiceUser, Password := password, ProjectID := projectID,
                DomainID := "default" },
            Call.CreateRole "admin",
            Call.AssignUserRole "admin" userID projectID,
            Call.CreateRole "service",
            Call.AssignUserRole "service" userID projectID] }) ∧
    (issued (reconcileUser w inst (some os)) r).filter Call.isIdentity = [
      Call.CreateProject { Name := "service", Description := "service", DomainID := "default" },
      Call.CreateUser
        { Name := inst.Spec.ServiceUser, Password := password, ProjectID := projectID,
          DomainID := "default" },
      Call.CreateRole "admin",
      Call.AssignUserRole "admin" userID projectID,
      Call.CreateRole "service",
      Call.AssignUserRole "service" userID projectID] := by
  have hrun : reconcileUser w inst (some os) r =
      (Res.ok ({}, none),
        { world := s7,
          calls := r.calls ++ [
            Call.GetDataFromSecret inst.Spec.Secret (10 * time.Second)
              inst.Spec.PasswordSelector,
            Call.CreateProject
              { Name := "service", Description := "service", DomainID := "default" },
            Call.CreateUser
              { Name := inst.Spec.ServiceUser, Password := password, ProjectID := projectID,
                DomainID := "default" },
            Call.CreateRole "admin",
            Call.AssignUserRole "admin" userID projectID,
            Call.CreateRole "service",
            Call.AssignUserRole "service" userID projectID] }) := by
    simp [reconcileUser, reconcileUser.roles, onClient, call, bind, M.bind, pure, M.pure,
      hsecret, hproject, huser, hrole1, hassign1, hrole2, hassign2]
  refine ⟨hrun, ?_⟩
  rw [issued_eq_of_calls _ _ _ (by rw [hrun])]
  simp [Call.isIdentity]

/-- Witness of C5: the example cluster and backend with no fault. -/
theorem reconcileUser_call_sequence_witness :
    reconcileUser (exampleWorld exampleInstance none noFault) exampleInstance
        (some (exampleOpenStack noFault)) emptyRun =
      (Res.ok ({}, none),
        { world := emptyRun.world,
          calls := emptyRun.calls ++ [
            Call.GetDataFromSecret "osp-secret" (10 * time.Second) "PlacementPassword",
            Call.CreateProject
              { Name := "service", Description := "service", DomainID := "default" },
            Call.CreateUser
              { Name := "placement", Password := "12345678", ProjectID := "project/service",
                DomainID := "default" },
            Call.CreateRole "admin",
            Call.AssignUserRole "admin" "user/placement" "project/service",
            Call.CreateRole "service",
            Call.AssignUserRole "service" "user/placement" "project/service"] }) :=
  (reconcileUser_call_sequence (exampleWorld exampleInstance none noFault)
    (exampleOpenStack noFault) exampleInstance emptyRun "12345678" "project/service"
    "user/placement" "role/admin" "role/service" emptyRun.world emptyRun.world emptyRun.world
    emptyRun.world emptyRun.world emptyRun.world emptyRun.world rfl rfl rfl rfl rfl rfl rfl).1

/-- C6: `reconcileUser` respects its prerequisites on every run. Following
the run call by call: `CreateProject` is issued once the secret gave the
password; `CreateUser` only when `CreateProject` returned no error;
`CreateRole` for `admin` only when `CreateUser` returned no error;
`AssignUserRole` for a role only when `CreateRole` for that role returned no
error; the role `service` only when `admin` was assigned. The first call that
returns an error ends the run: that error is returned with an empty result,
and the calls issued stop at the failing one. -/
theorem reconcileUser_stops_at_first_failure {σ : Type} (w : World σ) (os : OpenStack σ)
    (inst : KeystoneService) (r : Run σ) :
    (∀ password res e s1,
      w.GetDataFromSecret inst.Spec.Secret (10 * time.Second) inst.Spec.PasswordSelector r.world
        = (Res.ok (password, res, some e), s1) →
      reconcileUser w inst (some os) r =
        (Res.ok ({}, some e),
          { world := s1,
            calls := r.calls ++ [Call.GetDataFromSecret inst.Spec.Secret (10 * time.Second)
              inst.Spec.PasswordSelector] })) ∧
    (∀ password s1,
      w.GetDataFromSecret inst.Spec.Secret (10 * time.Second) inst.Spec.PasswordSelector r.world
        = (Res.ok (password, {}, none), s1) →
      ∀ projectID perr s2,
        os.CreateProject { Name := "service", Description := "service", DomainID := "default" }
          s1 = (Res.ok (projectID, perr), s2) →
      (∀ e, perr = some e →
        reconcileUser w inst (some os) r =
          (Res.ok ({}, some e),
            { world := s2,
              calls := r.calls ++ [
                Call.GetDataFromSecret inst.Spec.Secret (10 * time.Second)
                  inst.Spec.PasswordSelector,
                Call.CreateProject
                  { Name := "service", Description := "service", DomainID := "default" }] })) ∧
      (perr = none →
        ∀ userID uerr s3,
          os.CreateUser
            { Name := inst.Spec.ServiceUser, Password := password, ProjectID := projectID,
              DomainID := "default" } s2 = (Res.ok (userID, uerr), s3) →
        (∀ e, uerr = some e →
          reconcileUser w inst (some os) r =
            (Res.ok ({}, some e),
              { world := s3,
                calls := r.calls ++ [
                  Call.GetDataFromSecret inst.Spec.Secret (10 * time.Second)
                    inst.Spec.PasswordSelector,
                  Call.CreateProject
                    { Name := "service", Description := "service", DomainID := "default" },
                  Call.CreateUser
                    { Name := inst.Spec.ServiceUser, Password := password,
                      ProjectID := projectID, DomainID := "default" }] })) ∧
        (uerr = none →
          ∀ role1 rerr1 s4, os.CreateRole "admin" s3 = (Res.ok (role1, rerr1), s4) →
          (∀ e, rerr1 = some e →
            reconcileUser w inst (some os) r =
              (Res.ok ({}, some e),
                { world := s4,
                  calls := r.calls ++ [
                    Call.GetDataFromSecret inst.Spec.Secret (10 * time.Second)
                      inst.Spec.PasswordSelector,
                    Call.CreateProject
                      { Name := "service", Description := "service", DomainID := "default" },
                    Call.CreateUser
                      { Name := inst.Spec.ServiceUser, Password := password,
                        ProjectID := projectID, DomainID := "default" },
                    Call.CreateRole "admin"] })) ∧
          (rerr1 = none →
            ∀ aerr1 s5, os.AssignUserRole "admin" userID projectID s4 = (Res.ok aerr1, s5) →
            (∀ e, aerr1 = some e →
              reconcileUser w inst (some os) r =
                (Res.ok ({}, some e),
                  { world := s5,
                    calls := r.calls ++ [
                      Call.GetDataFromSecret inst.Spec.Secret (10 * time.Second)
                        inst.Spec.PasswordSelector,
                      Call.CreateProject
                        { Name := "service", Description := "service", DomainID := "default" },
                      Call.CreateUser
                        { Name := inst.Spec.ServiceUser, Password := password,
                          ProjectID := projectID, DomainID := "default" },
                      Call.CreateRole "admin",
                      Call.AssignUserRole "admin" userID projectID] })) ∧
            (aerr1 = none →
              ∀ role2 rerr2 s6, os.CreateRole "service" s5 = (Res.ok (role2, rerr2), s6) →
              (∀ e, rerr2 = some e →
                reconcileUser w inst (some os) r =
                  (Res.ok ({}, some e),
                    { world := s6,
                      calls := r.calls ++ [
                        Call.GetDataFromSecret inst.Spec.Secret (10 * time.Second)
                          inst.Spec.PasswordSelector,
                        Call.CreateProject
                          { Name := "service", Description := "service",
                            DomainID := "default" },
                        Call.CreateUser
                          { Name := inst.Spec.ServiceUser, Password := password,
                            ProjectID := projectID, DomainID := "default" },
                        Call.CreateRole "admin",
                        Call.AssignUserRole "admin" userID projectID,
                        Call.CreateRole "service"] })) ∧
              (rerr2 = none →
                ∀ aerr2 s7,
                  os.AssignUserRole "service" userID projectID s6 = (Res.ok aerr2, s7) →
                reconcileUser w inst (some os) r =
                  (Res.ok ({}, aerr2),
                    { world := s7,
                      calls := r.calls ++ [
                        Call.GetDataFromSecret inst.Spec.Secret (10 * time.Second)
                          inst.Spec.PasswordSelector,
                        Call.CreateProject
                          { Name := "service", Description := "service",
                            DomainID := "default" },
                        Call.CreateUser
                          { Name := inst.Spec.ServiceUser, Password := password,
                            ProjectID := projectID, DomainID := "default" },
                        Call.CreateRole "admin",
                        Call.AssignUserRole "admin" userID projectID,
                        Call.CreateRole "service",
                        Call.AssignUserRole "service" userID projectID] }))))))) := by
  refine ⟨?_, ?_⟩
  · intro password res e s1 hsecret
    simp [reconcileUser, call, bind, M.bind, pure, M.pure, hsecret]
  intro password s1 hsecret projectID perr s2 hproject
  refine ⟨?_, ?_⟩
  · intro e he
    subst he
    simp [reconcileUser, onClient, call, bind, M.bind, pure, M.pure, hsecret, hproject]
  intro hp userID uerr s3 huser
  subst hp
  refine ⟨?_, ?_⟩
  · intro e he
    subst he
    simp [reconcileUser, onClient, call, bind, M.bind, pure, M.pure, hsecret, hproject, huser]
  intro hu role1 rerr1 s4 hrole1
  subst hu
  refine ⟨?_, ?_⟩
  · intro e he
    subst he
    simp [reconcileUser, reconcileUser.roles, onClient, call, bind, M.bind, pure, M.pure,
      hsecret, hproject, huser, hrole1]
  intro hr1 aerr1 s5 hassign1
  subst hr1
  refine ⟨?_, ?_⟩
  · intro e he
    subst he
    simp [reconcileUser, reconcileUser.roles, onClient, call, bind, M.bind, pure, M.pure,
      hsecret, hproject, huser, hrole1, hassign1]
  intro ha1 role2 rerr2 s6 hrole2
  subst ha1
  refine ⟨?_, ?_⟩
  · intro e he
    subst he
    simp [reconcileUser, reconcileUser.roles, onClient, call, bind, M.bind, pure, M.pure,
      hsecret, hproject, huser, hrole1, hassign1, hrole2]
  intro hr2 aerr2 s7 hassign2
  subst hr2
  cases aerr2 <;>
    simp [reconcileUser, reconcileUser.roles, onClient, call, bind, M.bind, pure, M.pure,
      hsecret, hproject, huser, hrole1, hassign1, hrole2, hassign2]

/-- Witness of C6: on the example backend where creating the role `service`
fails, the run passes every earlier call and ends at `CreateRole` for
`service`, with the error of that call. -/
theorem reconcileUser_stops_at_first_failure_witness :
    reconcileUser (exampleWorld exampleInstance none serviceRoleFault) exampleInstance
        (some (exampleOpenStack serviceRoleFault)) emptyRun =
      (Res.ok ({}, some { text := "role quota exceeded", notFound := false }),
        { world := emptyRun.world,
          calls := emptyRun.calls ++ [
            Call.GetDataFromSecret "osp-secret" (10 * time.Second) "PlacementPassword",
            Call.CreateProject
              { Name := "service", Description := "service", DomainID := "default" },
            Call.CreateUser
              { Name := "placement", Password := "12345678", ProjectID := "project/service",
                DomainID := "default" },
            Call.CreateRole "admin",
            Call.AssignUserRole "admin" "user/placement" "project/service",
            Call.CreateRole "service"] }) :=
  ((((((reconcileUser_stops_at_first_failure
    (exampleWorld exampleInstance none serviceRoleFault) (exampleOpenStack serviceRoleFault)
    exampleInstance emptyRun).2 "12345678" emptyRun.world rfl
      "project/service" none emptyRun.world rfl).2 rfl
      "user/placement" none emptyRun.world rfl).2 rfl
      "role/admin" none emptyRun.world rfl).2 rfl
      none emptyRun.world rfl).2 rfl
      "" (some { text := "role quota exceeded", notFound := false }) emptyRun.world rfl).1
      _ rfl

/-! ## The condition list -/

namespace condition

theorem Conditions.count_nil (t : CondType) : Conditions.count [] t = 0 := rfl

theorem Conditions.count_cons (x : Condition) (xs : Conditions) (t : CondType) :
    Conditions.count (x :: xs) t = Conditions.count xs t + if x.Type_ = t then 1 else 0 := by
  simp [Conditions.count, List.countP_cons]

/-- What `Set` does to the number of conditions of a type. -/
theorem Conditions.count_Set (l : Conditions) (c : Condition) (t : CondType) :
    Conditions.count (Conditions.Set l c) t =
      if c.Type_ = t then max 1 (Conditions.count l t) else Conditions.count l t := by
  induction l with
  | nil =>
    by_cases h : c.Type_ = t <;> simp [Conditions.Set, Conditions.count_cons, Conditions.count_nil, h]
  | cons x xs ih =>
    by_cases hx : x.Type_ = c.Type_
    · by_cases h : c.Type_ = t
      · simp [Conditions.Set, Conditions.count_cons, hx, h]
      · simp [Conditions.Set, Conditions.count_cons, hx, h]
    · by_cases h : c.Type_ = t
      · have hxt : x.Type_ ≠ t := fun e => hx (e.trans h.symm)
        simp [Conditions.Set, Conditions.count_cons, hx, h, hxt, ih]
      · simp [Conditions.Set, Conditions.count_cons, hx, h, ih]

/-- `Set` keeps at most one condition of a type. -/
theorem Conditions.count_Set_le_one (l : Conditions) (c : Condition) (t : CondType)
    (h : Conditions.count l t ≤ 1) : Conditions.count (Conditions.Set l c) t ≤ 1 := by
  rw [Conditions.count_Set]
  split
  · exact max_le (le_refl 1) h
  · exact h

/-- After `Set` of a condition of type `t` on a list with at most one of that
type there is exactly one. -/
theorem Conditions.count_Set_eq_one (l : Conditions) (c : Condition)
    (h : Conditions.count l c.Type_ ≤ 1) : Conditions.count (Conditions.Set l c) c.Type_ = 1 := by
  rw [Conditions.count_Set, if_pos rfl]
  exact le_antisymm (max_le (le_refl 1) h) (le_max_left 1 _)

theorem Conditions.mem_Set_self (l : Conditions) (c : Condition) : c ∈ Conditions.Set l c := by
  induction l with
  | nil => simp [Conditions.Set]
  | cons x xs ih =>
    by_cases hx : x.Type_ = c.Type_
    · simp [Conditions.Set, hx]
    · simp [Conditions.Set, hx, ih]

/-- `Set` leaves the conditions of other types as they are. -/
theorem Conditions.mem_Set_of_ne (l : Conditions) (c x : Condition) (h : x.Type_ ≠ c.Type_) :
    x ∈ Conditions.Set l c ↔ x ∈ l := by
  have hxc : x ≠ c := fun e => h (by rw [e])
  induction l with
  | nil => simp [Conditions.Set, hxc]
  | cons y ys ih =>
    by_cases hy : y.Type_ = c.Type_
    · have hxy : x ≠ y := fun e => h (by rw [e, hy])
      simp [Conditions.Set, hy, hxc, hxy]
    · simp [Conditions.Set, hy, ih]

/-- In a list with at most one condition of type `t`, two conditions of that
type are the same. -/
theorem Conditions.eq_of_count_le_one (l : Conditions) (t : CondType) (a b : Condition)
    (h : Conditions.count l t ≤ 1) (ha : a ∈ l) (hb : b ∈ l) (hat : a.Type_ = t)
    (hbt : b.Type_ = t) : a = b := by
  induction l with
  | nil => cases ha
  | cons x xs ih =>
    rw [Conditions.count_cons] at h
    have hpos : ∀ y ∈ xs, y.Type_ = t → 0 < Conditions.count xs t := by
      intro y hy hyt
      exact List.countP_pos_iff.2 ⟨y, hy, by simp [hyt]⟩
    rcases List.mem_cons.1 ha with rfl | ha'
    · rcases List.mem_cons.1 hb with rfl | hb'
      · rfl
      · have := hpos b hb' hbt
        rw [if_pos hat] at h
        omega
    · rcases List.mem_cons.1 hb with rfl | hb'
      · have := hpos a ha' hat
        rw [if_pos hbt] at h
        omega
      · exact ih (by split at h <;> omega) ha' hb'

theorem Conditions.AllSubConditionIsTrue_iff (l : Conditions) :
    Conditions.AllSubConditionIsTrue l = true ↔
      ∀ c ∈ l, c.Type_ ≠ ReadyCondition → c.Status = ConditionStatus.ConditionTrue := by
  simp only [Conditions.AllSubConditionIsTrue, List.all_eq_true, Bool.or_eq_true, beq_iff_eq]
  constructor
  · intro h c hc hne
    rcases h c hc with h1 | h1
    · exact absurd h1 hne
    · exact h1
  · intro h c hc
    by_cases h1 : c.Type_ = ReadyCondition
    · exact Or.inl h1
    · exact Or.inr (h c hc h1)

/-- `pickFirstMin` returns one of the conditions it is given. -/
theorem pickFirstMin_mem (best : Condition) (cs : List Condition) :
    pickFirstMin best cs ∈ best :: cs := by
  induction cs generalizing best with
  | nil => simp [pickFirstMin]
  | cons c cs ih =>
    simp only [pickFirstMin]
    split
    · exact List.mem_cons_of_mem _ (ih c)
    · rcases List.mem_cons.1 (ih best) with h | h
      · rw [h]; exact List.mem_cons_self _ _
      · exact List.mem_cons_of_mem _ (List.mem_cons_of_mem _ h)

/-- `pickFirstMin` returns a condition of least `mergePriority`. -/
theorem pickFirstMin_le (best : Condition) (cs : List Condition) :
    ∀ d ∈ best :: cs, mergePriority (pickFirstMin best cs) ≤ mergePriority d := by
  induction cs generalizing best with
  | nil =>
    intro d hd
    rw [List.mem_singleton.1 hd]
    exact le_refl _
  | cons c cs ih =>
    intro d hd
    simp only [pickFirstMin]
    split
    · rename_i hlt
      rcases List.mem_cons.1 hd with rfl | hd'
      · exact le_trans (ih c _ (List.mem_cons_self _ _)) (le_of_lt hlt)
      · exact ih c d hd'
    · rename_i hge
      rcases List.mem_cons.1 hd with rfl | hd'
      · exact ih _ _ (List.mem_cons_self _ _)
      · rcases List.mem_cons.1 hd' with rfl | hd''
        · exact le_trans (ih best _ (List.mem_cons_self _ _)) (not_lt.1 hge)
        · exact ih best d (List.mem_cons_of_mem _ hd'')

theorem mergePriority_eq_five_iff (c : Condition) :
    5 ≤ mergePriority c ↔ c.Status = ConditionStatus.ConditionTrue := by
  rcases c with ⟨t, st, sev, rs, msg⟩
  cases st <;> cases sev <;> simp [mergePriority]

theorem mergePriority_le_three_iff (c : Condition) :
    mergePriority c ≤ 3 ↔ c.Status = ConditionStatus.ConditionFalse := by
  rcases c with ⟨t, st, sev, rs, msg⟩
  cases st <;> cases sev <;> simp [mergePriority]

end condition

/-! ## The Ready condition after the deferred function -/

/-- The recomputation when every sub-condition is True. -/
theorem updateReady_of_all (conds : Conditions)
    (h : Conditions.AllSubConditionIsTrue conds = true) :
    Reconcile.updateReady conds =
      Conditions.Set conds (TrueCondition ReadyCondition MessageFormat.ReadyMessage []) := by
  simp [Reconcile.updateReady, h, Conditions.MarkTrue]

/-- The recomputation when some sub-condition is not True: Ready is reset to
Unknown and then takes status, severity, reason and message from a condition
of least `mergePriority` in the list. -/
theorem updateReady_of_not_all (conds : Conditions)
    (h : Conditions.AllSubConditionIsTrue conds = false) :
    ∃ top ∈ Conditions.Set conds
        (UnknownCondition ReadyCondition Reason.InitReason MessageFormat.ReadyInitMessage []),
      (∀ d ∈ Conditions.Set conds
          (UnknownCondition ReadyCondition Reason.InitReason MessageFormat.ReadyInitMessage []),
        mergePriority top ≤ mergePriority d) ∧
      Reconcile.updateReady conds =
        Conditions.Set
          (Conditions.Set conds
            (UnknownCondition ReadyCondition Reason.InitReason MessageFormat.ReadyInitMessage []))
          { Type_ := ReadyCondition, Status := top.Status, Severity := top.Severity,
            Reason := top.Reason, Message := top.Message } := by
  have hmem := Conditions.mem_Set_self conds
    (UnknownCondition ReadyCondition Reason.InitReason MessageFormat.ReadyInitMessage [])
  cases hl : Conditions.Set conds
      (UnknownCondition ReadyCondition Reason.InitReason MessageFormat.ReadyInitMessage []) with
  | nil => rw [hl] at hmem; cases hmem
  | cons c cs =>
    refine ⟨pickFirstMin c cs, pickFirstMin_mem c cs, pickFirstMin_le c cs, ?_⟩
    simp [Reconcile.updateReady, h, Conditions.MarkUnknown, hl, Conditions.Mirror,
      Conditions.SetPtr]

/-- The Ready condition after the recomputation, on a list with at most one
Ready condition: there is exactly one, the sub-conditions are those of before,
and Ready is True exactly when every sub-condition is True. -/
theorem updateReady_ready (conds : Conditions) (h : Conditions.count conds ReadyCondition ≤ 1) :
    Conditions.count (Reconcile.updateReady conds) ReadyCondition = 1 ∧
    (∀ c, c.Type_ ≠ ReadyCondition → (c ∈ Reconcile.updateReady conds ↔ c ∈ conds)) ∧
    (∀ rc ∈ Reconcile.updateReady conds, rc.Type_ = ReadyCondition →
      (rc.Status = ConditionStatus.ConditionTrue ↔
        ∀ c ∈ Reconcile.updateReady conds, c.Type_ ≠ ReadyCondition →
          c.Status = ConditionStatus.ConditionTrue)) := by
  cases hall : Conditions.AllSubConditionIsTrue conds with
  | true =>
    rw [updateReady_of_all conds hall]
    have hsub : ∀ c : Condition, c.Type_ ≠ ReadyCondition →
        (c ∈ Conditions.Set conds (TrueCondition ReadyCondition MessageFormat.ReadyMessage [])
          ↔ c ∈ conds) := fun c hc => Conditions.mem_Set_of_ne conds _ c hc
    have hone := Conditions.count_Set_eq_one conds
      (TrueCondition ReadyCondition MessageFormat.ReadyMessage []) h
    refine ⟨hone, hsub, ?_⟩
    intro rc hrc hty
    have hrc' : rc = TrueCondition ReadyCondition MessageFormat.ReadyMessage [] :=
      Conditions.eq_of_count_le_one _ ReadyCondition _ _ (le_of_eq hone) hrc
        (Conditions.mem_Set_self _ _) hty rfl
    constructor
    · intro _ c hc hne
      exact (Conditions.AllSubConditionIsTrue_iff conds).1 hall c ((hsub c hne).1 hc) hne
    · intro _
      rw [hrc']
      rfl
  | false =>
    obtain ⟨top, htop, hmin, hrun⟩ := updateReady_of_not_all conds hall
    rw [hrun]
    have hone1 := Conditions.count_Set_eq_one conds
      (UnknownCondition ReadyCondition Reason.InitReason MessageFormat.ReadyInitMessage []) h
    have hone := Conditions.count_Set_eq_one
      (Conditions.Set conds
        (UnknownCondition ReadyCondition Reason.InitReason MessageFormat.ReadyInitMessage []))
      { Type_ := ReadyCondition, Status := top.Status, Severity := top.Severity,
        Reason := top.Reason, Message := top.Message } (le_of_eq hone1)
    have hsub : ∀ c : Condition, c.Type_ ≠ ReadyCondition →
        (c ∈ Conditions.Set
          (Conditions.Set conds
            (UnknownCondition ReadyCondition Reason.InitReason MessageFormat.ReadyInitMessage []))
          { Type_ := ReadyCondition, Status := top.Status, Severity := top.Severity,
            Reason := top.Reason, Message := top.Message } ↔ c ∈ conds) := by
      intro c hc
      rw [Conditions.mem_Set_of_ne _ _ c hc, Conditions.mem_Set_of_ne _ _ c hc]
    refine ⟨hone, hsub, ?_⟩
    intro rc hrc hty
    have hrc' := Conditions.eq_of_count_le_one _ ReadyCondition _ _ (le_of_eq hone) hrc
        (Conditions.mem_Set_self _ _) hty rfl
    -- some sub-condition is not True
    have hex : ∃ c0 ∈ conds, c0.Type_ ≠ ReadyCondition ∧
        c0.Status ≠ ConditionStatus.ConditionTrue := by
      by_contra hcon
      have : Conditions.AllSubConditionIsTrue conds = true := by
        rw [Conditions.AllSubConditionIsTrue_iff]
        intro c hc hne
        by_contra hst
        exact hcon ⟨c, hc, hne, hst⟩
      rw [this] at hall
      cases hall
    obtain ⟨c0, hc0, hne0, hst0⟩ := hex
    have hc0' := (Conditions.mem_Set_of_ne conds
      (UnknownCondition ReadyCondition Reason.InitReason MessageFormat.ReadyInitMessage [])
      c0 hne0).2 hc0
    have htopst : top.Status ≠ ConditionStatus.ConditionTrue := by
      intro ht
      have h5 := (mergePriority_eq_five_iff top).2 ht
      have h4 : ¬ 5 ≤ mergePriority c0 := fun hh => hst0 ((mergePriority_eq_five_iff c0).1 hh)
      have := hmin c0 hc0'
      omega
    constructor
    · intro hst
      rw [hrc'] at hst
      exact absurd hst htopst
    · intro hallout
      exact absurd (hallout c0 ((hsub c0 hne0).2 hc0) hne0) hst0

/-! ## What the code returns -/

theorem M.returns_pure {σ α : Type} {P : α → Prop} (a : α) (h : P a) :
    (pure a : M σ α).returns P := by
  intro r b r1 hrun
  simp only [pure, M.pure, Prod.mk.injEq, Res.ok.injEq] at hrun
  rw [← hrun.1]
  exact h

theorem M.returns_panic {σ α : Type} {P : α → Prop} (v : String) :
    (M.panic v : M σ α).returns P := by
  intro r b r1 hrun
  simp [M.panic] at hrun

theorem M.returns_bind {σ α β : Type} {m : M σ α} {f : α → M σ β} {Q : α → Prop}
    {P : β → Prop} (hm : m.returns Q) (hf : ∀ a, Q a → (f a).returns P) :
    (m >>= f).returns P := by
  intro r b r1 hrun
  change M.bind m f r = _ at hrun
  unfold M.bind at hrun
  rcases hmr : m r with ⟨res, r2⟩
  rw [hmr] at hrun
  rcases res with a | v
  · exact hf a (hm r a r2 hmr) r2 b r1 hrun
  · simp at hrun

theorem M.returns_any {σ α : Type} (m : M σ α) : m.returns (fun _ => True) :=
  fun _ _ _ _ => trivial

/-- `reconcileService` changes nothing of the instance but `Status.ServiceID`. -/
theorem reconcileService_keeps_conditions {σ : Type} (nf : String) (inst : KeystoneService)
    (os : Option (OpenStack σ)) :
    (reconcileService nf inst os).returns
      (fun out => out.1.Status.Conditions = inst.Status.Conditions) := by
  have hsync : ∀ service, (reconcileService.sync inst os service).returns
      (fun out => out.1.Status.Conditions = inst.Status.Conditions) := by
    intro service
    unfold reconcileService.sync
    cases service with
    | none =>
      refine M.returns_bind (M.returns_any _) ?_
      rintro ⟨id, err⟩ -
      cases err <;> exact M.returns_pure _ rfl
    | some svc =>
      dsimp only
      split
      · refine M.returns_bind (M.returns_any _) ?_
        rintro err -
        cases err <;> exact M.returns_pure _ rfl
      · exact M.returns_pure _ rfl
  unfold reconcileService
  refine M.returns_bind (M.returns_any _) ?_
  rintro ⟨service, err⟩ -
  cases err with
  | none => exact hsync service
  | some e =>
    dsimp only
    split
    · exact M.returns_pure _ rfl
    · exact hsync service

theorem KeystoneService.readyAtMostOnce_setCondition (inst : KeystoneService) (c : Condition)
    (h : inst.readyAtMostOnce) : (inst.setCondition c).readyAtMostOnce :=
  Conditions.count_Set_le_one _ c ReadyCondition h

theorem KeystoneService.readyAtMostOnce_markTrue (inst : KeystoneService) (t : CondType)
    (messageFormat : MessageFormat) (messageArgs : List String) (h : inst.readyAtMostOnce) :
    (inst.markTrue t messageFormat messageArgs).readyAtMostOnce :=
  Conditions.count_Set_le_one _ _ ReadyCondition h

/-- The delete paths leave the conditions of the instance as they are. -/
theorem reconcileDelete_finalizers_keeps_conditions {σ : Type} (w : World σ)
    (inst : KeystoneService) (helper : Helper) (keystoneAPI : Option KeystoneAPI) :
    (reconcileDelete.finalizers w inst helper keystoneAPI).returns
      (fun out => out.1.Status.Conditions = inst.Status.Conditions) := by
  unfold reconcileDelete.finalizers
  cases keystoneAPI with
  | none => exact M.returns_pure _ rfl
  | some api =>
    dsimp only
    split
    · refine M.returns_bind (M.returns_any _) ?_
      rintro err -
      cases err <;> exact M.returns_pure _ rfl
    · exact M.returns_pure _ rfl

theorem reconcileDelete_keeps_conditions {σ : Type} (w : World σ)
    (inst : KeystoneService) (helper : Helper) (os : Option (OpenStack σ))
    (keystoneAPI : Option KeystoneAPI) :
    (reconcileDelete w inst helper os keystoneAPI).returns
      (fun out => out.1.Status.Conditions = inst.Status.Conditions) := by
  unfold reconcileDelete
  split
  · refine M.returns_bind (M.returns_any _) ?_
    rintro err -
    cases err with
    | some e => exact M.returns_pure _ rfl
    | none =>
      refine M.returns_bind (M.returns_any _) ?_
      rintro err -
      cases err with
      | some e => exact M.returns_pure _ rfl
      | none => exact reconcileDelete_finalizers_keeps_conditions w _ helper keystoneAPI
  · exact reconcileDelete_finalizers_keeps_conditions w inst helper keystoneAPI

theorem reconcileDeleteFinalizersOnly_keeps_conditions {σ : Type} (w : World σ)
    (inst : KeystoneService) (helper : Helper) (keystoneAPI : Option KeystoneAPI) :
    (reconcileDeleteFinalizersOnly w inst helper keystoneAPI).returns
      (fun out => out.1.Status.Conditions = inst.Status.Conditions) := by
  unfold reconcileDeleteFinalizersOnly
  cases keystoneAPI with
  | none => exact M.returns_panic _
  | some api =>
    dsimp only
    split
    · refine M.returns_bind (M.returns_any _) ?_
      rintro err -
      cases err <;> exact M.returns_pure _ rfl
    · exact M.returns_pure _ rfl

theorem KeystoneService.readyAtMostOnce_of_conditions_eq (a b : KeystoneService)
    (h : a.Status.Conditions = b.Status.Conditions) (hb : b.readyAtMostOnce) :
    a.readyAtMostOnce := by
  unfold KeystoneService.readyAtMostOnce at *
  rw [h]
  exact hb

/-- `reconcileNormal` keeps at most one Ready condition. -/
theorem reconcileNormal_sync_readyAtMostOnce {σ : Type} (nf : String) (w : World σ)
    (inst : KeystoneService) (os : Option (OpenStack σ)) (h : inst.readyAtMostOnce) :
    (reconcileNormal.sync nf w inst os).returns (fun out => out.1.readyAtMostOnce) := by
  unfold reconcileNormal.sync
  refine M.returns_bind (reconcileService_keeps_conditions nf inst os) ?_
  rintro ⟨inst1, err⟩ hq
  have h1 : inst1.readyAtMostOnce :=
    KeystoneService.readyAtMostOnce_of_conditions_eq inst1 inst hq h
  cases err with
  | some e => exact M.returns_pure _ (KeystoneService.readyAtMostOnce_setCondition _ _ h1)
  | none =>
    refine M.returns_bind (M.returns_any _) ?_
    rintro ⟨ctrlResult, err⟩ -
    have h2 := KeystoneService.readyAtMostOnce_markTrue inst1
      KeystoneServiceOSServiceReadyCondition MessageFormat.KeystoneServiceOSServiceReadyMessage
      [inst1.Spec.ServiceName, inst1.Status.ServiceID] h1
    cases err with
    | some e => exact M.returns_pure _ (KeystoneService.readyAtMostOnce_setCondition _ _ h2)
    | none =>
      dsimp only
      split
      · exact M.returns_pure _ (KeystoneService.readyAtMostOnce_setCondition _ _ h2)
      · exact M.returns_pure _ (KeystoneService.readyAtMostOnce_markTrue _ _ _ _ h2)

theorem reconcileNormal_readyAtMostOnce {σ : Type} (nf : String) (w : World σ)
    (inst : KeystoneService) (helper : Helper) (os : Option (OpenStack σ))
    (keystoneAPI : Option KeystoneAPI) (h : inst.readyAtMostOnce) :
    (reconcileNormal nf w inst helper os keystoneAPI).returns
      (fun out => out.1.readyAtMostOnce) := by
  unfold reconcileNormal
  cases keystoneAPI with
  | none => exact M.returns_panic _
  | some api =>
    dsimp only
    split
    · refine M.returns_bind (M.returns_any _) ?_
      rintro err -
      cases err with
      | some e => exact M.returns_pure _ h
      | none => exact reconcileNormal_sync_readyAtMostOnce nf w inst os h
    · exact reconcileNormal_sync_readyAtMostOnce nf w inst os h

theorem M.returns_mono {σ α : Type} {m : M σ α} {Q P : α → Prop} (hm : m.returns Q)
    (h : ∀ a, Q a → P a) : m.returns P :=
  fun r a r1 hrun => h a (hm r a r1 hrun)

/-- The body of `Reconcile` keeps at most one Ready condition. -/
theorem Reconcile_body_readyAtMostOnce {σ : Type} (nf : String) (w : World σ)
    (inst : KeystoneService) (helper : Helper) (h : inst.readyAtMostOnce) :
    (Reconcile.body nf w inst helper).returns (fun out => out.1.readyAtMostOnce) := by
  unfold Reconcile.body
  split
  · refine M.returns_pure _ ?_
    show Conditions.count (Option.getD (some (Conditions.Init _)) []) ReadyCondition ≤ 1
    decide
  dsimp only
  split
  · exact M.returns_pure _ h
  refine M.returns_bind (M.returns_any _) ?_
  rintro ⟨keystoneAPI, err⟩ -
  cases err with
  | some e =>
    dsimp only
    split
    · split
      · exact M.returns_mono (reconcileDelete_keeps_conditions w inst helper none none)
          (fun out hq => KeystoneService.readyAtMostOnce_of_conditions_eq _ _ hq h)
      · exact M.returns_pure _ (KeystoneService.readyAtMostOnce_setCondition _ _ h)
    · exact M.returns_pure _ (KeystoneService.readyAtMostOnce_setCondition _ _ h)
  | none =>
    cases keystoneAPI with
    | none => exact M.returns_panic _
    | some api =>
      dsimp only
      split
      · exact M.returns_mono (reconcileDeleteFinalizersOnly_keeps_conditions w inst helper _)
          (fun out hq => KeystoneService.readyAtMostOnce_of_conditions_eq _ _ hq h)
      split
      · exact M.returns_mono (reconcileDelete_keeps_conditions w inst helper none _)
          (fun out hq => KeystoneService.readyAtMostOnce_of_conditions_eq _ _ hq h)
      split
      · exact M.returns_pure _ (KeystoneService.readyAtMostOnce_setCondition _ _ h)
      have h1 := KeystoneService.readyAtMostOnce_markTrue inst KeystoneAPIReadyCondition
        MessageFormat.KeystoneAPIReadyMessage [] h
      refine M.returns_bind (M.returns_any _) ?_
      rintro ⟨os, ctrlResult, err⟩ -
      cases err with
      | some e => exact M.returns_pure _ (KeystoneService.readyAtMostOnce_setCondition _ _ h1)
      | none =>
        dsimp only
        split
        · exact M.returns_pure _ (KeystoneService.readyAtMostOnce_setCondition _ _ h1)
        have h2 := KeystoneService.readyAtMostOnce_markTrue _ AdminServiceClientReadyCondition
          MessageFormat.AdminServiceClientReadyMessage [] h1
        split
        · exact M.returns_mono (reconcileDelete_keeps_conditions w _ helper os _)
            (fun out hq => KeystoneService.readyAtMostOnce_of_conditions_eq _ _ hq h2)
        · exact reconcileNormal_readyAtMostOnce nf w _ helper os _ h2

/-! ## How `Reconcile` runs -/

/-- Once the instance is fetched and the helper built, `Reconcile` is its body
followed by the deferred function. -/
theorem Reconcile_run {σ : Type} (nf : String) (w : World σ) (req : Request) (r : Run σ)
    (inst : KeystoneService) (helper : Helper) (s1 s2 : σ)
    (hget : w.Get req.Name req.Namespace r.world = (Res.ok (inst, none), s1))
    (hhelper : w.NewHelper inst s1 = (Res.ok (helper, none), s2)) :
    Reconcile nf w req r =
      Reconcile.deferred w
        (Reconcile.body nf w inst helper
          { world := s2,
            calls := r.calls ++ [Call.Get req.Name req.Namespace, Call.NewHelper inst] }).1
        (Reconcile.body nf w inst helper
          { world := s2,
            calls := r.calls ++ [Call.Get req.Name req.Namespace, Call.NewHelper inst] }).2 := by
  simp [Reconcile, call, bind, M.bind, hget, hhelper]

/-- The deferred function after a body that returned: the instance with the
recomputed conditions is patched, and an error of the patch replaces the error
of the body. -/
theorem Reconcile_deferred_ok {σ : Type} (w : World σ) (inst : KeystoneService)
    (result : Result) (err : Option GoError) (r1 : Run σ) :
    Reconcile.deferred w (Res.ok (inst, result, err)) r1 =
      match w.PatchInstance (patchedInstance inst) r1.world with
      | (Res.ok perr, s) =>
        (Res.ok (result, match perr with
          | some e => some e
          | none => err),
          { world := s, calls := r1.calls ++ [Call.PatchInstance (patchedInstance inst)] })
      | (Res.panic v, s) =>
        (Res.panic v,
          { world := s, calls := r1.calls ++ [Call.PatchInstance (patchedInstance inst)] }) := by
  rcases hp : w.PatchInstance (patchedInstance inst) r1.world with ⟨res, s⟩
  have hp' : w.PatchInstance
      { inst with Status := { inst.Status with
          Conditions := some (Reconcile.updateReady (inst.Status.Conditions.getD [])) } }
      r1.world = (res, s) := hp
  rcases res with perr | v
  · cases perr <;> simp [Reconcile.deferred, call, bind, M.bind, pure, M.pure, hp'] <;> rfl
  · simp [Reconcile.deferred, call, bind, M.bind, hp']
    rfl

/-- C7: after every invocation of `Reconcile` whose body returns (so that the
deferred function runs without a panic to pass on), on an instance that was
stored with at most one Ready condition, the instance the deferred function
patches has exactly one condition of type Ready, and that condition is True
if and only if every other condition of the instance is True. -/
theorem Reconcile_exactly_one_ready {σ : Type} (nf : String) (w : World σ) (req : Request)
    (r : Run σ) (inst : KeystoneService) (helper : Helper) (s1 s2 : σ)
    (left : KeystoneService) (result : Result) (err : Option GoError) (r1 : Run σ)
    (hget : w.Get req.Name req.Namespace r.world = (Res.ok (inst, none), s1))
    (hhelper : w.NewHelper inst s1 = (Res.ok (helper, none), s2))
    (hstored : Conditions.count (inst.Status.Conditions.getD []) ReadyCondition ≤ 1)
    (hbody : Reconcile.body nf w inst helper
        { world := s2,
          calls := r.calls ++ [Call.Get req.Name req.Namespace, Call.NewHelper inst] }
      = (Res.ok (left, result, err), r1)) :
    ∃ patched conds,
      (Reconcile nf w req r).2.calls = r1.calls ++ [Call.PatchInstance patched] ∧
      patched.Status.Conditions = some conds ∧
      Conditions.count conds ReadyCondition = 1 ∧
      ∀ rc ∈ conds, rc.Type_ = ReadyCondition →
        (rc.Status = ConditionStatus.ConditionTrue ↔
          ∀ c ∈ conds, c.Type_ ≠ ReadyCondition → c.Status = ConditionStatus.ConditionTrue) := by
  have hleft : left.readyAtMostOnce :=
    Reconcile_body_readyAtMostOnce nf w inst helper hstored _ _ _ hbody
  have hready := updateReady_ready (left.Status.Conditions.getD []) hleft
  refine ⟨patchedInstance left, Reconcile.updateReady (left.Status.Conditions.getD []),
    ?_, rfl, hready.1, hready.2.2⟩
  rw [Reconcile_run nf w req r inst helper s1 s2 hget hhelper, hbody, Reconcile_deferred_ok]
  rcases w.PatchInstance (patchedInstance left) r1.world with ⟨res, s⟩
  rcases res with perr | v <;> rfl

/-- Witness of C7: the example instance after its first pass, fetched from
the example cluster; the body adds the finalizer of the instance and returns. -/
theorem Reconcile_exactly_one_ready_witness :
    Conditions.count (seededInstance.Status.Conditions.getD []) ReadyCondition ≤ 1 ∧
    ∃ patched conds,
      (Reconcile exampleServiceNotFound (exampleWorld seededInstance none noFault)
          exampleRequest emptyRun).2.calls =
        [Call.Get "placement" "openstack", Call.NewHelper seededInstance] ++
          [Call.PatchInstance patched] ∧
      patched.Status.Conditions = some conds ∧
      Conditions.count conds ReadyCondition = 1 ∧
      ∀ rc ∈ conds, rc.Type_ = ReadyCondition →
        (rc.Status = ConditionStatus.ConditionTrue ↔
          ∀ c ∈ conds, c.Type_ ≠ ReadyCondition → c.Status = ConditionStatus.ConditionTrue) :=
  ⟨by decide,
    Reconcile_exactly_one_ready exampleServiceNotFound (exampleWorld seededInstance none noFault)
      exampleRequest emptyRun seededInstance exampleHelper emptyRun.world emptyRun.world
      { seededInstance with Finalizers := ["openstack.org/keystoneservice"] } {} none
      { world := emptyRun.world,
        calls := [Call.Get "placement" "openstack", Call.NewHelper seededInstance] }
      rfl rfl (by decide) rfl⟩

/-- C8: when not every sub-condition is True, the recomputation of the
deferred function (on a list with at most one Ready condition) leaves exactly
one Ready condition, and that condition is Unknown when no sub-condition is
False (so that at least one is Unknown), and False as soon as one
sub-condition is False, whatever the others are; it then carries the reason
and the message of a False sub-condition that no other False sub-condition
exceeds in severity (`mergePriority` ranks Error before Warning before
Info). -/
theorem updateReady_mirrors_most_severe (conds : Conditions)
    (hstored : Conditions.count conds ReadyCondition ≤ 1)
    (hnot : ∃ c ∈ conds, c.Type_ ≠ ReadyCondition ∧ c.Status ≠ ConditionStatus.ConditionTrue) :
    Conditions.count (Reconcile.updateReady conds) ReadyCondition = 1 ∧
    ∀ rc ∈ Reconcile.updateReady conds, rc.Type_ = ReadyCondition →
      ((∀ c ∈ conds, c.Type_ ≠ ReadyCondition → c.Status ≠ ConditionStatus.ConditionFalse) →
        rc.Status = ConditionStatus.ConditionUnknown ∧
        ∃ c ∈ conds, c.Type_ ≠ ReadyCondition ∧ c.Status = ConditionStatus.ConditionUnknown) ∧
      ((∃ c ∈ conds, c.Type_ ≠ ReadyCondition ∧ c.Status = ConditionStatus.ConditionFalse) →
        rc.Status = ConditionStatus.ConditionFalse ∧
        ∃ top ∈ conds, top.Type_ ≠ ReadyCondition ∧
          top.Status = ConditionStatus.ConditionFalse ∧
          (∀ d ∈ conds, d.Type_ ≠ ReadyCondition → d.Status = ConditionStatus.ConditionFalse →
            mergePriority top ≤ mergePriority d) ∧
          rc.Reason = top.Reason ∧ rc.Message = top.Message ∧ rc.Severity = top.Severity) := by
  obtain ⟨c0, hc0, hne0, hst0⟩ := hnot
  have hall : Conditions.AllSubConditionIsTrue conds = false := by
    cases hb : Conditions.AllSubConditionIsTrue conds with
    | false => rfl
    | true => exact absurd ((Conditions.AllSubConditionIsTrue_iff conds).1 hb c0 hc0 hne0) hst0
  obtain ⟨top, htop, hmin, hrun⟩ := updateReady_of_not_all conds hall
  have hone1 := Conditions.count_Set_eq_one conds
    (UnknownCondition ReadyCondition Reason.InitReason MessageFormat.ReadyInitMessage [])
    hstored
  have hone := Conditions.count_Set_eq_one
    (Conditions.Set conds
      (UnknownCondition ReadyCondition Reason.InitReason MessageFormat.ReadyInitMessage []))
    { Type_ := ReadyCondition, Status := top.Status, Severity := top.Severity,
      Reason := top.Reason, Message := top.Message } (le_of_eq hone1)
  -- a condition of the reset list that is not Unknown is a sub-condition of `conds`
  have hsubOf : ∀ d ∈ Conditions.Set conds
      (UnknownCondition ReadyCondition Reason.InitReason MessageFormat.ReadyInitMessage []),
      d.Status ≠ ConditionStatus.ConditionUnknown → d.Type_ ≠ ReadyCondition ∧ d ∈ conds := by
    intro d hd hdst
    have hty : d.Type_ ≠ ReadyCondition := by
      intro hty
      have := Conditions.eq_of_count_le_one _ ReadyCondition _ _ (le_of_eq hone1) hd
        (Conditions.mem_Set_self _ _) hty rfl
      rw [this] at hdst
      exact hdst rfl
    exact ⟨hty, (Conditions.mem_Set_of_ne conds _ d hty).1 hd⟩
  have hinto : ∀ d ∈ conds, d.Type_ ≠ ReadyCondition → d ∈ Conditions.Set conds
      (UnknownCondition ReadyCondition Reason.InitReason MessageFormat.ReadyInitMessage []) :=
    fun d hd hty => (Conditions.mem_Set_of_ne conds _ d hty).2 hd
  have htopNotTrue : top.Status ≠ ConditionStatus.ConditionTrue := by
    intro ht
    have h5 := (mergePriority_eq_five_iff top).2 ht
    have h4 : ¬ 5 ≤ mergePriority c0 := fun hh => hst0 ((mergePriority_eq_five_iff c0).1 hh)
    have := hmin c0 (hinto c0 hc0 hne0)
    omega
  rw [hrun]
  refine ⟨hone, ?_⟩
  intro rc hrc hty
  have hrc' := Conditions.eq_of_count_le_one _ ReadyCondition _ _ (le_of_eq hone) hrc
    (Conditions.mem_Set_self _ _) hty rfl
  subst hrc'
  constructor
  · intro hnoFalse
    have htopNotFalse : top.Status ≠ ConditionStatus.ConditionFalse := by
      intro hf
      have hsub := hsubOf top htop (by rw [hf]; decide)
      exact hnoFalse top hsub.2 hsub.1 hf
    have hc0Unknown : c0.Status = ConditionStatus.ConditionUnknown := by
      have := hnoFalse c0 hc0 hne0
      cases hs : c0.Status <;> simp_all
    refine ⟨?_, c0, hc0, hne0, hc0Unknown⟩
    show top.Status = ConditionStatus.ConditionUnknown
    cases hs : top.Status <;> simp_all
  · rintro ⟨c1, hc1, hne1, hst1⟩
    have h3 : mergePriority top ≤ 3 :=
      le_trans (hmin c1 (hinto c1 hc1 hne1)) ((mergePriority_le_three_iff c1).2 hst1)
    have htopFalse : top.Status = ConditionStatus.ConditionFalse :=
      (mergePriority_le_three_iff top).1 h3
    have hsub := hsubOf top htop (by rw [htopFalse]; decide)
    exact ⟨htopFalse, top, hsub.2, hsub.1, htopFalse,
      fun d hd hdty _ => hmin d (hinto d hd hdty), rfl, rfl, rfl⟩

/-- Witness of C8: with the KeystoneAPI sub-condition False and others True
or Unknown, Ready comes out False. -/
theorem updateReady_mirrors_most_severe_witness :
    Conditions.count waitingConditions ReadyCondition ≤ 1 ∧
    Conditions.count (Reconcile.updateReady waitingConditions) ReadyCondition = 1 ∧
    ∀ rc ∈ Reconcile.updateReady waitingConditions, rc.Type_ = ReadyCondition →
      rc.Status = ConditionStatus.ConditionFalse :=
  ⟨by decide,
    (updateReady_mirrors_most_severe waitingConditions (by decide)
      ⟨FalseCondition KeystoneAPIReadyCondition Reason.RequestedReason Severity.SeverityInfo
        MessageFormat.KeystoneAPIReadyWaitingMessage [], by decide, by decide, by decide⟩).1,
    fun rc hrc hty =>
      (((updateReady_mirrors_most_severe waitingConditions (by decide)
        ⟨FalseCondition KeystoneAPIReadyCondition Reason.RequestedReason Severity.SeverityInfo
          MessageFormat.KeystoneAPIReadyWaitingMessage [], by decide, by decide,
          by decide⟩).2 rc hrc hty).2
        ⟨FalseCondition KeystoneAPIReadyCondition Reason.RequestedReason Severity.SeverityInfo
          MessageFormat.KeystoneAPIReadyWaitingMessage [], by decide, by decide,
          by decide⟩).1⟩

/-- The conditions the first pass leaves: the seeded list, recomputed. -/
theorem updateReady_seeded :
    Reconcile.updateReady (Conditions.Init seededSubConditions) = seededConditions := by
  decide

/-- The body of `Reconcile` on an instance whose conditions are nil. -/
theorem Reconcile_body_nil {σ : Type} (nf : String) (w : World σ) (inst : KeystoneService)
    (helper : Helper) (r : Run σ) (hnil : inst.Status.Conditions = none) :
    Reconcile.body nf w inst helper r =
      (Res.ok (withConditions inst (Conditions.Init seededSubConditions), {}, none), r) := by
  simp [Reconcile.body, hnil, pure, M.pure, seededSubConditions]

/-- C9, as amended: for every KeystoneService whose `Status.Conditions` is
nil, once `Reconcile` has fetched it and built its helper, the body seeds the
four sub-conditions KeystoneAPIReady, AdminServiceClientReady,
KeystoneServiceOSServiceReady and KeystoneServiceOSUserReady as Unknown, the
deferred function leaves Ready Unknown and patches the instance with these
five conditions and nothing else changed (no finalizer added); the only calls
are `Get`, `NewHelper` and `PatchInstance` (no KeystoneAPI lookup, no call to
the identity backend); the result is empty, and the error returned is the one
of the status patch: nil when the patch succeeds. -/
theorem Reconcile_seeds_conditions {σ : Type} (nf : String) (w : World σ) (req : Request)
    (r : Run σ) (inst : KeystoneService) (helper : Helper) (s1 s2 s3 : σ)
    (perr : Option GoError)
    (hget : w.Get req.Name req.Namespace r.world = (Res.ok (inst, none), s1))
    (hhelper : w.NewHelper inst s1 = (Res.ok (helper, none), s2))
    (hnil : inst.Status.Conditions = none)
    (hpatch : w.PatchInstance
      { inst with Status := { inst.Status with Conditions := some seededConditions } } s2
      = (Res.ok perr, s3)) :
    Reconcile nf w req r =
      (Res.ok ({}, perr),
        { world := s3,
          calls := r.calls ++ [
            Call.Get req.Name req.Namespace,
            Call.NewHelper inst,
            Call.PatchInstance
              { inst with Status := { inst.Status with Conditions := some seededConditions } }] })
    ∧ seededConditions.map (fun c => (c.Type_, c.Status)) = [
        ("Ready", ConditionStatus.ConditionUnknown),
        ("KeystoneAPIReady", ConditionStatus.ConditionUnknown),
        ("AdminServiceClientReady", ConditionStatus.ConditionUnknown),
        ("KeystoneServiceOSServiceReady", ConditionStatus.ConditionUnknown),
        ("KeystoneServiceOSUserReady", ConditionStatus.ConditionUnknown)] := by
  refine ⟨?_, by decide⟩
  rw [Reconcile_run nf w req r inst helper s1 s2 hget hhelper,
    Reconcile_body_nil nf w inst helper _ hnil, Reconcile_deferred_ok]
  have hpi : patchedInstance (withConditions inst (Conditions.Init seededSubConditions)) =
      withConditions inst seededConditions := by
    simp only [patchedInstance, Option.getD_some, updateReady_seeded]
  rw [hpi]
  simp only [hpatch]
  cases perr <;> simp

/-- Witness of C9: the first pass over the example instance, fetched from
the example cluster. -/
theorem Reconcile_seeds_conditions_witness :
    exampleInstance.Status.Conditions = none ∧
    Reconcile exampleServiceNotFound (exampleWorld exampleInstance none noFault) exampleRequest
        emptyRun =
      (Res.ok ({}, none),
        { world := emptyRun.world,
          calls := emptyRun.calls ++ [
            Call.Get "placement" "openstack",
            Call.NewHelper exampleInstance,
            Call.PatchInstance (withConditions exampleInstance seededConditions)] }) :=
  ⟨rfl, (Reconcile_seeds_conditions exampleServiceNotFound
    (exampleWorld exampleInstance none noFault) exampleRequest emptyRun exampleInstance
    exampleHelper emptyRun.world emptyRun.world emptyRun.world none rfl rfl rfl rfl).1⟩

/-- Counterexample to C9 as stated: the conditions of the example instance are
nil, yet `Reconcile` returns an error when the status patch of the deferred
function fails, and it seeds nothing (the only calls are `Get` and
`NewHelper`) and returns an error when the helper cannot be built. -/
theorem Reconcile_nil_conditions_may_return_error :
    exampleInstance.Status.Conditions = none ∧
    (Reconcile exampleServiceNotFound (exampleWorld exampleInstance none patchFault)
        exampleRequest emptyRun).1 =
      Res.ok ({}, some patchError) ∧
    Reconcile exampleServiceNotFound (exampleWorld exampleInstance none helperFault)
        exampleRequest emptyRun =
      (Res.ok ({}, some { text := "no kind is registered for the type", notFound := false }),
        { world := emptyRun.world,
          calls := [Call.Get "placement" "openstack", Call.NewHelper exampleInstance] }) :=
  ⟨rfl, rfl, rfl⟩

/-! ## Finalizers -/

/-- `RemoveFinalizer` reports a change exactly when the finalizer was there. -/
theorem RemoveFinalizer_changed_iff (finalizers : List String) (finalizer : String) :
    (controllerutil.RemoveFinalizer finalizers finalizer).2 = true ↔ finalizer ∈ finalizers := by
  simp only [controllerutil.RemoveFinalizer, bne_iff_ne, ne_eq]
  constructor
  · intro h
    have hlt : (finalizers.filter (fun f => f != finalizer)).length < finalizers.length :=
      lt_of_le_of_ne (List.length_filter_le _ _) h
    obtain ⟨x, hx, hp⟩ := List.length_filter_lt_length_iff_exists.1 hlt
    have : x = finalizer := by simpa using hp
    rw [← this]
    exact hx
  · intro h hlen
    have hlt : (finalizers.filter (fun f => f != finalizer)).length < finalizers.length :=
      List.length_filter_lt_length_iff_exists.2 ⟨finalizer, h, by simp⟩
    omega

/-- After `RemoveFinalizer` the finalizer is not in the list. -/
theorem RemoveFinalizer_not_mem (finalizers : List String) (finalizer : String) :
    finalizer ∉ (controllerutil.RemoveFinalizer finalizers finalizer).1 := by
  simp [controllerutil.RemoveFinalizer]

/-- The body of `Reconcile` when the instance and the KeystoneAPI it finds are
both being deleted: `GetKeystoneAPI` and then `reconcileDeleteFinalizersOnly`. -/
theorem Reconcile_body_both_deleted {σ : Type} (nf : String) (w : World σ)
    (inst : KeystoneService) (helper : Helper) (r : Run σ) (api : KeystoneAPI) (s3 : σ)
    (hconds : inst.Status.Conditions.isNone = false)
    (hdel : IsZero inst.DeletionTimestamp = false)
    (hapi : w.GetKeystoneAPI inst.Namespace r.world = (Res.ok (some api, none), s3))
    (hapidel : IsZero api.DeletionTimestamp = false) :
    Reconcile.body nf w inst helper r =
      reconcileDeleteFinalizersOnly w inst helper (some api)
        { world := s3, calls := r.calls ++ [Call.GetKeystoneAPI inst.Namespace] } := by
  simp [Reconcile.body, hconds, hdel, call, bind, M.bind, hapi, hapidel]

/-- `reconcileDeleteFinalizersOnly` when the KeystoneAPI does not carry the
finalizer of this service: no call, the finalizer of the instance is removed. -/
theorem reconcileDeleteFinalizersOnly_absent {σ : Type} (w : World σ) (inst : KeystoneService)
    (helper : Helper) (api : KeystoneAPI) (r : Run σ)
    (h : helper.GetFinalizer ++ "-" ++ inst.Name ∉ api.Finalizers) :
    reconcileDeleteFinalizersOnly w inst helper (some api) r =
      (Res.ok (inst.removeFinalizer helper.GetFinalizer, {}, none), r) := by
  have h2 : (controllerutil.RemoveFinalizer api.Finalizers
      (sprintfDash helper.GetFinalizer inst.Name)).2 = false := by
    cases hb : (controllerutil.RemoveFinalizer api.Finalizers
      (sprintfDash helper.GetFinalizer inst.Name)).2 with
    | false => rfl
    | true => exact absurd ((RemoveFinalizer_changed_iff _ _).1 hb) h
  simp [reconcileDeleteFinalizersOnly, h2, pure, M.pure]

/-- `reconcileDeleteFinalizersOnly` when the KeystoneAPI carries the finalizer
of this service: the KeystoneAPI is updated without it; the finalizer of the
instance is removed when the update returns no error. -/
theorem reconcileDeleteFinalizersOnly_present {σ : Type} (w : World σ)
    (inst : KeystoneService) (helper : Helper) (api : KeystoneAPI) (r : Run σ)
    (uerr : Option GoError) (s4 : σ)
    (h : helper.GetFinalizer ++ "-" ++ inst.Name ∈ api.Finalizers)
    (hupdate : w.Update (withoutFinalizer api (helper.GetFinalizer ++ "-" ++ inst.Name)) r.world
      = (Res.ok uerr, s4)) :
    reconcileDeleteFinalizersOnly w inst helper (some api) r =
      (Res.ok (match uerr with
          | some e => (inst, {}, some e)
          | none => (inst.removeFinalizer helper.GetFinalizer, {}, none)),
        { world := s4,
          calls := r.calls ++ [Call.Update
            (withoutFinalizer api (helper.GetFinalizer ++ "-" ++ inst.Name))] }) := by
  have h2 : (controllerutil.RemoveFinalizer api.Finalizers
      (sprintfDash helper.GetFinalizer inst.Name)).2 = true :=
    (RemoveFinalizer_changed_iff _ _).2 h
  have hupdate' : w.Update
      { api with Finalizers := (controllerutil.RemoveFinalizer api.Finalizers
        (sprintfDash helper.GetFinalizer inst.Name)).1 } r.world = (Res.ok uerr, s4) := hupdate
  cases uerr <;>
    simp [reconcileDeleteFinalizersOnly, h2, call, bind, M.bind, pure, M.pure, hupdate'] <;> rfl

/-! ## What the code issues -/

theorem M.issuesOnly_pure {σ α : Type} {P : Call → Prop} (a : α) :
    (pure a : M σ α).issuesOnly P :=
  fun r => ⟨[], by simp [pure, M.pure], by simp⟩

theorem M.issuesOnly_panic {σ α : Type} {P : Call → Prop} (v : String) :
    (M.panic v : M σ α).issuesOnly P :=
  fun r => ⟨[], by simp [M.panic], by simp⟩

theorem M.issuesOnly_call {σ α : Type} {P : Call → Prop} (c : Call) (f : σ → Res α × σ)
    (h : P c) : (call c f).issuesOnly P := by
  intro r
  refine ⟨[c], ?_, by simpa using h⟩
  simp only [call]

theorem M.issuesOnly_bind {σ α β : Type} {P : Call → Prop} {m : M σ α} {f : α → M σ β}
    (hm : m.issuesOnly P) (hf : ∀ a, (f a).issuesOnly P) : (m >>= f).issuesOnly P := by
  intro r
  obtain ⟨l1, hl1, hp1⟩ := hm r
  change ∃ l, (M.bind m f r).2.calls = r.calls ++ l ∧ ∀ c ∈ l, P c
  unfold M.bind
  rcases hmr : m r with ⟨res, r2⟩
  rw [hmr] at hl1
  rcases res with a | v
  · obtain ⟨l2, hl2, hp2⟩ := hf a r2
    refine ⟨l1 ++ l2, ?_, ?_⟩
    · show (f a r2).2.calls = r.calls ++ (l1 ++ l2)
      rw [hl2, show r2.calls = r.calls ++ l1 from hl1, List.append_assoc]
    · intro c hc
      rcases List.mem_append.1 hc with h | h
      · exact hp1 c h
      · exact hp2 c h
  · exact ⟨l1, hl1, hp1⟩

theorem M.issuesOnly_issued {σ α : Type} {P : Call → Prop} {m : M σ α} (hm : m.issuesOnly P)
    (r : Run σ) : ∀ c ∈ issued m r, P c := by
  obtain ⟨l, hl, hp⟩ := hm r
  rw [issued_eq_of_calls m r l hl]
  exact hp

/-- `reconcileDeleteFinalizersOnly` issues nothing but the update of the
KeystoneAPI. -/
theorem reconcileDeleteFinalizersOnly_issuesOnly {σ : Type} (w : World σ)
    (inst : KeystoneService) (helper : Helper) (keystoneAPI : Option KeystoneAPI) :
    (reconcileDeleteFinalizersOnly w inst helper keystoneAPI).issuesOnly
      (fun c => c.isIdentity = false) := by
  unfold reconcileDeleteFinalizersOnly
  cases keystoneAPI with
  | none => exact M.issuesOnly_panic _
  | some api =>
    dsimp only
    split
    · refine M.issuesOnly_bind (M.issuesOnly_call _ _ rfl) ?_
      intro err
      cases err <;> exact M.issuesOnly_pure _
    · exact M.issuesOnly_pure _

/-- The deferred function issues nothing but the status patch. -/
theorem Reconcile_deferred_issuesOnly {σ : Type} (w : World σ)
    (body : Res (KeystoneService × Result × Option GoError)) :
    (Reconcile.deferred w body).issuesOnly (fun c => c.isIdentity = false) := by
  unfold Reconcile.deferred
  rcases body with ⟨inst, result, err⟩ | v
  · dsimp only
    refine M.issuesOnly_bind (M.issuesOnly_call _ _ rfl) ?_
    intro perr
    cases perr <;> exact M.issuesOnly_pure _
  · exact M.issuesOnly_panic _

/-- The calls issued are free of identity calls when a list of such calls
extends the calls of before. -/
theorem issuesOnlyIdentityFree {σ α : Type} (m : M σ α) (r : Run σ)
    (h : ∃ l, (m r).2.calls = r.calls ++ l ∧ ∀ c ∈ l, c.isIdentity = false) :
    ∀ c ∈ issued m r, c.isIdentity = false := by
  obtain ⟨l, hl, hp⟩ := h
  rw [issued_eq_of_calls m r l hl]
  exact hp

/-- C10, as amended: when the KeystoneService (conditions already initialised)
and the KeystoneAPI `Reconcile` finds both carry a deletion timestamp,
`Reconcile` issues no call to the identity backend (no admin client, no
`DeleteUser`, no `DeleteService`). It takes the token
`<finalizer>-<instance name>` off the KeystoneAPI, issuing an `Update` only if
the token was there. When no `Update` is issued or the `Update` succeeds, the
finalizer of the instance is removed and the result is empty (no requeue),
the error being the one of the deferred status patch: nil when the patch
succeeds. When the `Update` fails, the finalizer of the instance stays and
the error of the `Update` is returned unless the patch fails as well. -/
theorem Reconcile_both_deleted_finalizers_only {σ : Type} (nf : String) (w : World σ)
    (req : Request) (r : Run σ) (inst : KeystoneService) (helper : Helper) (api : KeystoneAPI)
    (s1 s2 s3 : σ)
    (hget : w.Get req.Name req.Namespace r.world = (Res.ok (inst, none), s1))
    (hhelper : w.NewHelper inst s1 = (Res.ok (helper, none), s2))
    (hconds : inst.Status.Conditions ≠ none)
    (hdel : IsZero inst.DeletionTimestamp = false)
    (hapi : w.GetKeystoneAPI inst.Namespace s2 = (Res.ok (some api, none), s3))
    (hapidel : IsZero api.DeletionTimestamp = false) :
    (∀ c ∈ issued (Reconcile nf w req) r, c.isIdentity = false) ∧
    (helper.GetFinalizer ++ "-" ++ inst.Name ∉ api.Finalizers →
      ∀ perr s4,
        w.PatchInstance (patchedInstance (inst.removeFinalizer helper.GetFinalizer)) s3
          = (Res.ok perr, s4) →
        Reconcile nf w req r =
          (Res.ok ({}, perr),
            { world := s4,
              calls := r.calls ++ [
                Call.Get req.Name req.Namespace,
                Call.NewHelper inst,
                Call.GetKeystoneAPI inst.Namespace,
                Call.PatchInstance
                  (patchedInstance (inst.removeFinalizer helper.GetFinalizer))] })) ∧
    (helper.GetFinalizer ++ "-" ++ inst.Name ∈ api.Finalizers →
      ∀ s4,
        w.Update (withoutFinalizer api (helper.GetFinalizer ++ "-" ++ inst.Name)) s3
          = (Res.ok none, s4) →
      ∀ perr s5,
        w.PatchInstance (patchedInstance (inst.removeFinalizer helper.GetFinalizer)) s4
          = (Res.ok perr, s5) →
        Reconcile nf w req r =
          (Res.ok ({}, perr),
            { world := s5,
              calls := r.calls ++ [
                Call.Get req.Name req.Namespace,
                Call.NewHelper inst,
                Call.GetKeystoneAPI inst.Namespace,
                Call.Update (withoutFinalizer api (helper.GetFinalizer ++ "-" ++ inst.Name)),
                Call.PatchInstance
                  (patchedInstance (inst.removeFinalizer helper.GetFinalizer))] })) ∧
    (helper.GetFinalizer ++ "-" ++ inst.Name ∈ api.Finalizers →
      ∀ e s4,
        w.Update (withoutFinalizer api (helper.GetFinalizer ++ "-" ++ inst.Name)) s3
          = (Res.ok (some e), s4) →
      ∀ perr s5,
        w.PatchInstance (patchedInstance inst) s4 = (Res.ok perr, s5) →
        Reconcile nf w req r =
          (Res.ok ({}, some (perr.getD e)),
            { world := s5,
              calls := r.calls ++ [
                Call.Get req.Name req.Namespace,
                Call.NewHelper inst,
                Call.GetKeystoneAPI inst.Namespace,
                Call.Update (withoutFinalizer api (helper.GetFinalizer ++ "-" ++ inst.Name)),
                Call.PatchInstance (patchedInstance inst)] })) ∧
    helper.GetFinalizer ∉ (patchedInstance (inst.removeFinalizer helper.GetFinalizer)).Finalizers ∧
    helper.GetFinalizer ++ "-" ++ inst.Name ∉
      (withoutFinalizer api (helper.GetFinalizer ++ "-" ++ inst.Name)).Finalizers := by
  have hnone : inst.Status.Conditions.isNone = false := by
    cases hc : inst.Status.Conditions with
    | none => exact absurd hc hconds
    | some _ => rfl
  have hrun := Reconcile_run nf w req r inst helper s1 s2 hget hhelper
  have hbody := Reconcile_body_both_deleted nf w inst helper
    { world := s2,
      calls := r.calls ++ [Call.Get req.Name req.Namespace, Call.NewHelper inst] }
    api s3 hnone hdel hapi hapidel
  rw [hbody] at hrun
  refine ⟨?_, ?_, ?_, ?_, ?_, ?_⟩
  · apply issuesOnlyIdentityFree
    rw [hrun]
    obtain ⟨l1, hl1, hp1⟩ := reconcileDeleteFinalizersOnly_issuesOnly w inst helper (some api)
      { world := s3,
        calls := r.calls ++ [Call.Get req.Name req.Namespace, Call.NewHelper inst] ++
          [Call.GetKeystoneAPI inst.Namespace] }
    obtain ⟨l2, hl2, hp2⟩ := Reconcile_deferred_issuesOnly w
      (reconcileDeleteFinalizersOnly w inst helper (some api)
        { world := s3,
          calls := r.calls ++ [Call.Get req.Name req.Namespace, Call.NewHelper inst] ++
            [Call.GetKeystoneAPI inst.Namespace] }).1
      (reconcileDeleteFinalizersOnly w inst helper (some api)
        { world := s3,
          calls := r.calls ++ [Call.Get req.Name req.Namespace, Call.NewHelper inst] ++
            [Call.GetKeystoneAPI inst.Namespace] }).2
    refine ⟨[Call.Get req.Name req.Namespace, Call.NewHelper inst,
      Call.GetKeystoneAPI inst.Namespace] ++ l1 ++ l2, ?_, ?_⟩
    · rw [hl2, hl1]
      simp
    · intro c hc
      simp only [List.mem_append, List.mem_cons, List.mem_singleton, List.not_mem_nil,
        or_false] at hc
      rcases hc with ((rfl | rfl | rfl) | h) | h
      · rfl
      · rfl
      · rfl
      · exact hp1 c h
      · exact hp2 c h
  · intro habsent perr s4 hpatch
    rw [hrun, reconcileDeleteFinalizersOnly_absent w inst helper api _ habsent,
      Reconcile_deferred_ok]
    simp only [hpatch]
    cases perr <;> simp
  · intro hpresent s4 hupdate perr s5 hpatch
    rw [hrun, reconcileDeleteFinalizersOnly_present w inst helper api _ none s4 hpresent hupdate,
      Reconcile_deferred_ok]
    simp only [hpatch]
    cases perr <;> simp
  · intro hpresent e s4 hupdate perr s5 hpatch
    rw [hrun, reconcileDeleteFinalizersOnly_present w inst helper api _ (some e) s4 hpresent
      hupdate, Reconcile_deferred_ok]
    simp only [hpatch]
    cases perr <;> simp
  · exact RemoveFinalizer_not_mem inst.Finalizers helper.GetFinalizer
  · simp

/-- Witness of C10: the example instance and its KeystoneAPI, both being
deleted, the KeystoneAPI still carrying the token of the instance. -/
theorem Reconcile_both_deleted_finalizers_only_witness :
    deletedInstance.Status.Conditions ≠ none ∧
    IsZero deletedInstance.DeletionTimestamp = false ∧
    IsZero deletedKeystoneAPI.DeletionTimestamp = false ∧
    "openstack.org/keystoneservice-placement" ∈ deletedKeystoneAPI.Finalizers ∧
    Reconcile exampleServiceNotFound
        (exampleWorld deletedInstance (some deletedKeystoneAPI) noFault) exampleRequest emptyRun =
      (Res.ok ({}, none),
        { world := emptyRun.world,
          calls := emptyRun.calls ++ [
            Call.Get "placement" "openstack",
            Call.NewHelper deletedInstance,
            Call.GetKeystoneAPI "openstack",
            Call.Update
              (withoutFinalizer deletedKeystoneAPI "openstack.org/keystoneservice-placement"),
            Call.PatchInstance
              (patchedInstance
                (deletedInstance.removeFinalizer "openstack.org/keystoneservice"))] }) :=
  ⟨by decide, rfl, rfl, by decide,
    (Reconcile_both_deleted_finalizers_only exampleServiceNotFound
      (exampleWorld deletedInstance (some deletedKeystoneAPI) noFault) exampleRequest emptyRun
      deletedInstance exampleHelper deletedKeystoneAPI emptyRun.world emptyRun.world
      emptyRun.world rfl rfl (by decide) rfl rfl rfl).2.2.1 (by decide) emptyRun.world rfl none
      emptyRun.world rfl⟩

/-- Counterexample to C10 as stated, with the example instance and its
KeystoneAPI both being deleted. First, the update of the KeystoneAPI succeeds
and yet `Reconcile` returns an error, the one of the failing status patch.
Second, when the update of the KeystoneAPI fails the finalizer of the
instance is not removed: the instance that is patched still carries it. -/
theorem Reconcile_both_deleted_may_return_error :
    (Reconcile exampleServiceNotFound
        (exampleWorld deletedInstance (some deletedKeystoneAPI) patchFault) exampleRequest
        emptyRun).1 = Res.ok ({}, some patchError) ∧
    (Reconcile exampleServiceNotFound
        (exampleWorld deletedInstance (some deletedKeystoneAPI) patchFault) exampleRequest
        emptyRun).2.calls = [
      Call.Get "placement" "openstack",
      Call.NewHelper deletedInstance,
      Call.GetKeystoneAPI "openstack",
      Call.Update (withoutFinalizer deletedKeystoneAPI "openstack.org/keystoneservice-placement"),
      Call.PatchInstance
        (patchedInstance (deletedInstance.removeFinalizer "openstack.org/keystoneservice"))] ∧
    (Reconcile exampleServiceNotFound
        (exampleWorld deletedInstance (some deletedKeystoneAPI) updateFault) exampleRequest
        emptyRun).2.calls = [
      Call.Get "placement" "openstack",
      Call.NewHelper deletedInstance,
      Call.GetKeystoneAPI "openstack",
      Call.Update (withoutFinalizer deletedKeystoneAPI "openstack.org/keystoneservice-placement"),
      Call.PatchInstance (patchedInstance deletedInstance)] ∧
    "openstack.org/keystoneservice" ∈ (patchedInstance deletedInstance).Finalizers :=
  ⟨rfl, rfl, rfl, by decide⟩

/-! ## How the delete paths run -/

/-- With a KeystoneAPI at hand, the last part of `reconcileDelete` is the code
of `reconcileDeleteFinalizersOnly`. -/
theorem reconcileDelete_finalizers_some {σ : Type} (w : World σ) (inst : KeystoneService)
    (helper : Helper) (api : KeystoneAPI) :
    reconcileDelete.finalizers w inst helper (some api) =
      reconcileDeleteFinalizersOnly w inst helper (some api) := rfl

/-- Without a KeystoneAPI the last part of `reconcileDelete` issues no call
and removes the finalizer of the instance. -/
theorem reconcileDelete_finalizers_none {σ : Type} (w : World σ) (inst : KeystoneService)
    (helper : Helper) (r : Run σ) :
    reconcileDelete.finalizers w inst helper none r =
      (Res.ok (inst.removeFinalizer helper.GetFinalizer, {}, none), r) := rfl

/-- `reconcileDelete` skips the cleanup of the backend when there is no
identifier or no client. -/
theorem reconcileDelete_skip {σ : Type} (w : World σ) (inst : KeystoneService)
    (helper : Helper) (os : Option (OpenStack σ)) (keystoneAPI : Option KeystoneAPI)
    (h : inst.Status.ServiceID = "" ∨ os = none) :
    reconcileDelete w inst helper os keystoneAPI =
      reconcileDelete.finalizers w inst helper keystoneAPI := by
  rcases h with h | h
  · simp [reconcileDelete, h]
  · simp [reconcileDelete, h]

/-- `reconcileDelete` when the cleanup of the backend succeeds: `DeleteUser`,
`DeleteService`, the identifier cleared, and then the last part. -/
theorem reconcileDelete_cleanup {σ : Type} (w : World σ) (inst : KeystoneService)
    (helper : Helper) (os : OpenStack σ) (keystoneAPI : Option KeystoneAPI) (r : Run σ)
    (s1 s2 : σ) (hid : inst.Status.ServiceID ≠ "")
    (huser : os.DeleteUser inst.Spec.ServiceUser "default" r.world = (Res.ok none, s1))
    (hservice : os.DeleteService inst.Status.ServiceID s1 = (Res.ok none, s2)) :
    reconcileDelete w inst helper (some os) keystoneAPI r =
      reconcileDelete.finalizers w (withServiceID inst "") helper keystoneAPI
        { world := s2,
          calls := r.calls ++ [Call.DeleteUser inst.Spec.ServiceUser "default",
            Call.DeleteService inst.Status.ServiceID] } := by
  simp [reconcileDelete, hid, onClient, call, bind, M.bind, huser, hservice]

theorem M.issuesOnly_mono {σ α : Type} {P Q : Call → Prop} {m : M σ α} (hm : m.issuesOnly P)
    (h : ∀ c, P c → Q c) : m.issuesOnly Q := by
  intro r
  obtain ⟨l, hl, hp⟩ := hm r
  exact ⟨l, hl, fun c hc => h c (hp c hc)⟩

theorem M.issuesOnly_onClient {σ α : Type} {P : Call → Prop} (os : Option (OpenStack σ))
    (c : Call) (method : OpenStack σ → σ → Res α × σ) (h : P c) :
    (onClient os c method).issuesOnly P := by
  cases os with
  | none => exact M.issuesOnly_panic _
  | some o => exact M.issuesOnly_call c _ h

/-- The last part of `reconcileDelete` issues nothing but the update of the
KeystoneAPI. -/
theorem reconcileDelete_finalizers_issuesOnly {σ : Type} (w : World σ)
    (inst : KeystoneService) (helper : Helper) (keystoneAPI : Option KeystoneAPI) :
    (reconcileDelete.finalizers w inst helper keystoneAPI).issuesOnly
      (fun c => c.isIdentity = false) := by
  cases keystoneAPI with
  | none => exact M.issuesOnly_pure _
  | some api =>
    rw [reconcileDelete_finalizers_some]
    exact reconcileDeleteFinalizersOnly_issuesOnly w inst helper (some api)

/-- C13: `reconcileDelete` cleans the identity backend only if
`Status.ServiceID` is not empty and a client is given. In that case, when
the calls succeed, it issues `DeleteUser` (the user of the spec, domain
`default`) and then `DeleteService` (the identifier of the status), sets
`Status.ServiceID` to the empty string, takes the token off the KeystoneAPI
when one is given (with an `Update` when the token was there), removes the
finalizer of the instance and returns an empty result and no error.
Otherwise, with an empty identifier or no client, no call reaches the
identity backend, `DeleteUser` and `DeleteService` included. -/
theorem reconcileDelete_cleans_backend {σ : Type} (w : World σ) (inst : KeystoneService)
    (helper : Helper) (os : Option (OpenStack σ)) (keystoneAPI : Option KeystoneAPI)
    (r : Run σ) :
    (∀ o s1 s2, os = some o → inst.Status.ServiceID ≠ "" →
      o.DeleteUser inst.Spec.ServiceUser "default" r.world = (Res.ok none, s1) →
      o.DeleteService inst.Status.ServiceID s1 = (Res.ok none, s2) →
      (keystoneAPI = none →
        reconcileDelete w inst helper os keystoneAPI r =
          (Res.ok ((withServiceID inst "").removeFinalizer helper.GetFinalizer, {}, none),
            { world := s2,
              calls := r.calls ++ [Call.DeleteUser inst.Spec.ServiceUser "default",
                Call.DeleteService inst.Status.ServiceID] })) ∧
      (∀ api, keystoneAPI = some api →
        helper.GetFinalizer ++ "-" ++ inst.Name ∉ api.Finalizers →
        reconcileDelete w inst helper os keystoneAPI r =
          (Res.ok ((withServiceID inst "").removeFinalizer helper.GetFinalizer, {}, none),
            { world := s2,
              calls := r.calls ++ [Call.DeleteUser inst.Spec.ServiceUser "default",
                Call.DeleteService inst.Status.ServiceID] })) ∧
      (∀ api s3, keystoneAPI = some api →
        helper.GetFinalizer ++ "-" ++ inst.Name ∈ api.Finalizers →
        w.Update (withoutFinalizer api (helper.GetFinalizer ++ "-" ++ inst.Name)) s2
          = (Res.ok none, s3) →
        reconcileDelete w inst helper os keystoneAPI r =
          (Res.ok ((withServiceID inst "").removeFinalizer helper.GetFinalizer, {}, none),
            { world := s3,
              calls := r.calls ++ [Call.DeleteUser inst.Spec.ServiceUser "default",
                Call.DeleteService inst.Status.ServiceID,
                Call.Update
                  (withoutFinalizer api (helper.GetFinalizer ++ "-" ++ inst.Name))] }))) ∧
    ((inst.Status.ServiceID = "" ∨ os = none) →
      ∀ c ∈ issued (reconcileDelete w inst helper os keystoneAPI) r, c.isIdentity = false) ∧
    ((withServiceID inst "").removeFinalizer helper.GetFinalizer).Status.ServiceID = "" ∧
    helper.GetFinalizer ∉
      ((withServiceID inst "").removeFinalizer helper.GetFinalizer).Finalizers := by
  refine ⟨?_, ?_, rfl, RemoveFinalizer_not_mem inst.Finalizers helper.GetFinalizer⟩
  · intro o s1 s2 hos hid huser hservice
    subst hos
    have hrun := reconcileDelete_cleanup w inst helper o keystoneAPI r s1 s2 hid huser hservice
    refine ⟨?_, ?_, ?_⟩
    · intro hnone
      subst hnone
      rw [hrun, reconcileDelete_finalizers_none]
    · intro api hsome habsent
      subst hsome
      rw [hrun, reconcileDelete_finalizers_some]
      exact reconcileDeleteFinalizersOnly_absent w (withServiceID inst "") helper api _ habsent
    · intro api s3 hsome hpresent hupdate
      subst hsome
      rw [hrun, reconcileDelete_finalizers_some,
        reconcileDeleteFinalizersOnly_present w (withServiceID inst "") helper api _ none s3
          hpresent hupdate]
      simp
  · intro hskip
    rw [reconcileDelete_skip w inst helper os keystoneAPI hskip]
    exact M.issuesOnly_issued (reconcileDelete_finalizers_issuesOnly w inst helper keystoneAPI) r

/-- Witness of C13: the example instance, being deleted with a registered
service, against the example backend that holds the service and a KeystoneAPI
that carries the token. -/
theorem reconcileDelete_cleans_backend_witness :
    deletedInstance.Status.ServiceID ≠ "" ∧
    "openstack.org/keystoneservice-placement" ∈ readyKeystoneAPI.Finalizers ∧
    reconcileDelete (exampleWorld deletedInstance (some readyKeystoneAPI) noFault)
        deletedInstance exampleHelper (some (exampleOpenStack noFault)) (some readyKeystoneAPI)
        adoptedRun =
      (Res.ok ((withServiceID deletedInstance "").removeFinalizer
          "openstack.org/keystoneservice", {}, none),
        { world := emptyRun.world,
          calls := adoptedRun.calls ++ [Call.DeleteUser "placement" "default",
            Call.DeleteService "placement/placement",
            Call.Update
              (withoutFinalizer readyKeystoneAPI
                "openstack.org/keystoneservice-placement")] }) :=
  ⟨by decide, by decide,
    ((reconcileDelete_cleans_backend (exampleWorld deletedInstance (some readyKeystoneAPI) noFault)
      deletedInstance exampleHelper (some (exampleOpenStack noFault)) (some readyKeystoneAPI)
      adoptedRun).1 (exampleOpenStack noFault) adoptedBackend emptyRun.world rfl (by decide)
      rfl rfl).2.2 readyKeystoneAPI emptyRun.world rfl (by decide) rfl⟩

/-- `AddFinalizer` reports a change exactly when the finalizer was not there. -/
theorem AddFinalizer_changed_iff (finalizers : List String) (finalizer : String) :
    (controllerutil.AddFinalizer finalizers finalizer).2 = true ↔ finalizer ∉ finalizers := by
  by_cases h : finalizer ∈ finalizers <;> simp [controllerutil.AddFinalizer, h]

theorem AddFinalizer_of_mem (finalizers : List String) (finalizer : String)
    (h : finalizer ∈ finalizers) :
    controllerutil.AddFinalizer finalizers finalizer = (finalizers, false) := by
  simp [controllerutil.AddFinalizer, h]

theorem AddFinalizer_of_not_mem (finalizers : List String) (finalizer : String)
    (h : finalizer ∉ finalizers) :
    controllerutil.AddFinalizer finalizers finalizer = (finalizers ++ [finalizer], true) := by
  simp [controllerutil.AddFinalizer, h]

/-- Taking off a finalizer that was put at the end of a list without it gives
the list back. -/
theorem filter_append_singleton (finalizers : List String) (finalizer : String)
    (h : finalizer ∉ finalizers) :
    (finalizers ++ [finalizer]).filter (fun f => f != finalizer) = finalizers := by
  rw [List.filter_append]
  have h1 : finalizers.filter (fun f => f != finalizer) = finalizers := by
    rw [List.filter_eq_self]
    intro a ha
    have : a ≠ finalizer := fun e => h (e ▸ ha)
    simpa using this
  simp [h1]

/-! ## How `reconcileNormal` runs -/

/-- `reconcileNormal` when the KeystoneAPI carries the token already: no
update, the service and the user follow at once. -/
theorem reconcileNormal_present {σ : Type} (nf : String) (w : World σ) (inst : KeystoneService)
    (helper : Helper) (os : Option (OpenStack σ)) (api : KeystoneAPI)
    (h : helper.GetFinalizer ++ "-" ++ inst.Name ∈ api.Finalizers) :
    reconcileNormal nf w inst helper os (some api) = reconcileNormal.sync nf w inst os := by
  have h2 : controllerutil.AddFinalizer api.Finalizers
      (sprintfDash helper.GetFinalizer inst.Name) = (api.Finalizers, false) :=
    AddFinalizer_of_mem _ _ h
  simp [reconcileNormal, h2]

/-- `reconcileNormal` when the KeystoneAPI does not carry the token: the
KeystoneAPI is updated with the token at the end of its finalizers, and the
service and the user follow only when the update returns no error. -/
theorem reconcileNormal_absent {σ : Type} (nf : String) (w : World σ) (inst : KeystoneService)
    (helper : Helper) (os : Option (OpenStack σ)) (api : KeystoneAPI) (r : Run σ)
    (h : helper.GetFinalizer ++ "-" ++ inst.Name ∉ api.Finalizers) :
    reconcileNormal nf w inst helper os (some api) r =
      match w.Update (withFinalizer api (helper.GetFinalizer ++ "-" ++ inst.Name)) r.world with
      | (Res.ok none, s) =>
        reconcileNormal.sync nf w inst os
          { world := s,
            calls := r.calls ++
              [Call.Update (withFinalizer api (helper.GetFinalizer ++ "-" ++ inst.Name))] }
      | (Res.ok (some e), s) =>
        (Res.ok (inst, {}, some e),
          { world := s,
            calls := r.calls ++
              [Call.Update (withFinalizer api (helper.GetFinalizer ++ "-" ++ inst.Name))] })
      | (Res.panic v, s) =>
        (Res.panic v,
          { world := s,
            calls := r.calls ++
              [Call.Update (withFinalizer api (helper.GetFinalizer ++ "-" ++ inst.Name))] }) := by
  have h2 : controllerutil.AddFinalizer api.Finalizers
      (sprintfDash helper.GetFinalizer inst.Name) =
        (api.Finalizers ++ [sprintfDash helper.GetFinalizer inst.Name], true) :=
    AddFinalizer_of_not_mem _ _ h
  rcases hu : w.Update (withFinalizer api (helper.GetFinalizer ++ "-" ++ inst.Name)) r.world
    with ⟨res, s⟩
  have hu' : w.Update
      { api with Finalizers := api.Finalizers ++ [sprintfDash helper.GetFinalizer inst.Name] }
      r.world = (res, s) := hu
  rcases res with uerr | v
  · cases uerr <;>
      simp [reconcileNormal, h2, call, bind, M.bind, pure, M.pure, hu'] <;> rfl
  · simp [reconcileNormal, h2, call, bind, M.bind, hu']
    rfl

/-! ## What the service and the user stages issue -/

theorem reconcileService_sync_issuesOnly {σ : Type} {P : Call → Prop} (inst : KeystoneService)
    (os : Option (OpenStack σ)) (service : Option services.Service)
    (hP : ∀ c, c.isIdentity = true → P c) :
    (reconcileService.sync inst os service).issuesOnly P := by
  unfold reconcileService.sync
  cases service with
  | none =>
    refine M.issuesOnly_bind (M.issuesOnly_onClient _ _ _ (hP _ rfl)) ?_
    rintro ⟨id, err⟩
    cases err <;> exact M.issuesOnly_pure _
  | some svc =>
    dsimp only
    split
    · refine M.issuesOnly_bind (M.issuesOnly_onClient _ _ _ (hP _ rfl)) ?_
      intro err
      cases err <;> exact M.issuesOnly_pure _
    · exact M.issuesOnly_pure _

/-- `reconcileService` issues calls to the identity backend only. -/
theorem reconcileService_issuesOnly {σ : Type} {P : Call → Prop} (nf : String)
    (inst : KeystoneService) (os : Option (OpenStack σ))
    (hP : ∀ c, c.isIdentity = true → P c) :
    (reconcileService nf inst os).issuesOnly P := by
  unfold reconcileService
  refine M.issuesOnly_bind (M.issuesOnly_onClient _ _ _ (hP _ rfl)) ?_
  rintro ⟨service, err⟩
  cases err with
  | none => exact reconcileService_sync_issuesOnly inst os service hP
  | some e =>
    dsimp only
    split
    · exact M.issuesOnly_pure _
    · exact reconcileService_sync_issuesOnly inst os service hP

theorem reconcileUser_roles_issuesOnly {σ : Type} {P : Call → Prop} (os : Option (OpenStack σ))
    (userID serviceProjectID : String) (roleNames : List String)
    (hP : ∀ c, c.isIdentity = true → P c) :
    (reconcileUser.roles os userID serviceProjectID roleNames).issuesOnly P := by
  induction roleNames with
  | nil => exact M.issuesOnly_pure _
  | cons roleName rest ih =>
    unfold reconcileUser.roles
    refine M.issuesOnly_bind (M.issuesOnly_onClient _ _ _ (hP _ rfl)) ?_
    rintro ⟨id, err⟩
    cases err with
    | some e => exact M.issuesOnly_pure _
    | none =>
      refine M.issuesOnly_bind (M.issuesOnly_onClient _ _ _ (hP _ rfl)) ?_
      intro err
      cases err with
      | some e => exact M.issuesOnly_pure _
      | none => exact ih

/-- `reconcileUser` issues the lookup of the secret and calls to the identity
backend only. -/
theorem reconcileUser_issuesOnly {σ : Type} {P : Call → Prop} (w : World σ)
    (inst : KeystoneService) (os : Option (OpenStack σ))
    (hP : ∀ c, c.isIdentity = true → P c)
    (hsecret : P (Call.GetDataFromSecret inst.Spec.Secret (10 * time.Second)
      inst.Spec.PasswordSelector)) :
    (reconcileUser w inst os).issuesOnly P := by
  unfold reconcileUser
  refine M.issuesOnly_bind (M.issuesOnly_call _ _ hsecret) ?_
  rintro ⟨password, ctrlResult, err⟩
  cases err with
  | some e => exact M.issuesOnly_pure _
  | none =>
    dsimp only
    split
    · exact M.issuesOnly_pure _
    refine M.issuesOnly_bind (M.issuesOnly_onClient _ _ _ (hP _ rfl)) ?_
    rintro ⟨serviceProjectID, err⟩
    cases err with
    | some e => exact M.issuesOnly_pure _
    | none =>
      refine M.issuesOnly_bind (M.issuesOnly_onClient _ _ _ (hP _ rfl)) ?_
      rintro ⟨userID, err⟩
      cases err with
      | some e => exact M.issuesOnly_pure _
      | none =>
        refine M.issuesOnly_bind
          (reconcileUser_roles_issuesOnly os userID serviceProjectID _ hP) ?_
        intro err
        cases err <;> exact M.issuesOnly_pure _

/-- The service and the user stages of `reconcileNormal` issue the lookup of
the secret and calls to the identity backend only. -/
theorem reconcileNormal_sync_issuesOnly {σ : Type} {P : Call → Prop} (nf : String)
    (w : World σ) (inst : KeystoneService) (os : Option (OpenStack σ))
    (hP : ∀ c, c.isIdentity = true → P c)
    (hsecret : ∀ secretName after key, P (Call.GetDataFromSecret secretName after key)) :
    (reconcileNormal.sync nf w inst os).issuesOnly P := by
  unfold reconcileNormal.sync
  refine M.issuesOnly_bind (reconcileService_issuesOnly nf inst os hP) ?_
  rintro ⟨inst1, err⟩
  cases err with
  | some e => exact M.issuesOnly_pure _
  | none =>
    refine M.issuesOnly_bind (reconcileUser_issuesOnly w _ os hP (hsecret _ _ _)) ?_
    rintro ⟨ctrlResult, err⟩
    cases err with
    | some e => exact M.issuesOnly_pure _
    | none =>
      dsimp only
      split <;> exact M.issuesOnly_pure _

/-- C14: in `reconcileNormal` a call to the identity backend (`GetService`,
`CreateService`, `UpdateService`, `CreateProject`, `CreateUser`, `CreateRole`,
`AssignUserRole`) is issued only if the KeystoneAPI carries the token of this
service already or the `Update` that adds it in this pass returned no error;
and when that `Update` returns an error, the error is returned with the
`Update` as the only call. -/
theorem reconcileNormal_identity_needs_finalizer {σ : Type} (nf : String) (w : World σ)
    (inst : KeystoneService) (helper : Helper) (os : Option (OpenStack σ)) (api : KeystoneAPI)
    (r : Run σ) :
    ((∃ c ∈ issued (reconcileNormal nf w inst helper os (some api)) r, c.isIdentity = true) →
      helper.GetFinalizer ++ "-" ++ inst.Name ∈ api.Finalizers ∨
      ∃ s, w.Update (withFinalizer api (helper.GetFinalizer ++ "-" ++ inst.Name)) r.world
        = (Res.ok none, s)) ∧
    (helper.GetFinalizer ++ "-" ++ inst.Name ∉ api.Finalizers →
      ∀ e s, w.Update (withFinalizer api (helper.GetFinalizer ++ "-" ++ inst.Name)) r.world
        = (Res.ok (some e), s) →
      reconcileNormal nf w inst helper os (some api) r =
        (Res.ok (inst, {}, some e),
          { world := s,
            calls := r.calls ++
              [Call.Update
                (withFinalizer api (helper.GetFinalizer ++ "-" ++ inst.Name))] })) := by
  constructor
  · rintro ⟨c, hc, hid⟩
    by_cases hmem : helper.GetFinalizer ++ "-" ++ inst.Name ∈ api.Finalizers
    · exact Or.inl hmem
    · right
      have hrun := reconcileNormal_absent nf w inst helper os api r hmem
      rcases hu : w.Update (withFinalizer api (helper.GetFinalizer ++ "-" ++ inst.Name))
        r.world with ⟨res, s⟩
      rw [hu] at hrun
      rcases res with uerr | v
      · cases uerr with
        | none => exact ⟨s, rfl⟩
        | some e =>
          exfalso
          simp only [issued, hrun, List.drop_left, List.mem_singleton] at hc
          rw [hc] at hid
          cases hid
      · exfalso
        simp only [issued, hrun, List.drop_left, List.mem_singleton] at hc
        rw [hc] at hid
        cases hid
  · intro hmem e s hu
    rw [reconcileNormal_absent nf w inst helper os api r hmem, hu]

/-- Witness of C14: with a KeystoneAPI that carries the token the example
backend is called; with one that does not and an update that fails, the
update is the only call. -/
theorem reconcileNormal_identity_needs_finalizer_witness :
    ("openstack.org/keystoneservice-placement" ∈ readyKeystoneAPI.Finalizers ∨
      ∃ s, (exampleWorld liveInstance (some readyKeystoneAPI) noFault).Update
        (withFinalizer readyKeystoneAPI "openstack.org/keystoneservice-placement")
        emptyRun.world = (Res.ok none, s)) ∧
    reconcileNormal exampleServiceNotFound
        (exampleWorld liveInstance (some freshKeystoneAPI) updateFault) liveInstance
        exampleHelper (some (exampleOpenStack updateFault)) (some freshKeystoneAPI) emptyRun =
      (Res.ok (liveInstance, {},
          some { text := "etcdserver: request timed out", notFound := false }),
        { world := emptyRun.world,
          calls := emptyRun.calls ++
            [Call.Update
              (withFinalizer freshKeystoneAPI "openstack.org/keystoneservice-placement")] }) :=
  ⟨(reconcileNormal_identity_needs_finalizer exampleServiceNotFound
      (exampleWorld liveInstance (some readyKeystoneAPI) noFault) liveInstance exampleHelper
      (some (exampleOpenStack noFault)) readyKeystoneAPI emptyRun).1
      ⟨Call.GetService "placement" "placement", by decide, rfl⟩,
    (reconcileNormal_identity_needs_finalizer exampleServiceNotFound
      (exampleWorld liveInstance (some freshKeystoneAPI) updateFault) liveInstance exampleHelper
      (some (exampleOpenStack updateFault)) freshKeystoneAPI emptyRun).2 (by decide) _
      emptyRun.world rfl⟩

/-- The service and the user stages of `reconcileNormal` issue no `Update`. -/
theorem reconcileNormal_sync_no_update {σ : Type} (nf : String) (w : World σ)
    (inst : KeystoneService) (os : Option (OpenStack σ)) :
    (reconcileNormal.sync nf w inst os).issuesOnly (fun c => c.isUpdate = false) :=
  reconcileNormal_sync_issuesOnly nf w inst os
    (fun c hc => by cases c <;> first | rfl | cases hc) (fun _ _ _ => rfl)

/-- The calls of `reconcileNormal` when the KeystoneAPI does not carry the
token: the update that adds it comes first, and no other update follows. -/
theorem reconcileNormal_absent_calls {σ : Type} (nf : String) (w : World σ)
    (inst : KeystoneService) (helper : Helper) (os : Option (OpenStack σ)) (api : KeystoneAPI)
    (r : Run σ) (hmem : helper.GetFinalizer ++ "-" ++ inst.Name ∉ api.Finalizers) :
    ∃ rest, (reconcileNormal nf w inst helper os (some api) r).2.calls =
        r.calls ++ Call.Update
          (withFinalizer api (helper.GetFinalizer ++ "-" ++ inst.Name)) :: rest ∧
      ∀ c ∈ rest, c.isUpdate = false := by
  rw [reconcileNormal_absent nf w inst helper os api r hmem]
  rcases w.Update (withFinalizer api (helper.GetFinalizer ++ "-" ++ inst.Name)) r.world
    with ⟨res, s⟩
  rcases res with uerr | v
  · cases uerr with
    | none =>
      obtain ⟨l, hl, hp⟩ := reconcileNormal_sync_no_update nf w inst os
        { world := s,
          calls := r.calls ++
            [Call.Update (withFinalizer api (helper.GetFinalizer ++ "-" ++ inst.Name))] }
      refine ⟨l, ?_, hp⟩
      simp only [hl, List.append_assoc, List.singleton_append]
    | some e => exact ⟨[], rfl, by simp⟩
  · exact ⟨[], rfl, by simp⟩

/-- C15: ensuring the finalizer on the KeystoneAPI is idempotent. When the
token is absent, `reconcileNormal` issues one `Update` of the KeystoneAPI with
the token added at the end of its finalizers (where it then occurs once), and
no other `Update`. When the token is present, the finalizer list is left as
it is and no `Update` is issued; in particular a pass over the KeystoneAPI as
updated issues none. -/
theorem reconcileNormal_ensures_finalizer_once {σ : Type} (nf : String) (w : World σ)
    (inst : KeystoneService) (helper : Helper) (os : Option (OpenStack σ)) (api : KeystoneAPI)
    (r : Run σ) :
    (helper.GetFinalizer ++ "-" ++ inst.Name ∉ api.Finalizers →
      (∃ rest, (reconcileNormal nf w inst helper os (some api) r).2.calls =
          r.calls ++ Call.Update
            (withFinalizer api (helper.GetFinalizer ++ "-" ++ inst.Name)) :: rest ∧
        ∀ c ∈ rest, c.isUpdate = false) ∧
      (withFinalizer api (helper.GetFinalizer ++ "-" ++ inst.Name)).Finalizers.count
        (helper.GetFinalizer ++ "-" ++ inst.Name) = 1) ∧
    (helper.GetFinalizer ++ "-" ++ inst.Name ∈ api.Finalizers →
      (controllerutil.AddFinalizer api.Finalizers
        (helper.GetFinalizer ++ "-" ++ inst.Name)).1 = api.Finalizers ∧
      ∀ c ∈ issued (reconcileNormal nf w inst helper os (some api)) r, c.isUpdate = false) ∧
    (∀ r2, ∀ c ∈ issued (reconcileNormal nf w inst helper os
        (some (withFinalizer api (helper.GetFinalizer ++ "-" ++ inst.Name)))) r2,
      c.isUpdate = false) := by
  have hpresent : ∀ (api1 : KeystoneAPI) (r1 : Run σ),
      helper.GetFinalizer ++ "-" ++ inst.Name ∈ api1.Finalizers →
      ∀ c ∈ issued (reconcileNormal nf w inst helper os (some api1)) r1, c.isUpdate = false := by
    intro api1 r1 hmem
    rw [reconcileNormal_present nf w inst helper os api1 hmem]
    exact M.issuesOnly_issued (reconcileNormal_sync_no_update nf w inst os) r1
  refine ⟨?_, ?_, ?_⟩
  · intro hmem
    constructor
    · exact reconcileNormal_absent_calls nf w inst helper os api r hmem
    · simp [List.count_eq_zero_of_not_mem hmem]
  · intro hmem
    exact ⟨by rw [AddFinalizer_of_mem _ _ hmem], hpresent api r hmem⟩
  · intro r2
    exact hpresent _ r2 (by simp)

/-- Witness of C15: a first pass over a KeystoneAPI without the token starts
with the update that adds it, and a pass over a KeystoneAPI that carries it
issues no update. -/
theorem reconcileNormal_ensures_finalizer_once_witness :
    "openstack.org/keystoneservice-placement" ∉ freshKeystoneAPI.Finalizers ∧
    "openstack.org/keystoneservice-placement" ∈ readyKeystoneAPI.Finalizers ∧
    ((∃ rest, (reconcileNormal exampleServiceNotFound
          (exampleWorld liveInstance (some freshKeystoneAPI) noFault) liveInstance
          exampleHelper (some (exampleOpenStack noFault)) (some freshKeystoneAPI)
          emptyRun).2.calls =
        emptyRun.calls ++ Call.Update
          (withFinalizer freshKeystoneAPI "openstack.org/keystoneservice-placement") :: rest ∧
        ∀ c ∈ rest, c.isUpdate = false) ∧
      (withFinalizer freshKeystoneAPI
        "openstack.org/keystoneservice-placement").Finalizers.count
          "openstack.org/keystoneservice-placement" = 1) ∧
    ((controllerutil.AddFinalizer readyKeystoneAPI.Finalizers
        "openstack.org/keystoneservice-placement").1 = readyKeystoneAPI.Finalizers ∧
      ∀ c ∈ issued (reconcileNormal exampleServiceNotFound
          (exampleWorld liveInstance (some readyKeystoneAPI) noFault) liveInstance
          exampleHelper (some (exampleOpenStack noFault)) (some readyKeystoneAPI)) emptyRun,
        c.isUpdate = false) :=
  ⟨by decide, by decide,
    (reconcileNormal_ensures_finalizer_once exampleServiceNotFound
      (exampleWorld liveInstance (some freshKeystoneAPI) noFault) liveInstance exampleHelper
      (some (exampleOpenStack noFault)) freshKeystoneAPI emptyRun).1 (by decide),
    (reconcileNormal_ensures_finalizer_once exampleServiceNotFound
      (exampleWorld liveInstance (some readyKeystoneAPI) noFault) liveInstance exampleHelper
      (some (exampleOpenStack noFault)) readyKeystoneAPI emptyRun).2.1 (by decide)⟩

/-- The calls of `reconcileDeleteFinalizersOnly` when the KeystoneAPI carries
the token: the update without it, however the update ends. -/
theorem reconcileDeleteFinalizersOnly_calls_present {σ : Type} (w : World σ)
    (inst : KeystoneService) (helper : Helper) (api : KeystoneAPI) (r : Run σ)
    (h : helper.GetFinalizer ++ "-" ++ inst.Name ∈ api.Finalizers) :
    (reconcileDeleteFinalizersOnly w inst helper (some api) r).2.calls =
      r.calls ++ [Call.Update
        (withoutFinalizer api (helper.GetFinalizer ++ "-" ++ inst.Name))] := by
  have h2 : (controllerutil.RemoveFinalizer api.Finalizers
      (sprintfDash helper.GetFinalizer inst.Name)).2 = true :=
    (RemoveFinalizer_changed_iff _ _).2 h
  rcases hu : w.Update (withoutFinalizer api (helper.GetFinalizer ++ "-" ++ inst.Name)) r.world
    with ⟨res, s⟩
  have hu' : w.Update
      { api with Finalizers := (controllerutil.RemoveFinalizer api.Finalizers
        (sprintfDash helper.GetFinalizer inst.Name)).1 } r.world = (res, s) := hu
  rcases res with uerr | v
  · rw [reconcileDeleteFinalizersOnly_present w inst helper api r uerr s h hu]
  · simp [reconcileDeleteFinalizersOnly, h2, call, bind, M.bind, hu']
    rfl

/-- Taking the token off a KeystoneAPI it was added to gives the KeystoneAPI
back. -/
theorem withoutFinalizer_withFinalizer (api : KeystoneAPI) (token : String)
    (h : token ∉ api.Finalizers) : withoutFinalizer (withFinalizer api token) token = api := by
  rcases api with ⟨name, ns, deletion, finalizers, conds⟩
  simp only [withoutFinalizer, withFinalizer]
  rw [filter_append_singleton finalizers token h]

/-- C17: the token `reconcileNormal` records on the KeystoneAPI is the
finalizer of the owner, a dash, and the name of the KeystoneService, and the
delete paths take off that token and no other. For a KeystoneAPI whose
finalizers do not contain it: `reconcileNormal` starts with the `Update` that
puts the token at the end of the list; on the KeystoneAPI so updated
`reconcileDeleteFinalizersOnly`, and `reconcileDelete` whether it skips the
cleanup of the backend or completes it, issue the `Update` of the KeystoneAPI
with the original finalizer list. -/
theorem finalizer_token_round_trip {σ : Type} (nf : String) (w : World σ)
    (inst : KeystoneService) (helper : Helper) (os : Option (OpenStack σ)) (api : KeystoneAPI)
    (r : Run σ) (habsent : helper.GetFinalizer ++ "-" ++ inst.Name ∉ api.Finalizers) :
    (∃ rest, (reconcileNormal nf w inst helper os (some api) r).2.calls =
      r.calls ++ Call.Update
        { api with
          Finalizers := api.Finalizers ++ [helper.GetFinalizer ++ "-" ++ inst.Name] } :: rest) ∧
    (∀ r2, (reconcileDeleteFinalizersOnly w inst helper
        (some (withFinalizer api (helper.GetFinalizer ++ "-" ++ inst.Name))) r2).2.calls =
      r2.calls ++ [Call.Update api]) ∧
    (∀ r2 os2, inst.Status.ServiceID = "" ∨ os2 = none →
      (reconcileDelete w inst helper os2
        (some (withFinalizer api (helper.GetFinalizer ++ "-" ++ inst.Name))) r2).2.calls =
      r2.calls ++ [Call.Update api]) ∧
    (∀ r2 o s1 s2, inst.Status.ServiceID ≠ "" →
      o.DeleteUser inst.Spec.ServiceUser "default" r2.world = (Res.ok none, s1) →
      o.DeleteService inst.Status.ServiceID s1 = (Res.ok none, s2) →
      (reconcileDelete w inst helper (some o)
        (some (withFinalizer api (helper.GetFinalizer ++ "-" ++ inst.Name))) r2).2.calls =
      r2.calls ++ [Call.DeleteUser inst.Spec.ServiceUser "default",
        Call.DeleteService inst.Status.ServiceID, Call.Update api]) ∧
    (∀ (api2 : KeystoneAPI) (f : String),
      f ∈ (withoutFinalizer api2 (helper.GetFinalizer ++ "-" ++ inst.Name)).Finalizers ↔
        f ∈ api2.Finalizers ∧ f ≠ helper.GetFinalizer ++ "-" ++ inst.Name) := by
  have hback := withoutFinalizer_withFinalizer api _ habsent
  have hmem : helper.GetFinalizer ++ "-" ++ inst.Name ∈
      (withFinalizer api (helper.GetFinalizer ++ "-" ++ inst.Name)).Finalizers := by simp
  have honly : ∀ (i : KeystoneService) (r2 : Run σ), i.Name = inst.Name →
      (reconcileDeleteFinalizersOnly w i helper
        (some (withFinalizer api (helper.GetFinalizer ++ "-" ++ inst.Name))) r2).2.calls =
      r2.calls ++ [Call.Update api] := by
    intro i r2 hname
    have hmem' : helper.GetFinalizer ++ "-" ++ i.Name ∈
        (withFinalizer api (helper.GetFinalizer ++ "-" ++ inst.Name)).Finalizers := by
      rw [hname]; exact hmem
    rw [reconcileDeleteFinalizersOnly_calls_present w i helper _ r2 hmem', hname, hback]
  refine ⟨?_, fun r2 => honly inst r2 rfl, ?_, ?_, ?_⟩
  · exact (reconcileNormal_absent_calls nf w inst helper os api r habsent).imp
      (fun rest h => h.1)
  · intro r2 os2 hskip
    rw [reconcileDelete_skip w inst helper os2 _ hskip, reconcileDelete_finalizers_some]
    exact honly inst r2 rfl
  · intro r2 o s1 s2 hid huser hservice
    rw [reconcileDelete_cleanup w inst helper o _ r2 s1 s2 hid huser hservice,
      reconcileDelete_finalizers_some, honly (withServiceID inst "") _ rfl]
    simp
  · intro api2 f
    simp [withoutFinalizer]

/-- Witness of C17: the token of the example instance, added to a KeystoneAPI
without it and taken off again by `reconcileDeleteFinalizersOnly`. -/
theorem finalizer_token_round_trip_witness :
    "openstack.org/keystoneservice-placement" ∉ freshKeystoneAPI.Finalizers ∧
    (∃ rest, (reconcileNormal exampleServiceNotFound
        (exampleWorld liveInstance (some freshKeystoneAPI) noFault) liveInstance exampleHelper
        (some (exampleOpenStack noFault)) (some freshKeystoneAPI) emptyRun).2.calls =
      emptyRun.calls ++ Call.Update
        { freshKeystoneAPI with
          Finalizers := freshKeystoneAPI.Finalizers ++
            ["openstack.org/keystoneservice-placement"] } :: rest) ∧
    (reconcileDeleteFinalizersOnly (exampleWorld liveInstance (some freshKeystoneAPI) noFault)
        liveInstance exampleHelper
        (some (withFinalizer freshKeystoneAPI "openstack.org/keystoneservice-placement"))
        emptyRun).2.calls =
      emptyRun.calls ++ [Call.Update freshKeystoneAPI] :=
  ⟨by decide,
    (finalizer_token_round_trip exampleServiceNotFound
      (exampleWorld liveInstance (some freshKeystoneAPI) noFault) liveInstance exampleHelper
      (some (exampleOpenStack noFault)) freshKeystoneAPI emptyRun (by decide)).1,
    (finalizer_token_round_trip exampleServiceNotFound
      (exampleWorld liveInstance (some freshKeystoneAPI) noFault) liveInstance exampleHelper
      (some (exampleOpenStack noFault)) freshKeystoneAPI emptyRun (by decide)).2.1 emptyRun⟩

/-! ## The paths of the body of `Reconcile` -/

/-- The body of `Reconcile` gets to the lookup of the KeystoneAPI when the
conditions are initialised and the finalizer of the instance needs no adding:
the instance is being deleted or carries it. -/
theorem Reconcile_body_passes_finalizer (inst : KeystoneService) (helper : Helper)
    (h : IsZero inst.DeletionTimestamp = false ∨ helper.GetFinalizer ∈ inst.Finalizers) :
    (IsZero inst.DeletionTimestamp &&
      (controllerutil.AddFinalizer inst.Finalizers helper.GetFinalizer).2) = false := by
  rcases h with h | h
  · simp [h]
  · simp [AddFinalizer_of_mem _ _ h]

/-- The body of `Reconcile` when the lookup reports not-found and the instance
is being deleted with no service registered: `reconcileDelete` with neither
client nor KeystoneAPI. -/
theorem Reconcile_body_not_found_deleting {σ : Type} (nf : String) (w : World σ)
    (inst : KeystoneService) (helper : Helper) (r : Run σ) (kapi : Option KeystoneAPI)
    (e : GoError) (s3 : σ)
    (hconds : inst.Status.Conditions.isNone = false)
    (hdel : IsZero inst.DeletionTimestamp = false)
    (hid : inst.Status.ServiceID = "")
    (hlookup : w.GetKeystoneAPI inst.Namespace r.world = (Res.ok (kapi, some e), s3))
    (hnf : k8s_errors.IsNotFound e = true) :
    Reconcile.body nf w inst helper r =
      reconcileDelete w inst helper none none
        { world := s3, calls := r.calls ++ [Call.GetKeystoneAPI inst.Namespace] } := by
  simp [Reconcile.body, hconds, hdel, hid, call, bind, M.bind, hlookup, hnf]

/-- The body of `Reconcile` when the lookup reports not-found and the instance
is not being deleted with no service registered: the sub-condition of the
KeystoneAPI is set False and the request comes back after five seconds. -/
theorem Reconcile_body_not_found {σ : Type} (nf : String) (w : World σ)
    (inst : KeystoneService) (helper : Helper) (r : Run σ) (kapi : Option KeystoneAPI)
    (e : GoError) (s3 : σ)
    (hconds : inst.Status.Conditions.isNone = false)
    (hpass : (IsZero inst.DeletionTimestamp &&
      (controllerutil.AddFinalizer inst.Finalizers helper.GetFinalizer).2) = false)
    (hshort : ¬ (IsZero inst.DeletionTimestamp = false ∧ inst.Status.ServiceID = ""))
    (hlookup : w.GetKeystoneAPI inst.Namespace r.world = (Res.ok (kapi, some e), s3))
    (hnf : k8s_errors.IsNotFound e = true) :
    Reconcile.body nf w inst helper r =
      (Res.ok (inst.setCondition (FalseCondition KeystoneAPIReadyCondition Reason.ErrorReason
          Severity.SeverityWarning MessageFormat.KeystoneAPIReadyNotFoundMessage []),
        { RequeueAfter := time.Second * 5 }, none),
        { world := s3, calls := r.calls ++ [Call.GetKeystoneAPI inst.Namespace] }) := by
  simp [Reconcile.body, hconds, hpass, hshort, call, bind, M.bind, pure, M.pure, hlookup, hnf]

/-- The body of `Reconcile` when the instance is being deleted with no
service registered and the lookup finds a KeystoneAPI that is not being
deleted: `reconcileDelete` without a client. -/
theorem Reconcile_body_found_deleting {σ : Type} (nf : String) (w : World σ)
    (inst : KeystoneService) (helper : Helper) (r : Run σ) (api : KeystoneAPI) (s3 : σ)
    (hconds : inst.Status.Conditions.isNone = false)
    (hdel : IsZero inst.DeletionTimestamp = false)
    (hid : inst.Status.ServiceID = "")
    (hlookup : w.GetKeystoneAPI inst.Namespace r.world = (Res.ok (some api, none), s3))
    (hapidel : IsZero api.DeletionTimestamp = true) :
    Reconcile.body nf w inst helper r =
      reconcileDelete w inst helper none (some api)
        { world := s3, calls := r.calls ++ [Call.GetKeystoneAPI inst.Namespace] } := by
  simp [Reconcile.body, hconds, hdel, hid, call, bind, M.bind, hlookup, hapidel]

/-- The body of `Reconcile` when no deletion shortcut applies and the
KeystoneAPI found is not ready: the sub-condition of the KeystoneAPI is set
False and the request comes back after five seconds. -/
theorem Reconcile_body_not_ready {σ : Type} (nf : String) (w : World σ)
    (inst : KeystoneService) (helper : Helper) (r : Run σ) (api : KeystoneAPI) (s3 : σ)
    (hconds : inst.Status.Conditions.isNone = false)
    (hpass : (IsZero inst.DeletionTimestamp &&
      (controllerutil.AddFinalizer inst.Finalizers helper.GetFinalizer).2) = false)
    (hshort1 : ¬ (IsZero inst.DeletionTimestamp = false ∧ IsZero api.DeletionTimestamp = false))
    (hshort2 : ¬ (IsZero inst.DeletionTimestamp = false ∧ inst.Status.ServiceID = ""))
    (hlookup : w.GetKeystoneAPI inst.Namespace r.world = (Res.ok (some api, none), s3))
    (hready : api.IsReady = false) :
    Reconcile.body nf w inst helper r =
      (Res.ok (inst.setCondition (FalseCondition KeystoneAPIReadyCondition
          Reason.RequestedReason Severity.SeverityInfo
          MessageFormat.KeystoneAPIReadyWaitingMessage []),
        { RequeueAfter := time.Second * 5 }, none),
        { world := s3, calls := r.calls ++ [Call.GetKeystoneAPI inst.Namespace] }) := by
  simp [Reconcile.body, hconds, hpass, hshort1, hshort2, call, bind, M.bind, pure, M.pure,
    hlookup, hready]

/-- The body of `Reconcile` when no deletion shortcut applies and the
KeystoneAPI found is ready: its sub-condition is marked True and the admin
client is asked for; what follows depends on the answer. -/
theorem Reconcile_body_ready {σ : Type} (nf : String) (w : World σ)
    (inst : KeystoneService) (helper : Helper) (r : Run σ) (api : KeystoneAPI) (s3 s4 : σ)
    (os : Option (OpenStack σ)) (res : Result) (aerr : Option GoError)
    (hconds : inst.Status.Conditions.isNone = false)
    (hpass : (IsZero inst.DeletionTimestamp &&
      (controllerutil.AddFinalizer inst.Finalizers helper.GetFinalizer).2) = false)
    (hshort1 : ¬ (IsZero inst.DeletionTimestamp = false ∧ IsZero api.DeletionTimestamp = false))
    (hshort2 : ¬ (IsZero inst.DeletionTimestamp = false ∧ inst.Status.ServiceID = ""))
    (hlookup : w.GetKeystoneAPI inst.Namespace r.world = (Res.ok (some api, none), s3))
    (hready : api.IsReady = true)
    (hadmin : w.GetAdminServiceClient api s3 = (Res.ok (os, res, aerr), s4)) :
    Reconcile.body nf w inst helper r =
      (match aerr with
        | some e =>
          M.pure ((inst.markTrue KeystoneAPIReadyCondition
              MessageFormat.KeystoneAPIReadyMessage []).setCondition
            (FalseCondition AdminServiceClientReadyCondition Reason.ErrorReason
              Severity.SeverityWarning MessageFormat.AdminServiceClientReadyErrorMessage
              [e.text]), {}, some e)
        | none =>
          if res != {} then
            M.pure ((inst.markTrue KeystoneAPIReadyCondition
                MessageFormat.KeystoneAPIReadyMessage []).setCondition
              (FalseCondition AdminServiceClientReadyCondition Reason.RequestedReason
                Severity.SeverityInfo MessageFormat.AdminServiceClientReadyWaitingMessage []),
              res, none)
          else if !IsZero inst.DeletionTimestamp then
            reconcileDelete w
              ((inst.markTrue KeystoneAPIReadyCondition
                MessageFormat.KeystoneAPIReadyMessage []).markTrue
                AdminServiceClientReadyCondition MessageFormat.AdminServiceClientReadyMessage [])
              helper os (some api)
          else
            reconcileNormal nf w
              ((inst.markTrue KeystoneAPIReadyCondition
                MessageFormat.KeystoneAPIReadyMessage []).markTrue
                AdminServiceClientReadyCondition MessageFormat.AdminServiceClientReadyMessage [])
              helper os (some api) : M σ (KeystoneService × Result × Option GoError))
        { world := s4,
          calls := r.calls ++ [Call.GetKeystoneAPI inst.Namespace,
            Call.GetAdminServiceClient api] } := by
  cases aerr with
  | some e =>
    simp [Reconcile.body, hconds, hpass, hshort1, hshort2, call, bind, M.bind, pure, M.pure,
      hlookup, hready, hadmin]
  | none =>
    have hdt : ((inst.markTrue KeystoneAPIReadyCondition
        MessageFormat.KeystoneAPIReadyMessage []).markTrue AdminServiceClientReadyCondition
        MessageFormat.AdminServiceClientReadyMessage []).DeletionTimestamp =
        inst.DeletionTimestamp := rfl
    by_cases hres : res = {}
    · subst hres
      cases hz : IsZero inst.DeletionTimestamp with
      | false =>
        have ha : IsZero api.DeletionTimestamp = true := by simpa [hz] using hshort1
        have hsid : ¬ inst.Status.ServiceID = "" := by simpa [hz] using hshort2
        simp [Reconcile.body, hconds, call, bind, M.bind, hlookup, hready, hadmin, hdt, hz, ha,
          hsid]
      | true =>
        have hfin : (controllerutil.AddFinalizer inst.Finalizers helper.GetFinalizer).2
            = false := by simpa [hz] using hpass
        simp [Reconcile.body, hconds, call, bind, M.bind, hlookup, hready, hadmin, hdt, hz,
          hfin]
    · simp [Reconcile.body, hconds, hpass, hshort1, hshort2, call, bind, M.bind, pure, M.pure,
        hlookup, hready, hadmin, hres]

/-- `Reconcile` when the body returns and the status patch answers: the result
is the one of the body, and an error of the patch replaces the error of the
body. -/
theorem Reconcile_of_body {σ : Type} (nf : String) (w : World σ) (req : Request) (r : Run σ)
    (inst : KeystoneService) (helper : Helper) (s1 s2 s5 : σ) (left : KeystoneService)
    (result : Result) (err perr : Option GoError) (r1 : Run σ)
    (hget : w.Get req.Name req.Namespace r.world = (Res.ok (inst, none), s1))
    (hhelper : w.NewHelper inst s1 = (Res.ok (helper, none), s2))
    (hbody : Reconcile.body nf w inst helper
        { world := s2,
          calls := r.calls ++ [Call.Get req.Name req.Namespace, Call.NewHelper inst] }
      = (Res.ok (left, result, err), r1))
    (hpatch : w.PatchInstance (patchedInstance left) r1.world = (Res.ok perr, s5)) :
    Reconcile nf w req r =
      (Res.ok (result, returnedError perr err),
        { world := s5, calls := r1.calls ++ [Call.PatchInstance (patchedInstance left)] }) := by
  rw [Reconcile_run nf w req r inst helper s1 s2 hget hhelper, hbody, Reconcile_deferred_ok]
  simp only [hpatch]
  cases perr <;> rfl

/-- C16, as amended: releasing the token from the KeystoneAPI in the delete
paths (the last part of `reconcileDelete` and `reconcileDeleteFinalizersOnly`)
is idempotent and tolerant of an absent token or KeystoneAPI. When no
KeystoneAPI was found, `reconcileDelete` issues no call, removes the finalizer
of the instance and returns no error. When the token is not present, no
`Update` is issued, the finalizer of the instance is removed and no error is
returned; this is the case after a release, which leaves the list without the
token. When the token is present and the `Update` returns an error, not-found
or any other, that error is returned and the finalizer of the instance is
kept. -/
theorem release_tolerates_absence {σ : Type} (w : World σ) (inst : KeystoneService)
    (helper : Helper) (r : Run σ) :
    reconcileDelete w inst helper none none r =
      (Res.ok (inst.removeFinalizer helper.GetFinalizer, {}, none), r) ∧
    reconcileDelete.finalizers w inst helper none r =
      (Res.ok (inst.removeFinalizer helper.GetFinalizer, {}, none), r) ∧
    (∀ api, helper.GetFinalizer ++ "-" ++ inst.Name ∉ api.Finalizers →
      reconcileDelete.finalizers w inst helper (some api) r =
        (Res.ok (inst.removeFinalizer helper.GetFinalizer, {}, none), r) ∧
      reconcileDeleteFinalizersOnly w inst helper (some api) r =
        (Res.ok (inst.removeFinalizer helper.GetFinalizer, {}, none), r)) ∧
    (∀ api, helper.GetFinalizer ++ "-" ++ inst.Name ∉
      (withoutFinalizer api (helper.GetFinalizer ++ "-" ++ inst.Name)).Finalizers) ∧
    (∀ api e s, helper.GetFinalizer ++ "-" ++ inst.Name ∈ api.Finalizers →
      w.Update (withoutFinalizer api (helper.GetFinalizer ++ "-" ++ inst.Name)) r.world
        = (Res.ok (some e), s) →
      reconcileDelete.finalizers w inst helper (some api) r =
        (Res.ok (inst, {}, some e),
          { world := s,
            calls := r.calls ++ [Call.Update
              (withoutFinalizer api (helper.GetFinalizer ++ "-" ++ inst.Name))] }) ∧
      reconcileDeleteFinalizersOnly w inst helper (some api) r =
        (Res.ok (inst, {}, some e),
          { world := s,
            calls := r.calls ++ [Call.Update
              (withoutFinalizer api (helper.GetFinalizer ++ "-" ++ inst.Name))] })) := by
  refine ⟨?_, rfl, ?_, ?_, ?_⟩
  · rw [reconcileDelete_skip w inst helper none none (Or.inr rfl)]
    rfl
  · intro api habsent
    rw [reconcileDelete_finalizers_some]
    exact ⟨reconcileDeleteFinalizersOnly_absent w inst helper api r habsent,
      reconcileDeleteFinalizersOnly_absent w inst helper api r habsent⟩
  · intro api
    simp
  · intro api e s hpresent hupdate
    rw [reconcileDelete_finalizers_some,
      reconcileDeleteFinalizersOnly_present w inst helper api r (some e) s hpresent hupdate]
    exact ⟨rfl, rfl⟩

/-- Witness of C16: the release of the example instance's token when the
update of the KeystoneAPI times out. -/
theorem release_tolerates_absence_witness :
    "openstack.org/keystoneservice-placement" ∈ deletedKeystoneAPI.Finalizers ∧
    reconcileDeleteFinalizersOnly
        (exampleWorld deletedInstance (some deletedKeystoneAPI) updateFault) deletedInstance
        exampleHelper (some deletedKeystoneAPI) emptyRun =
      (Res.ok (deletedInstance, {},
          some { text := "etcdserver: request timed out", notFound := false }),
        { world := emptyRun.world,
          calls := emptyRun.calls ++ [Call.Update
            (withoutFinalizer deletedKeystoneAPI
              "openstack.org/keystoneservice-placement")] }) :=
  ⟨by decide,
    ((release_tolerates_absence
      (exampleWorld deletedInstance (some deletedKeystoneAPI) updateFault) deletedInstance
      exampleHelper emptyRun).2.2.2.2 deletedKeystoneAPI _ emptyRun.world (by decide) rfl).2⟩

/-- Counterexample to C16 as stated: the update of the KeystoneAPI reports
not-found, and both delete paths return that error and keep the finalizer of
the instance. -/
theorem release_returns_not_found_error :
    k8s_errors.IsNotFound goneError = true ∧
    reconcileDeleteFinalizersOnly
        (exampleWorld deletedInstance (some deletedKeystoneAPI) updateGoneFault)
        deletedInstance exampleHelper (some deletedKeystoneAPI) emptyRun =
      (Res.ok (deletedInstance, {}, some goneError),
        { world := emptyRun.world,
          calls := [Call.Update
            (withoutFinalizer deletedKeystoneAPI
              "openstack.org/keystoneservice-placement")] }) ∧
    reconcileDelete (exampleWorld deletedFreshInstance (some readyKeystoneAPI) updateGoneFault)
        deletedFreshInstance exampleHelper none (some readyKeystoneAPI) emptyRun =
      (Res.ok (deletedFreshInstance, {}, some goneError),
        { world := emptyRun.world,
          calls := [Call.Update
            (withoutFinalizer readyKeystoneAPI
              "openstack.org/keystoneservice-placement")] }) ∧
    "openstack.org/keystoneservice" ∈ deletedInstance.Finalizers ∧
    "openstack.org/keystoneservice" ∈ deletedFreshInstance.Finalizers :=
  ⟨rfl, rfl, rfl, by decide, by decide⟩

/-! ## The password secret that is not there yet -/

/-- The function `reconcileUser` when the secret provider returns no error and a
result that is not empty: that result is returned with no error, and the call
to the secret provider is the only call. -/
theorem reconcileUser_secret_pending {σ : Type} (w : World σ) (inst : KeystoneService)
    (os : Option (OpenStack σ)) (r : Run σ) (password : String) (res : Result) (s : σ)
    (hsecret : w.GetDataFromSecret inst.Spec.Secret (10 * time.Second)
      inst.Spec.PasswordSelector r.world = (Res.ok (password, res, none), s))
    (hres : res ≠ {}) :
    reconcileUser w inst os r =
      (Res.ok (res, none),
        { world := s,
          calls := r.calls ++ [Call.GetDataFromSecret inst.Spec.Secret (10 * time.Second)
            inst.Spec.PasswordSelector] }) := by
  simp [reconcileUser, call, bind, M.bind, pure, M.pure, hsecret, hres]

/-- The service and user part of `reconcileNormal` when the service is in place
and the secret provider returns no error and a result that is not empty. -/
theorem reconcileNormal_sync_secret_pending {σ : Type} (nf : String) (w : World σ)
    (inst : KeystoneService) (os : Option (OpenStack σ)) (r : Run σ)
    (inst1 : KeystoneService) (r1 : Run σ) (password : String) (res : Result) (s : σ)
    (hservice : reconcileService nf inst os r = (Res.ok (inst1, none), r1))
    (hsecret : w.GetDataFromSecret inst1.Spec.Secret (10 * time.Second)
      inst1.Spec.PasswordSelector r1.world = (Res.ok (password, res, none), s))
    (hres : res ≠ {}) :
    reconcileNormal.sync nf w inst os r =
      (Res.ok ((inst1.markTrue KeystoneServiceOSServiceReadyCondition
            MessageFormat.KeystoneServiceOSServiceReadyMessage
            [inst1.Spec.ServiceName, inst1.Status.ServiceID]).setCondition
          (FalseCondition KeystoneServiceOSUserReadyCondition Reason.RequestedReason
            Severity.SeverityInfo MessageFormat.KeystoneServiceOSUserReadyWaitingMessage []),
          res, none),
        { world := s,
          calls := r1.calls ++ [Call.GetDataFromSecret inst1.Spec.Secret (10 * time.Second)
            inst1.Spec.PasswordSelector] }) := by
  have huser := reconcileUser_secret_pending w
    (inst1.markTrue KeystoneServiceOSServiceReadyCondition
      MessageFormat.KeystoneServiceOSServiceReadyMessage
      [inst1.Spec.ServiceName, inst1.Status.ServiceID]) os r1 password res s hsecret hres
  unfold reconcileNormal.sync
  change M.bind _ _ r = _
  unfold M.bind
  rw [hservice]
  change M.bind _ _ r1 = _
  unfold M.bind
  rw [huser]
  simp [pure, M.pure, hres]
  exact ⟨rfl, rfl⟩

/-- C20: when the secret provider returns no error and a result that is not
empty, `reconcileUser` returns that result with a nil error and issues no call
to the identity backend; and `reconcileNormal`, once the KeystoneAPI carries
the finalizer and the service is in place, sets `KeystoneServiceOSUserReady` to
False with the reason `Requested` and the severity `Info` and returns the same
result with no error. -/
theorem secret_pending_requeues {σ : Type} (nf : String) (w : World σ) (helper : Helper)
    (os : Option (OpenStack σ)) (res : Result) (hres : res ≠ {}) :
    (∀ (inst : KeystoneService) (r : Run σ) (password : String) (s : σ),
      w.GetDataFromSecret inst.Spec.Secret (10 * time.Second) inst.Spec.PasswordSelector
        r.world = (Res.ok (password, res, none), s) →
      reconcileUser w inst os r =
        (Res.ok (res, none),
          { world := s,
            calls := r.calls ++ [Call.GetDataFromSecret inst.Spec.Secret (10 * time.Second)
              inst.Spec.PasswordSelector] }) ∧
      ∀ c ∈ issued (reconcileUser w inst os) r, c.isIdentity = false) ∧
    (∀ (inst : KeystoneService) (api : KeystoneAPI) (r : Run σ) (inst1 : KeystoneService)
        (r1 : Run σ) (password : String) (s : σ),
      helper.GetFinalizer ++ "-" ++ inst.Name ∈ api.Finalizers →
      reconcileService nf inst os r = (Res.ok (inst1, none), r1) →
      w.GetDataFromSecret inst1.Spec.Secret (10 * time.Second) inst1.Spec.PasswordSelector
        r1.world = (Res.ok (password, res, none), s) →
      reconcileNormal nf w inst helper os (some api) r =
        (Res.ok ((inst1.markTrue KeystoneServiceOSServiceReadyCondition
              MessageFormat.KeystoneServiceOSServiceReadyMessage
              [inst1.Spec.ServiceName, inst1.Status.ServiceID]).setCondition
            (FalseCondition KeystoneServiceOSUserReadyCondition Reason.RequestedReason
              Severity.SeverityInfo MessageFormat.KeystoneServiceOSUserReadyWaitingMessage []),
            res, none),
          { world := s,
            calls := r1.calls ++ [Call.GetDataFromSecret inst1.Spec.Secret (10 * time.Second)
              inst1.Spec.PasswordSelector] })) ∧
    (∀ (inst : KeystoneService) (api : KeystoneAPI) (r : Run σ) (s0 : σ)
        (inst1 : KeystoneService) (r1 : Run σ) (password : String) (s : σ),
      helper.GetFinalizer ++ "-" ++ inst.Name ∉ api.Finalizers →
      w.Update (withFinalizer api (helper.GetFinalizer ++ "-" ++ inst.Name)) r.world
        = (Res.ok none, s0) →
      reconcileService nf inst os
          { world := s0,
            calls := r.calls ++
              [Call.Update (withFinalizer api (helper.GetFinalizer ++ "-" ++ inst.Name))] }
        = (Res.ok (inst1, none), r1) →
      w.GetDataFromSecret inst1.Spec.Secret (10 * time.Second) inst1.Spec.PasswordSelector
        r1.world = (Res.ok (password, res, none), s) →
      reconcileNormal nf w inst helper os (some api) r =
        (Res.ok ((inst1.markTrue KeystoneServiceOSServiceReadyCondition
              MessageFormat.KeystoneServiceOSServiceReadyMessage
              [inst1.Spec.ServiceName, inst1.Status.ServiceID]).setCondition
            (FalseCondition KeystoneServiceOSUserReadyCondition Reason.RequestedReason
              Severity.SeverityInfo MessageFormat.KeystoneServiceOSUserReadyWaitingMessage []),
            res, none),
          { world := s,
            calls := r1.calls ++ [Call.GetDataFromSecret inst1.Spec.Secret (10 * time.Second)
              inst1.Spec.PasswordSelector] })) := by
  refine ⟨?_, ?_, ?_⟩
  · intro inst r password s hsecret
    have h := reconcileUser_secret_pending w inst os r password res s hsecret hres
    refine ⟨h, ?_⟩
    have hcalls : (reconcileUser w inst os r).2.calls = r.calls ++
        [Call.GetDataFromSecret inst.Spec.Secret (10 * time.Second)
          inst.Spec.PasswordSelector] := by
      rw [h]
    rw [issued_eq_of_calls _ _ _ hcalls]
    intro c hc
    rw [List.mem_singleton] at hc
    subst hc
    rfl
  · intro inst api r inst1 r1 password s hmem hservice hsecret
    rw [reconcileNormal_present nf w inst helper os api hmem]
    exact reconcileNormal_sync_secret_pending nf w inst os r inst1 r1 password res s hservice
      hsecret hres
  · intro inst api r s0 inst1 r1 password s hmem hupdate hservice hsecret
    rw [reconcileNormal_absent nf w inst helper os api r hmem, hupdate]
    exact reconcileNormal_sync_secret_pending nf w inst os _ inst1 r1 password res s hservice
      hsecret hres

/-- Witness of C20: the example instance, whose service the backend already
holds, in the cluster whose password secret does not exist yet. -/
theorem secret_pending_requeues_witness :
    ({ RequeueAfter := 10 * time.Second } : Result) ≠ {} ∧
    reconcileNormal exampleServiceNotFound
        (pendingSecretWorld liveInstance (some readyKeystoneAPI) noFault) liveInstance
        exampleHelper (some (exampleOpenStack noFault)) (some readyKeystoneAPI) adoptedRun =
      (Res.ok (((withServiceID liveInstance "placement/placement").markTrue
            KeystoneServiceOSServiceReadyCondition
            MessageFormat.KeystoneServiceOSServiceReadyMessage
            ["placement", "placement/placement"]).setCondition
          (FalseCondition KeystoneServiceOSUserReadyCondition Reason.RequestedReason
            Severity.SeverityInfo MessageFormat.KeystoneServiceOSUserReadyWaitingMessage []),
          { RequeueAfter := 10 * time.Second }, none),
        { world := adoptedBackend,
          calls := [Call.GetService "placement" "placement"] ++
            [Call.GetDataFromSecret liveInstance.Spec.Secret (10 * time.Second)
              liveInstance.Spec.PasswordSelector] }) :=
  ⟨by decide,
    (secret_pending_requeues exampleServiceNotFound
      (pendingSecretWorld liveInstance (some readyKeystoneAPI) noFault) exampleHelper
      (some (exampleOpenStack noFault)) { RequeueAfter := 10 * time.Second } (by decide)).2.1
      liveInstance readyKeystoneAPI adoptedRun (withServiceID liveInstance "placement/placement")
      { world := adoptedBackend, calls := [Call.GetService "placement" "placement"] }
      "" adoptedBackend (by decide) rfl rfl⟩

/-! ## The gate of the KeystoneAPI -/

/-- The recomputation of `Ready` leaves the conditions of other types as they
are. -/
theorem mem_updateReady_of_ne (conds : Conditions) (x : Condition)
    (h : x.Type_ ≠ ReadyCondition) :
    x ∈ Reconcile.updateReady conds ↔ x ∈ conds := by
  cases hall : Conditions.AllSubConditionIsTrue conds with
  | true =>
    rw [updateReady_of_all conds hall]
    exact Conditions.mem_Set_of_ne _ _ _ h
  | false =>
    obtain ⟨top, -, -, heq⟩ := updateReady_of_not_all conds hall
    rw [heq, Conditions.mem_Set_of_ne _ _ _ h, Conditions.mem_Set_of_ne _ _ _ h]

/-- A condition set on the instance, of a type other than `Ready`, is among the
conditions of the instance that is patched. -/
theorem mem_patchedInstance_setCondition (inst : KeystoneService) (c : Condition)
    (h : c.Type_ ≠ ReadyCondition) :
    c ∈ (patchedInstance (inst.setCondition c)).Status.Conditions.getD [] := by
  show c ∈ Reconcile.updateReady (Conditions.Set (inst.Status.Conditions.getD []) c)
  rw [mem_updateReady_of_ne _ _ h]
  exact Conditions.mem_Set_self _ _

/-- The conditions keep being initialised. -/
theorem isNone_of_ne_none (inst : KeystoneService) (h : inst.Status.Conditions ≠ none) :
    inst.Status.Conditions.isNone = false := by
  cases hc : inst.Status.Conditions with
  | none => exact absurd hc h
  | some _ => rfl

/-- C18, as amended: when the lookup of the KeystoneAPI reports not-found and
the instance (conditions initialised, finalizer in place or deletion under way)
is not being deleted with an empty `ServiceID`, `Reconcile` sets the
sub-condition `KeystoneAPIReady` to False with the not-found message, and
returns a requeue after five seconds; the error returned is the one of the
deferred status patch, nil when the patch succeeds. The lookup and the patch
are the only calls after the instance is fetched and the helper built: no later
stage runs. -/
theorem Reconcile_keystoneAPI_not_found {σ : Type} (nf : String) (w : World σ)
    (req : Request) (r : Run σ) (inst : KeystoneService) (helper : Helper)
    (kapi : Option KeystoneAPI) (e : GoError) (perr : Option GoError) (s1 s2 s3 s4 : σ)
    (hget : w.Get req.Name req.Namespace r.world = (Res.ok (inst, none), s1))
    (hhelper : w.NewHelper inst s1 = (Res.ok (helper, none), s2))
    (hconds : inst.Status.Conditions ≠ none)
    (hreach : IsZero inst.DeletionTimestamp = false ∨ helper.GetFinalizer ∈ inst.Finalizers)
    (hshort : ¬ (IsZero inst.DeletionTimestamp = false ∧ inst.Status.ServiceID = ""))
    (hlookup : w.GetKeystoneAPI inst.Namespace s2 = (Res.ok (kapi, some e), s3))
    (hnf : k8s_errors.IsNotFound e = true)
    (hpatch : w.PatchInstance
      (patchedInstance (inst.setCondition (FalseCondition KeystoneAPIReadyCondition
        Reason.ErrorReason Severity.SeverityWarning
        MessageFormat.KeystoneAPIReadyNotFoundMessage []))) s3 = (Res.ok perr, s4)) :
    Reconcile nf w req r =
      (Res.ok ({ RequeueAfter := 5000000000 }, perr),
        { world := s4,
          calls := r.calls ++ [
            Call.Get req.Name req.Namespace,
            Call.NewHelper inst,
            Call.GetKeystoneAPI inst.Namespace,
            Call.PatchInstance
              (patchedInstance (inst.setCondition (FalseCondition KeystoneAPIReadyCondition
                Reason.ErrorReason Severity.SeverityWarning
                MessageFormat.KeystoneAPIReadyNotFoundMessage [])))] }) ∧
    FalseCondition KeystoneAPIReadyCondition Reason.ErrorReason Severity.SeverityWarning
        MessageFormat.KeystoneAPIReadyNotFoundMessage [] ∈
      (patchedInstance (inst.setCondition (FalseCondition KeystoneAPIReadyCondition
        Reason.ErrorReason Severity.SeverityWarning
        MessageFormat.KeystoneAPIReadyNotFoundMessage []))).Status.Conditions.getD [] := by
  refine ⟨?_, mem_patchedInstance_setCondition _ _ (by decide)⟩
  have hbody := Reconcile_body_not_found nf w inst helper
    { world := s2,
      calls := r.calls ++ [Call.Get req.Name req.Namespace, Call.NewHelper inst] }
    kapi e s3 (isNone_of_ne_none inst hconds) (Reconcile_body_passes_finalizer inst helper hreach)
    hshort hlookup hnf
  rw [Reconcile_of_body nf w req r inst helper s1 s2 s4 _ _ _ perr _ hget hhelper hbody hpatch]
  cases perr <;> simp [returnedError, time.Second]

/-- Witness of C18: the example instance, its finalizer in place, in a cluster
without a KeystoneAPI. -/
theorem Reconcile_keystoneAPI_not_found_witness :
    liveInstance.Status.Conditions ≠ none ∧
    "openstack.org/keystoneservice" ∈ liveInstance.Finalizers ∧
    ¬ (IsZero liveInstance.DeletionTimestamp = false ∧ liveInstance.Status.ServiceID = "") ∧
    Reconcile exampleServiceNotFound (exampleWorld liveInstance none noFault) exampleRequest
        emptyRun =
      (Res.ok ({ RequeueAfter := 5000000000 }, none),
        { world := emptyRun.world,
          calls := emptyRun.calls ++ [
            Call.Get "placement" "openstack",
            Call.NewHelper liveInstance,
            Call.GetKeystoneAPI "openstack",
            Call.PatchInstance
              (patchedInstance (liveInstance.setCondition
                (FalseCondition KeystoneAPIReadyCondition Reason.ErrorReason
                  Severity.SeverityWarning
                  MessageFormat.KeystoneAPIReadyNotFoundMessage [])))] }) :=
  ⟨by decide, by decide, by decide,
    (Reconcile_keystoneAPI_not_found exampleServiceNotFound
      (exampleWorld liveInstance none noFault) exampleRequest emptyRun liveInstance exampleHelper
      none { text := "keystoneapi not found", notFound := true } none emptyRun.world
      emptyRun.world emptyRun.world emptyRun.world rfl rfl (by decide) (Or.inr (by decide))
      (by decide) rfl rfl rfl).1⟩

/-- Counterexample to C18 as stated: the lookup reports not-found for the
example instance, the status patch fails, and `Reconcile` returns the requeue
together with an error. -/
theorem Reconcile_keystoneAPI_not_found_may_return_error :
    patchFault (Call.GetKeystoneAPI "openstack") = none ∧
    (Reconcile exampleServiceNotFound (exampleWorld liveInstance none patchFault) exampleRequest
        emptyRun).1 = Res.ok ({ RequeueAfter := 5000000000 }, some patchError) ∧
    (Reconcile exampleServiceNotFound (exampleWorld liveInstance none patchFault) exampleRequest
        emptyRun).2.calls = [
      Call.Get "placement" "openstack",
      Call.NewHelper liveInstance,
      Call.GetKeystoneAPI "openstack",
      Call.PatchInstance
        (patchedInstance (liveInstance.setCondition
          (FalseCondition KeystoneAPIReadyCondition Reason.ErrorReason
            Severity.SeverityWarning MessageFormat.KeystoneAPIReadyNotFoundMessage [])))] :=
  ⟨rfl, rfl, rfl⟩

/-! ## What follows the gate -/

theorem mem_setCondition_of_ne (inst : KeystoneService) (c x : Condition)
    (hx : x.Type_ ≠ c.Type_) (h : x ∈ inst.Status.Conditions.getD []) :
    x ∈ (inst.setCondition c).Status.Conditions.getD [] :=
  (Conditions.mem_Set_of_ne _ c x hx).2 h

theorem mem_markTrue_of_ne (inst : KeystoneService) (t : CondType)
    (messageFormat : MessageFormat) (messageArgs : List String) (x : Condition)
    (hx : x.Type_ ≠ t) (h : x ∈ inst.Status.Conditions.getD []) :
    x ∈ (inst.markTrue t messageFormat messageArgs).Status.Conditions.getD [] :=
  (Conditions.mem_Set_of_ne _ (TrueCondition t messageFormat messageArgs) x hx).2 h

theorem mem_markTrue_self (inst : KeystoneService) (t : CondType)
    (messageFormat : MessageFormat) (messageArgs : List String) :
    TrueCondition t messageFormat messageArgs ∈
      (inst.markTrue t messageFormat messageArgs).Status.Conditions.getD [] :=
  Conditions.mem_Set_self _ _

/-- The service and user part of `reconcileNormal` leaves the conditions of the
earlier stages as they are. -/
theorem reconcileNormal_sync_keeps_condition {σ : Type} (nf : String) (w : World σ)
    (inst : KeystoneService) (os : Option (OpenStack σ)) (x : Condition)
    (h1 : x.Type_ ≠ KeystoneServiceOSServiceReadyCondition)
    (h2 : x.Type_ ≠ KeystoneServiceOSUserReadyCondition)
    (h : x ∈ inst.Status.Conditions.getD []) :
    (reconcileNormal.sync nf w inst os).returns
      (fun out => x ∈ out.1.Status.Conditions.getD []) := by
  unfold reconcileNormal.sync
  refine M.returns_bind (reconcileService_keeps_conditions nf inst os) ?_
  rintro ⟨inst1, err⟩ hq
  have hx1 : x ∈ inst1.Status.Conditions.getD [] := by
    have hq' : inst1.Status.Conditions = inst.Status.Conditions := hq
    rw [hq']
    exact h
  cases err with
  | some e => exact M.returns_pure _ (mem_setCondition_of_ne _ _ x h1 hx1)
  | none =>
    refine M.returns_bind (M.returns_any _) ?_
    rintro ⟨ctrlResult, err⟩ -
    have hx2 := mem_markTrue_of_ne inst1 KeystoneServiceOSServiceReadyCondition
      MessageFormat.KeystoneServiceOSServiceReadyMessage
      [inst1.Spec.ServiceName, inst1.Status.ServiceID] x h1 hx1
    cases err with
    | some e => exact M.returns_pure _ (mem_setCondition_of_ne _ _ x h2 hx2)
    | none =>
      dsimp only
      split
      · exact M.returns_pure _ (mem_setCondition_of_ne _ _ x h2 hx2)
      · exact M.returns_pure _ (mem_markTrue_of_ne _ _ _ _ x h2 hx2)

theorem reconcileNormal_keeps_condition {σ : Type} (nf : String) (w : World σ)
    (inst : KeystoneService) (helper : Helper) (os : Option (OpenStack σ))
    (keystoneAPI : Option KeystoneAPI) (x : Condition)
    (h1 : x.Type_ ≠ KeystoneServiceOSServiceReadyCondition)
    (h2 : x.Type_ ≠ KeystoneServiceOSUserReadyCondition)
    (h : x ∈ inst.Status.Conditions.getD []) :
    (reconcileNormal nf w inst helper os keystoneAPI).returns
      (fun out => x ∈ out.1.Status.Conditions.getD []) := by
  unfold reconcileNormal
  cases keystoneAPI with
  | none => exact M.returns_panic _
  | some api =>
    dsimp only
    split
    · refine M.returns_bind (M.returns_any _) ?_
      rintro err -
      cases err with
      | some e => exact M.returns_pure _ h
      | none => exact reconcileNormal_sync_keeps_condition nf w inst os x h1 h2 h
    · exact reconcileNormal_sync_keeps_condition nf w inst os x h1 h2 h

theorem reconcileDelete_keeps_condition {σ : Type} (w : World σ)
    (inst : KeystoneService) (helper : Helper) (os : Option (OpenStack σ))
    (keystoneAPI : Option KeystoneAPI) (x : Condition)
    (h : x ∈ inst.Status.Conditions.getD []) :
    (reconcileDelete w inst helper os keystoneAPI).returns
      (fun out => x ∈ out.1.Status.Conditions.getD []) := by
  refine M.returns_mono (reconcileDelete_keeps_conditions w inst helper os keystoneAPI) ?_
  intro out hq
  have hq' : out.1.Status.Conditions = inst.Status.Conditions := hq
  rw [hq']
  exact h

/-- The last part of `reconcileDelete` issues nothing but the update of the
KeystoneAPI, for any property the update has. -/
theorem reconcileDelete_finalizers_issuesOnly_of {σ : Type} {P : Call → Prop} (w : World σ)
    (inst : KeystoneService) (helper : Helper) (keystoneAPI : Option KeystoneAPI)
    (hU : ∀ a, P (Call.Update a)) :
    (reconcileDelete.finalizers w inst helper keystoneAPI).issuesOnly P := by
  unfold reconcileDelete.finalizers
  cases keystoneAPI with
  | none => exact M.issuesOnly_pure _
  | some api =>
    dsimp only
    split
    · refine M.issuesOnly_bind (M.issuesOnly_call _ _ (hU _)) ?_
      intro err
      cases err <;> exact M.issuesOnly_pure _
    · exact M.issuesOnly_pure _

/-- The function `reconcileDelete` issues calls to the identity backend and the
update of the KeystoneAPI only. -/
theorem reconcileDelete_issuesOnly_of {σ : Type} {P : Call → Prop} (w : World σ)
    (inst : KeystoneService) (helper : Helper) (os : Option (OpenStack σ))
    (keystoneAPI : Option KeystoneAPI)
    (hP : ∀ c, c.isIdentity = true → P c) (hU : ∀ a, P (Call.Update a)) :
    (reconcileDelete w inst helper os keystoneAPI).issuesOnly P := by
  unfold reconcileDelete
  split
  · refine M.issuesOnly_bind (M.issuesOnly_onClient _ _ _ (hP _ rfl)) ?_
    intro err
    cases err with
    | some e => exact M.issuesOnly_pure _
    | none =>
      refine M.issuesOnly_bind (M.issuesOnly_onClient _ _ _ (hP _ rfl)) ?_
      intro err
      cases err with
      | some e => exact M.issuesOnly_pure _
      | none => exact reconcileDelete_finalizers_issuesOnly_of w _ helper keystoneAPI hU
  · exact reconcileDelete_finalizers_issuesOnly_of w inst helper keystoneAPI hU

/-- The function `reconcileNormal` issues calls to the identity backend, the
update of the KeystoneAPI and the read of the secret only. -/
theorem reconcileNormal_issuesOnly_of {σ : Type} {P : Call → Prop} (nf : String) (w : World σ)
    (inst : KeystoneService) (helper : Helper) (os : Option (OpenStack σ))
    (keystoneAPI : Option KeystoneAPI)
    (hP : ∀ c, c.isIdentity = true → P c) (hU : ∀ a, P (Call.Update a))
    (hsecret : ∀ secretName after key, P (Call.GetDataFromSecret secretName after key)) :
    (reconcileNormal nf w inst helper os keystoneAPI).issuesOnly P := by
  unfold reconcileNormal
  cases keystoneAPI with
  | none => exact M.issuesOnly_panic _
  | some api =>
    dsimp only
    split
    · refine M.issuesOnly_bind (M.issuesOnly_call _ _ (hU _)) ?_
      intro err
      cases err with
      | some e => exact M.issuesOnly_pure _
      | none => exact reconcileNormal_sync_issuesOnly nf w inst os hP hsecret
    · exact reconcileNormal_sync_issuesOnly nf w inst os hP hsecret

/-- What the body of `Reconcile` leaves when the KeystoneAPI found is ready and
the admin client is asked for: the sub-condition of the KeystoneAPI is True in
the instance the body returns. -/
theorem Reconcile_body_ready_marks {σ : Type} (nf : String) (w : World σ)
    (inst : KeystoneService) (helper : Helper) (r : Run σ) (api : KeystoneAPI) (s3 s4 : σ)
    (os : Option (OpenStack σ)) (res : Result) (aerr : Option GoError)
    (hconds : inst.Status.Conditions.isNone = false)
    (hpass : (IsZero inst.DeletionTimestamp &&
      (controllerutil.AddFinalizer inst.Finalizers helper.GetFinalizer).2) = false)
    (hshort1 : ¬ (IsZero inst.DeletionTimestamp = false ∧ IsZero api.DeletionTimestamp = false))
    (hshort2 : ¬ (IsZero inst.DeletionTimestamp = false ∧ inst.Status.ServiceID = ""))
    (hlookup : w.GetKeystoneAPI inst.Namespace r.world = (Res.ok (some api, none), s3))
    (hready : api.IsReady = true)
    (hadmin : w.GetAdminServiceClient api s3 = (Res.ok (os, res, aerr), s4))
    (left : KeystoneService) (result : Result) (err : Option GoError) (r1 : Run σ)
    (hbody : Reconcile.body nf w inst helper r = (Res.ok (left, result, err), r1)) :
    TrueCondition KeystoneAPIReadyCondition MessageFormat.KeystoneAPIReadyMessage [] ∈
      left.Status.Conditions.getD [] := by
  have h0 := mem_markTrue_self inst KeystoneAPIReadyCondition
    MessageFormat.KeystoneAPIReadyMessage []
  have hret : ∀ (a : KeystoneService × Result × Option GoError) (r4 : Run σ),
      (M.pure a : M σ _) r4 = (Res.ok (left, result, err), r1) → a.1 = left := by
    intro a r4 h
    simp only [M.pure, Prod.mk.injEq, Res.ok.injEq] at h
    rw [h.1]
  rw [Reconcile_body_ready nf w inst helper r api s3 s4 os res aerr hconds hpass hshort1 hshort2
    hlookup hready hadmin] at hbody
  cases aerr with
  | some e =>
    rw [← hret _ _ hbody]
    have hne : KeystoneAPIReadyCondition ≠ AdminServiceClientReadyCondition := by decide
    exact mem_setCondition_of_ne _ _ _ hne h0
  | none =>
    dsimp only at hbody
    split at hbody
    · rw [← hret _ _ hbody]
      refine mem_setCondition_of_ne _ _ _ ?_ h0
      decide
    · have h1 := mem_markTrue_of_ne _ AdminServiceClientReadyCondition
        MessageFormat.AdminServiceClientReadyMessage [] _ (by decide) h0
      split at hbody
      · exact reconcileDelete_keeps_condition w _ helper os (some api) _ h1 _ _ _ hbody
      · exact reconcileNormal_keeps_condition nf w _ helper os (some api) _ (by decide)
          (by decide) h1 _ _ _ hbody

/-- The calls of the body of `Reconcile` when the KeystoneAPI found is ready:
the lookup, the request for the admin client, and what the later stages
issue. -/
theorem Reconcile_body_ready_calls {σ : Type} (nf : String) (w : World σ)
    (inst : KeystoneService) (helper : Helper) (r : Run σ) (api : KeystoneAPI) (s3 s4 : σ)
    (os : Option (OpenStack σ)) (res : Result) (aerr : Option GoError)
    (hconds : inst.Status.Conditions.isNone = false)
    (hpass : (IsZero inst.DeletionTimestamp &&
      (controllerutil.AddFinalizer inst.Finalizers helper.GetFinalizer).2) = false)
    (hshort1 : ¬ (IsZero inst.DeletionTimestamp = false ∧ IsZero api.DeletionTimestamp = false))
    (hshort2 : ¬ (IsZero inst.DeletionTimestamp = false ∧ inst.Status.ServiceID = ""))
    (hlookup : w.GetKeystoneAPI inst.Namespace r.world = (Res.ok (some api, none), s3))
    (hready : api.IsReady = true)
    (hadmin : w.GetAdminServiceClient api s3 = (Res.ok (os, res, aerr), s4)) :
    ∃ rest, (Reconcile.body nf w inst helper r).2.calls =
      r.calls ++ [Call.GetKeystoneAPI inst.Namespace, Call.GetAdminServiceClient api] ++ rest := by
  rw [Reconcile_body_ready nf w inst helper r api s3 s4 os res aerr hconds hpass hshort1 hshort2
    hlookup hready hadmin]
  have hpure : ∀ a : KeystoneService × Result × Option GoError,
      (M.pure a : M σ _).issuesOnly (fun _ => True) := fun a => M.issuesOnly_pure a
  have key : ∀ m : M σ (KeystoneService × Result × Option GoError),
      m.issuesOnly (fun _ => True) →
      ∃ rest, (m ⟨s4, r.calls ++ [Call.GetKeystoneAPI inst.Namespace,
          Call.GetAdminServiceClient api]⟩).2.calls =
        r.calls ++ [Call.GetKeystoneAPI inst.Namespace, Call.GetAdminServiceClient api] ++
          rest := by
    intro m hm
    obtain ⟨l, hl, -⟩ := hm
      ⟨s4, r.calls ++ [Call.GetKeystoneAPI inst.Namespace, Call.GetAdminServiceClient api]⟩
    exact ⟨l, hl⟩
  apply key
  cases aerr with
  | some e => exact hpure _
  | none =>
    dsimp only
    split
    · exact hpure _
    · split
      · exact reconcileDelete_issuesOnly_of w _ helper os (some api) (fun _ _ => trivial)
          (fun _ => trivial)
      · exact reconcileNormal_issuesOnly_of nf w _ helper os (some api) (fun _ _ => trivial)
          (fun _ => trivial) (fun _ _ _ => trivial)

/-- C19, as amended: the KeystoneAPI exists and no deletion shortcut applies
(the instance, conditions initialised and finalizer in place, is not being
deleted; or it is being deleted with a registered service while the
KeystoneAPI is not). When the KeystoneAPI is not ready, `Reconcile` sets
`KeystoneAPIReady` to False with the reason `Requested` and the severity
`Info`, requeues after the five seconds of the not-found case, and issues the
lookup and the status patch only; the error returned is the one of the
deferred status patch, nil when the patch succeeds. When it is ready, the admin
client is asked for in the same invocation, and whatever the body returns,
`KeystoneAPIReady` is True in the instance that is patched. -/
theorem Reconcile_keystoneAPI_gate {σ : Type} (nf : String) (w : World σ)
    (req : Request) (r : Run σ) (inst : KeystoneService) (helper : Helper) (api : KeystoneAPI)
    (s1 s2 s3 : σ)
    (hget : w.Get req.Name req.Namespace r.world = (Res.ok (inst, none), s1))
    (hhelper : w.NewHelper inst s1 = (Res.ok (helper, none), s2))
    (hconds : inst.Status.Conditions ≠ none)
    (hreach : IsZero inst.DeletionTimestamp = false ∨ helper.GetFinalizer ∈ inst.Finalizers)
    (hlookup : w.GetKeystoneAPI inst.Namespace s2 = (Res.ok (some api, none), s3))
    (hshort1 : ¬ (IsZero inst.DeletionTimestamp = false ∧ IsZero api.DeletionTimestamp = false))
    (hshort2 : ¬ (IsZero inst.DeletionTimestamp = false ∧ inst.Status.ServiceID = "")) :
    (api.IsReady = false → ∀ perr s4,
      w.PatchInstance
        (patchedInstance (inst.setCondition (FalseCondition KeystoneAPIReadyCondition
          Reason.RequestedReason Severity.SeverityInfo
          MessageFormat.KeystoneAPIReadyWaitingMessage []))) s3 = (Res.ok perr, s4) →
      Reconcile nf w req r =
        (Res.ok ({ RequeueAfter := 5000000000 }, perr),
          { world := s4,
            calls := r.calls ++ [
              Call.Get req.Name req.Namespace,
              Call.NewHelper inst,
              Call.GetKeystoneAPI inst.Namespace,
              Call.PatchInstance
                (patchedInstance (inst.setCondition (FalseCondition KeystoneAPIReadyCondition
                  Reason.RequestedReason Severity.SeverityInfo
                  MessageFormat.KeystoneAPIReadyWaitingMessage [])))] })) ∧
    FalseCondition KeystoneAPIReadyCondition Reason.RequestedReason Severity.SeverityInfo
        MessageFormat.KeystoneAPIReadyWaitingMessage [] ∈
      (patchedInstance (inst.setCondition (FalseCondition KeystoneAPIReadyCondition
        Reason.RequestedReason Severity.SeverityInfo
        MessageFormat.KeystoneAPIReadyWaitingMessage []))).Status.Conditions.getD [] ∧
    (api.IsReady = true → ∀ os res aerr s4,
      w.GetAdminServiceClient api s3 = (Res.ok (os, res, aerr), s4) →
      (∃ rest, (Reconcile nf w req r).2.calls =
        r.calls ++ [
          Call.Get req.Name req.Namespace,
          Call.NewHelper inst,
          Call.GetKeystoneAPI inst.Namespace,
          Call.GetAdminServiceClient api] ++ rest) ∧
      ∀ left result err r1,
        Reconcile.body nf w inst helper
            { world := s2,
              calls := r.calls ++ [Call.Get req.Name req.Namespace, Call.NewHelper inst] }
          = (Res.ok (left, result, err), r1) →
        TrueCondition KeystoneAPIReadyCondition MessageFormat.KeystoneAPIReadyMessage [] ∈
          (patchedInstance left).Status.Conditions.getD [] ∧
        ∀ perr s5, w.PatchInstance (patchedInstance left) r1.world = (Res.ok perr, s5) →
          Reconcile nf w req r =
            (Res.ok (result, returnedError perr err),
              { world := s5,
                calls := r1.calls ++ [Call.PatchInstance (patchedInstance left)] })) := by
  have hnone := isNone_of_ne_none inst hconds
  have hpass := Reconcile_body_passes_finalizer inst helper hreach
  refine ⟨?_, mem_patchedInstance_setCondition _ _ (by decide), ?_⟩
  · intro hready perr s4 hpatch
    have hbody := Reconcile_body_not_ready nf w inst helper
      { world := s2,
        calls := r.calls ++ [Call.Get req.Name req.Namespace, Call.NewHelper inst] }
      api s3 hnone hpass hshort1 hshort2 hlookup hready
    rw [Reconcile_of_body nf w req r inst helper s1 s2 s4 _ _ _ perr _ hget hhelper hbody hpatch]
    cases perr <;> simp [returnedError, time.Second]
  · intro hready os res aerr s4 hadmin
    refine ⟨?_, ?_⟩
    · obtain ⟨rest, hrest⟩ := Reconcile_body_ready_calls nf w inst helper
        { world := s2,
          calls := r.calls ++ [Call.Get req.Name req.Namespace, Call.NewHelper inst] }
        api s3 s4 os res aerr hnone hpass hshort1 hshort2 hlookup hready hadmin
      obtain ⟨l2, hl2, -⟩ := Reconcile_deferred_issuesOnly w
        (Reconcile.body nf w inst helper
          { world := s2,
            calls := r.calls ++ [Call.Get req.Name req.Namespace, Call.NewHelper inst] }).1
        (Reconcile.body nf w inst helper
          { world := s2,
            calls := r.calls ++ [Call.Get req.Name req.Namespace, Call.NewHelper inst] }).2
      refine ⟨rest ++ l2, ?_⟩
      rw [Reconcile_run nf w req r inst helper s1 s2 hget hhelper, hl2, hrest]
      simp
    · intro left result err r1 hbody
      refine ⟨?_, ?_⟩
      · have hleft := Reconcile_body_ready_marks nf w inst helper _ api s3 s4 os res aerr hnone
          hpass hshort1 hshort2 hlookup hready hadmin left result err r1 hbody
        show _ ∈ Reconcile.updateReady (left.Status.Conditions.getD [])
        rw [mem_updateReady_of_ne _ _ (by decide)]
        exact hleft
      · intro perr s5 hpatch
        exact Reconcile_of_body nf w req r inst helper s1 s2 s5 left result err perr r1 hget
          hhelper hbody hpatch

/-- Witness of C19: the example instance, its finalizer in place, and a
KeystoneAPI that is not ready. -/
theorem Reconcile_keystoneAPI_gate_witness :
    liveInstance.Status.Conditions ≠ none ∧
    "openstack.org/keystoneservice" ∈ liveInstance.Finalizers ∧
    IsZero liveInstance.DeletionTimestamp = true ∧
    waitingKeystoneAPI.IsReady = false ∧
    Reconcile exampleServiceNotFound (exampleWorld liveInstance (some waitingKeystoneAPI) noFault)
        exampleRequest emptyRun =
      (Res.ok ({ RequeueAfter := 5000000000 }, none),
        { world := emptyRun.world,
          calls := emptyRun.calls ++ [
            Call.Get "placement" "openstack",
            Call.NewHelper liveInstance,
            Call.GetKeystoneAPI "openstack",
            Call.PatchInstance
              (patchedInstance (liveInstance.setCondition
                (FalseCondition KeystoneAPIReadyCondition Reason.RequestedReason
                  Severity.SeverityInfo
                  MessageFormat.KeystoneAPIReadyWaitingMessage [])))] }) :=
  ⟨by decide, by decide, rfl, by decide,
    (Reconcile_keystoneAPI_gate exampleServiceNotFound
      (exampleWorld liveInstance (some waitingKeystoneAPI) noFault) exampleRequest emptyRun
      liveInstance exampleHelper waitingKeystoneAPI emptyRun.world emptyRun.world emptyRun.world
      rfl rfl (by decide) (Or.inr (by decide)) rfl (by decide) (by decide)).1 (by decide) none
      emptyRun.world rfl⟩

/-- Counterexample to C19 as stated: the KeystoneAPI of the example instance is
not ready, the status patch fails, and `Reconcile` returns the requeue
together with an error. -/
theorem Reconcile_keystoneAPI_not_ready_may_return_error :
    waitingKeystoneAPI.IsReady = false ∧
    (Reconcile exampleServiceNotFound
        (exampleWorld liveInstance (some waitingKeystoneAPI) patchFault) exampleRequest
        emptyRun).1 = Res.ok ({ RequeueAfter := 5000000000 }, some patchError) ∧
    (Reconcile exampleServiceNotFound
        (exampleWorld liveInstance (some waitingKeystoneAPI) patchFault) exampleRequest
        emptyRun).2.calls = [
      Call.Get "placement" "openstack",
      Call.NewHelper liveInstance,
      Call.GetKeystoneAPI "openstack",
      Call.PatchInstance
        (patchedInstance (liveInstance.setCondition
          (FalseCondition KeystoneAPIReadyCondition Reason.RequestedReason
            Severity.SeverityInfo MessageFormat.KeystoneAPIReadyWaitingMessage [])))] :=
  ⟨by decide, rfl, rfl⟩

/-! ## The deletion of an instance through `Reconcile` -/

/-- `Reconcile` issues no call to the identity backend when its body issues
none. -/
theorem Reconcile_identity_free_of_body {σ : Type} (nf : String) (w : World σ) (req : Request)
    (r : Run σ) (inst : KeystoneService) (helper : Helper) (s1 s2 : σ)
    (hget : w.Get req.Name req.Namespace r.world = (Res.ok (inst, none), s1))
    (hhelper : w.NewHelper inst s1 = (Res.ok (helper, none), s2))
    (l : List Call)
    (hl : (Reconcile.body nf w inst helper
        { world := s2,
          calls := r.calls ++ [Call.Get req.Name req.Namespace, Call.NewHelper inst] }).2.calls =
      r.calls ++ [Call.Get req.Name req.Namespace, Call.NewHelper inst] ++ l)
    (hp : ∀ c ∈ l, c.isIdentity = false) :
    ∀ c ∈ issued (Reconcile nf w req) r, c.isIdentity = false := by
  apply issuesOnlyIdentityFree
  obtain ⟨l2, hl2, hp2⟩ := Reconcile_deferred_issuesOnly w
    (Reconcile.body nf w inst helper
      { world := s2,
        calls := r.calls ++ [Call.Get req.Name req.Namespace, Call.NewHelper inst] }).1
    (Reconcile.body nf w inst helper
      { world := s2,
        calls := r.calls ++ [Call.Get req.Name req.Namespace, Call.NewHelper inst] }).2
  refine ⟨[Call.Get req.Name req.Namespace, Call.NewHelper inst] ++ l ++ l2, ?_, ?_⟩
  · rw [Reconcile_run nf w req r inst helper s1 s2 hget hhelper, hl2, hl]
    simp
  · intro c hc
    simp only [List.mem_append, List.mem_cons, List.mem_singleton, List.not_mem_nil,
      or_false] at hc
    rcases hc with ((rfl | rfl) | h) | h
    · rfl
    · rfl
    · exact hp c h
    · exact hp2 c h

/-- The body of `Reconcile` when the instance is being deleted with no service
registered and the lookup finds a KeystoneAPI: the token is released as
`reconcileDeleteFinalizersOnly` does, whether the body takes that function or
`reconcileDelete` without a client. -/
theorem Reconcile_body_unregistered_found {σ : Type} (nf : String) (w : World σ)
    (inst : KeystoneService) (helper : Helper) (r : Run σ) (api : KeystoneAPI) (s3 : σ)
    (hconds : inst.Status.Conditions.isNone = false)
    (hdel : IsZero inst.DeletionTimestamp = false)
    (hid : inst.Status.ServiceID = "")
    (hlookup : w.GetKeystoneAPI inst.Namespace r.world = (Res.ok (some api, none), s3)) :
    Reconcile.body nf w inst helper r =
      reconcileDeleteFinalizersOnly w inst helper (some api)
        { world := s3, calls := r.calls ++ [Call.GetKeystoneAPI inst.Namespace] } := by
  cases hz : IsZero api.DeletionTimestamp with
  | false => exact Reconcile_body_both_deleted nf w inst helper r api s3 hconds hdel hlookup hz
  | true =>
    rw [Reconcile_body_found_deleting nf w inst helper r api s3 hconds hdel hid hlookup hz,
      reconcileDelete_skip w inst helper none (some api) (Or.inl hid),
      reconcileDelete_finalizers_some]

/-- C11, as amended: a KeystoneService that is being deleted with an empty
`Status.ServiceID` (conditions initialised) never waits for the KeystoneAPI
and never reaches the identity backend. When the lookup reports not-found,
`Reconcile` goes to `reconcileDelete` with neither client nor KeystoneAPI and
removes the finalizer of the instance. When the lookup finds a KeystoneAPI,
ready or not, `Reconcile` goes to `reconcileDelete` without a client (to
`reconcileDeleteFinalizersOnly` when the KeystoneAPI is being deleted as
well), which takes the token off the KeystoneAPI; the finalizer of the
instance is removed when no `Update` is needed or the `Update` succeeds, and
it stays when the `Update` fails. In every case the result is empty (no
requeue). With no failing `Update` the error returned is the one of the
deferred status patch, nil when the patch succeeds; with a failing `Update`
the error returned is the one of the `Update`, unless the status patch fails
as well, and then it is the one of the patch. -/
theorem Reconcile_deleting_unregistered {σ : Type} (nf : String) (w : World σ)
    (req : Request) (r : Run σ) (inst : KeystoneService) (helper : Helper) (s1 s2 : σ)
    (hget : w.Get req.Name req.Namespace r.world = (Res.ok (inst, none), s1))
    (hhelper : w.NewHelper inst s1 = (Res.ok (helper, none), s2))
    (hconds : inst.Status.Conditions ≠ none)
    (hdel : IsZero inst.DeletionTimestamp = false)
    (hid : inst.Status.ServiceID = "") :
    (∀ kapi e s3, w.GetKeystoneAPI inst.Namespace s2 = (Res.ok (kapi, some e), s3) →
      k8s_errors.IsNotFound e = true →
      Reconcile.body nf w inst helper
          { world := s2,
            calls := r.calls ++ [Call.Get req.Name req.Namespace, Call.NewHelper inst] } =
        reconcileDelete w inst helper none none
          { world := s3,
            calls := r.calls ++ [Call.Get req.Name req.Namespace, Call.NewHelper inst] ++
              [Call.GetKeystoneAPI inst.Namespace] } ∧
      (∀ c ∈ issued (Reconcile nf w req) r, c.isIdentity = false) ∧
      ∀ perr s4,
        w.PatchInstance (patchedInstance (inst.removeFinalizer helper.GetFinalizer)) s3
          = (Res.ok perr, s4) →
        Reconcile nf w req r =
          (Res.ok ({}, perr),
            { world := s4,
              calls := r.calls ++ [
                Call.Get req.Name req.Namespace,
                Call.NewHelper inst,
                Call.GetKeystoneAPI inst.Namespace,
                Call.PatchInstance
                  (patchedInstance (inst.removeFinalizer helper.GetFinalizer))] })) ∧
    (∀ api s3, w.GetKeystoneAPI inst.Namespace s2 = (Res.ok (some api, none), s3) →
      (IsZero api.DeletionTimestamp = true →
        Reconcile.body nf w inst helper
            { world := s2,
              calls := r.calls ++ [Call.Get req.Name req.Namespace, Call.NewHelper inst] } =
          reconcileDelete w inst helper none (some api)
            { world := s3,
              calls := r.calls ++ [Call.Get req.Name req.Namespace, Call.NewHelper inst] ++
                [Call.GetKeystoneAPI inst.Namespace] }) ∧
      (IsZero api.DeletionTimestamp = false →
        Reconcile.body nf w inst helper
            { world := s2,
              calls := r.calls ++ [Call.Get req.Name req.Namespace, Call.NewHelper inst] } =
          reconcileDeleteFinalizersOnly w inst helper (some api)
            { world := s3,
              calls := r.calls ++ [Call.Get req.Name req.Namespace, Call.NewHelper inst] ++
                [Call.GetKeystoneAPI inst.Namespace] }) ∧
      (∀ c ∈ issued (Reconcile nf w req) r, c.isIdentity = false) ∧
      (helper.GetFinalizer ++ "-" ++ inst.Name ∉ api.Finalizers →
        ∀ perr s4,
          w.PatchInstance (patchedInstance (inst.removeFinalizer helper.GetFinalizer)) s3
            = (Res.ok perr, s4) →
          Reconcile nf w req r =
            (Res.ok ({}, perr),
              { world := s4,
                calls := r.calls ++ [
                  Call.Get req.Name req.Namespace,
                  Call.NewHelper inst,
                  Call.GetKeystoneAPI inst.Namespace,
                  Call.PatchInstance
                    (patchedInstance (inst.removeFinalizer helper.GetFinalizer))] })) ∧
      (helper.GetFinalizer ++ "-" ++ inst.Name ∈ api.Finalizers →
        ∀ uerr s4,
          w.Update (withoutFinalizer api (helper.GetFinalizer ++ "-" ++ inst.Name)) s3
            = (Res.ok uerr, s4) →
          (uerr = none → ∀ perr s5,
            w.PatchInstance (patchedInstance (inst.removeFinalizer helper.GetFinalizer)) s4
              = (Res.ok perr, s5) →
            Reconcile nf w req r =
              (Res.ok ({}, perr),
                { world := s5,
                  calls := r.calls ++ [
                    Call.Get req.Name req.Namespace,
                    Call.NewHelper inst,
                    Call.GetKeystoneAPI inst.Namespace,
                    Call.Update
                      (withoutFinalizer api (helper.GetFinalizer ++ "-" ++ inst.Name)),
                    Call.PatchInstance
                      (patchedInstance (inst.removeFinalizer helper.GetFinalizer))] })) ∧
          (∀ e, uerr = some e → ∀ perr s5,
            w.PatchInstance (patchedInstance inst) s4 = (Res.ok perr, s5) →
            Reconcile nf w req r =
              (Res.ok ({}, some (perr.getD e)),
                { world := s5,
                  calls := r.calls ++ [
                    Call.Get req.Name req.Namespace,
                    Call.NewHelper inst,
                    Call.GetKeystoneAPI inst.Namespace,
                    Call.Update
                      (withoutFinalizer api (helper.GetFinalizer ++ "-" ++ inst.Name)),
                    Call.PatchInstance (patchedInstance inst)] })))) ∧
    helper.GetFinalizer ∉
      (patchedInstance (inst.removeFinalizer helper.GetFinalizer)).Finalizers := by
  have hnone := isNone_of_ne_none inst hconds
  refine ⟨?_, ?_, RemoveFinalizer_not_mem inst.Finalizers helper.GetFinalizer⟩
  · intro kapi e s3 hlookup hnf
    have hbody := Reconcile_body_not_found_deleting nf w inst helper
      { world := s2,
        calls := r.calls ++ [Call.Get req.Name req.Namespace, Call.NewHelper inst] }
      kapi e s3 hnone hdel hid hlookup hnf
    have hdelete : reconcileDelete w inst helper none none
        { world := s3,
          calls := r.calls ++ [Call.Get req.Name req.Namespace, Call.NewHelper inst] ++
            [Call.GetKeystoneAPI inst.Namespace] } =
        (Res.ok (inst.removeFinalizer helper.GetFinalizer, {}, none),
          { world := s3,
            calls := r.calls ++ [Call.Get req.Name req.Namespace, Call.NewHelper inst] ++
              [Call.GetKeystoneAPI inst.Namespace] }) := by
      rw [reconcileDelete_skip w inst helper none none (Or.inl hid)]
      rfl
    refine ⟨hbody, ?_, ?_⟩
    · refine Reconcile_identity_free_of_body nf w req r inst helper s1 s2 hget hhelper
        [Call.GetKeystoneAPI inst.Namespace] ?_ ?_
      · rw [hbody, hdelete]
      · intro c hc
        rw [List.mem_singleton] at hc
        subst hc
        rfl
    · intro perr s4 hpatch
      rw [Reconcile_of_body nf w req r inst helper s1 s2 s4 _ _ _ perr _ hget hhelper
        (hbody.trans hdelete) hpatch]
      cases perr <;> simp [returnedError]
  · intro api s3 hlookup
    have hbody := Reconcile_body_unregistered_found nf w inst helper
      { world := s2,
        calls := r.calls ++ [Call.Get req.Name req.Namespace, Call.NewHelper inst] }
      api s3 hnone hdel hid hlookup
    refine ⟨?_, ?_, ?_, ?_, ?_⟩
    · intro hz
      exact Reconcile_body_found_deleting nf w inst helper _ api s3 hnone hdel hid hlookup hz
    · intro hz
      exact hbody
    · obtain ⟨l1, hl1, hp1⟩ := reconcileDeleteFinalizersOnly_issuesOnly w inst helper (some api)
        { world := s3,
          calls := r.calls ++ [Call.Get req.Name req.Namespace, Call.NewHelper inst] ++
            [Call.GetKeystoneAPI inst.Namespace] }
      refine Reconcile_identity_free_of_body nf w req r inst helper s1 s2 hget hhelper
        ([Call.GetKeystoneAPI inst.Namespace] ++ l1) ?_ ?_
      · rw [hbody, hl1]
        simp
      · intro c hc
        simp only [List.mem_append, List.mem_singleton] at hc
        rcases hc with rfl | h
        · rfl
        · exact hp1 c h
    · intro habsent perr s4 hpatch
      rw [Reconcile_of_body nf w req r inst helper s1 s2 s4 _ _ _ perr _ hget hhelper
        (hbody.trans (reconcileDeleteFinalizersOnly_absent w inst helper api _ habsent)) hpatch]
      cases perr <;> simp [returnedError]
    · intro hpresent uerr s4 hupdate
      have hrelease := reconcileDeleteFinalizersOnly_present w inst helper api
        { world := s3,
          calls := r.calls ++ [Call.Get req.Name req.Namespace, Call.NewHelper inst] ++
            [Call.GetKeystoneAPI inst.Namespace] } uerr s4 hpresent hupdate
      refine ⟨?_, ?_⟩
      · intro hu perr s5 hpatch
        subst hu
        rw [Reconcile_of_body nf w req r inst helper s1 s2 s5 _ _ _ perr _ hget hhelper
          (hbody.trans hrelease) hpatch]
        cases perr <;> simp [returnedError]
      · intro e hu perr s5 hpatch
        subst hu
        rw [Reconcile_of_body nf w req r inst helper s1 s2 s5 _ _ _ perr _ hget hhelper
          (hbody.trans hrelease) hpatch]
        cases perr <;> simp [returnedError]

/-- Witness of C11: the example instance, being deleted with no service
registered, and a KeystoneAPI that is not ready and carries the token. -/
theorem Reconcile_deleting_unregistered_witness :
    deletedFreshInstance.Status.Conditions ≠ none ∧
    IsZero deletedFreshInstance.DeletionTimestamp = false ∧
    deletedFreshInstance.Status.ServiceID = "" ∧
    waitingKeystoneAPI.IsReady = false ∧
    "openstack.org/keystoneservice-placement" ∈ waitingKeystoneAPI.Finalizers ∧
    Reconcile exampleServiceNotFound
        (exampleWorld deletedFreshInstance (some waitingKeystoneAPI) noFault) exampleRequest
        emptyRun =
      (Res.ok ({}, none),
        { world := emptyRun.world,
          calls := emptyRun.calls ++ [
            Call.Get "placement" "openstack",
            Call.NewHelper deletedFreshInstance,
            Call.GetKeystoneAPI "openstack",
            Call.Update
              (withoutFinalizer waitingKeystoneAPI "openstack.org/keystoneservice-placement"),
            Call.PatchInstance
              (patchedInstance
                (deletedFreshInstance.removeFinalizer "openstack.org/keystoneservice"))] }) :=
  ⟨by decide, rfl, rfl, by decide, by decide,
    (((Reconcile_deleting_unregistered exampleServiceNotFound
      (exampleWorld deletedFreshInstance (some waitingKeystoneAPI) noFault) exampleRequest
      emptyRun deletedFreshInstance exampleHelper emptyRun.world emptyRun.world rfl rfl
      (by decide) rfl rfl).2.1 waitingKeystoneAPI emptyRun.world rfl).2.2.2.2 (by decide) none
      emptyRun.world rfl).1 rfl none emptyRun.world rfl⟩

/-- Counterexample to C11 as stated: the example instance is being deleted
with no service registered, its KeystoneAPI is ready and carries the token,
and the update of the KeystoneAPI fails. `Reconcile` returns the error of the
update, and the instance that is patched still carries its finalizer. -/
theorem Reconcile_deleting_unregistered_keeps_finalizer :
    IsZero deletedFreshInstance.DeletionTimestamp = false ∧
    deletedFreshInstance.Status.ServiceID = "" ∧
    (Reconcile exampleServiceNotFound
        (exampleWorld deletedFreshInstance (some readyKeystoneAPI) updateFault) exampleRequest
        emptyRun).1 =
      Res.ok ({}, some { text := "etcdserver: request timed out", notFound := false }) ∧
    (Reconcile exampleServiceNotFound
        (exampleWorld deletedFreshInstance (some readyKeystoneAPI) updateFault) exampleRequest
        emptyRun).2.calls = [
      Call.Get "placement" "openstack",
      Call.NewHelper deletedFreshInstance,
      Call.GetKeystoneAPI "openstack",
      Call.Update (withoutFinalizer readyKeystoneAPI "openstack.org/keystoneservice-placement"),
      Call.PatchInstance (patchedInstance deletedFreshInstance)] ∧
    "openstack.org/keystoneservice" ∈ (patchedInstance deletedFreshInstance).Finalizers :=
  ⟨rfl, rfl, rfl, rfl, by decide⟩

/-- C12, as amended: for a KeystoneService that is being deleted (conditions
initialised) whose KeystoneAPI is found, `Reconcile` goes round the gate in
two cases only. When the KeystoneAPI is being deleted as well, its body is
`reconcileDeleteFinalizersOnly`; when `Status.ServiceID` is empty, its body is
`reconcileDelete` without a client; neither looks at the readiness of the
KeystoneAPI nor asks for the admin client. With a registered service and a
KeystoneAPI that is not being deleted the gate applies: when the KeystoneAPI
is not ready, `Reconcile` requeues after five seconds and reaches no deletion
path; when it is ready, the admin client is asked for, and `reconcileDelete`
runs with that client only when the request returns no error and an empty
result. -/
theorem Reconcile_deleting_routes {σ : Type} (nf : String) (w : World σ)
    (req : Request) (r : Run σ) (inst : KeystoneService) (helper : Helper) (api : KeystoneAPI)
    (s1 s2 s3 : σ)
    (hget : w.Get req.Name req.Namespace r.world = (Res.ok (inst, none), s1))
    (hhelper : w.NewHelper inst s1 = (Res.ok (helper, none), s2))
    (hconds : inst.Status.Conditions ≠ none)
    (hdel : IsZero inst.DeletionTimestamp = false)
    (hlookup : w.GetKeystoneAPI inst.Namespace s2 = (Res.ok (some api, none), s3)) :
    Reconcile nf w req r =
      Reconcile.deferred w
        (Reconcile.body nf w inst helper
          { world := s2,
            calls := r.calls ++ [Call.Get req.Name req.Namespace, Call.NewHelper inst] }).1
        (Reconcile.body nf w inst helper
          { world := s2,
            calls := r.calls ++ [Call.Get req.Name req.Namespace, Call.NewHelper inst] }).2 ∧
    (IsZero api.DeletionTimestamp = false →
      Reconcile.body nf w inst helper
          { world := s2,
            calls := r.calls ++ [Call.Get req.Name req.Namespace, Call.NewHelper inst] } =
        reconcileDeleteFinalizersOnly w inst helper (some api)
          { world := s3,
            calls := r.calls ++ [Call.Get req.Name req.Namespace, Call.NewHelper inst] ++
              [Call.GetKeystoneAPI inst.Namespace] }) ∧
    (IsZero api.DeletionTimestamp = true → inst.Status.ServiceID = "" →
      Reconcile.body nf w inst helper
          { world := s2,
            calls := r.calls ++ [Call.Get req.Name req.Namespace, Call.NewHelper inst] } =
        reconcileDelete w inst helper none (some api)
          { world := s3,
            calls := r.calls ++ [Call.Get req.Name req.Namespace, Call.NewHelper inst] ++
              [Call.GetKeystoneAPI inst.Namespace] }) ∧
    (IsZero api.DeletionTimestamp = true → inst.Status.ServiceID ≠ "" →
      api.IsReady = false → ∀ perr s4,
      w.PatchInstance
        (patchedInstance (inst.setCondition (FalseCondition KeystoneAPIReadyCondition
          Reason.RequestedReason Severity.SeverityInfo
          MessageFormat.KeystoneAPIReadyWaitingMessage []))) s3 = (Res.ok perr, s4) →
      Reconcile nf w req r =
        (Res.ok ({ RequeueAfter := 5000000000 }, perr),
          { world := s4,
            calls := r.calls ++ [
              Call.Get req.Name req.Namespace,
              Call.NewHelper inst,
              Call.GetKeystoneAPI inst.Namespace,
              Call.PatchInstance
                (patchedInstance (inst.setCondition (FalseCondition KeystoneAPIReadyCondition
                  Reason.RequestedReason Severity.SeverityInfo
                  MessageFormat.KeystoneAPIReadyWaitingMessage [])))] })) ∧
    (IsZero api.DeletionTimestamp = true → inst.Status.ServiceID ≠ "" →
      api.IsReady = true → ∀ os res aerr s4,
      w.GetAdminServiceClient api s3 = (Res.ok (os, res, aerr), s4) →
      (∀ e, aerr = some e →
        Reconcile.body nf w inst helper
            { world := s2,
              calls := r.calls ++ [Call.Get req.Name req.Namespace, Call.NewHelper inst] } =
          (Res.ok ((inst.markTrue KeystoneAPIReadyCondition
                MessageFormat.KeystoneAPIReadyMessage []).setCondition
              (FalseCondition AdminServiceClientReadyCondition Reason.ErrorReason
                Severity.SeverityWarning MessageFormat.AdminServiceClientReadyErrorMessage
                [e.text]), {}, some e),
            { world := s4,
              calls := r.calls ++ [Call.Get req.Name req.Namespace, Call.NewHelper inst] ++
                [Call.GetKeystoneAPI inst.Namespace, Call.GetAdminServiceClient api] })) ∧
      (aerr = none → res ≠ {} →
        Reconcile.body nf w inst helper
            { world := s2,
              calls := r.calls ++ [Call.Get req.Name req.Namespace, Call.NewHelper inst] } =
          (Res.ok ((inst.markTrue KeystoneAPIReadyCondition
                MessageFormat.KeystoneAPIReadyMessage []).setCondition
              (FalseCondition AdminServiceClientReadyCondition Reason.RequestedReason
                Severity.SeverityInfo MessageFormat.AdminServiceClientReadyWaitingMessage []),
              res, none),
            { world := s4,
              calls := r.calls ++ [Call.Get req.Name req.Namespace, Call.NewHelper inst] ++
                [Call.GetKeystoneAPI inst.Namespace, Call.GetAdminServiceClient api] })) ∧
      (aerr = none → res = {} →
        Reconcile.body nf w inst helper
            { world := s2,
              calls := r.calls ++ [Call.Get req.Name req.Namespace, Call.NewHelper inst] } =
          reconcileDelete w
            ((inst.markTrue KeystoneAPIReadyCondition
              MessageFormat.KeystoneAPIReadyMessage []).markTrue
              AdminServiceClientReadyCondition MessageFormat.AdminServiceClientReadyMessage [])
            helper os (some api)
            { world := s4,
              calls := r.calls ++ [Call.Get req.Name req.Namespace, Call.NewHelper inst] ++
                [Call.GetKeystoneAPI inst.Namespace, Call.GetAdminServiceClient api] })) := by
  have hnone := isNone_of_ne_none inst hconds
  have hpass := Reconcile_body_passes_finalizer inst helper (Or.inl hdel)
  refine ⟨Reconcile_run nf w req r inst helper s1 s2 hget hhelper, ?_, ?_, ?_, ?_⟩
  · intro hz
    exact Reconcile_body_both_deleted nf w inst helper _ api s3 hnone hdel hlookup hz
  · intro hz hid
    exact Reconcile_body_found_deleting nf w inst helper _ api s3 hnone hdel hid hlookup hz
  · intro hz hid hready perr s4 hpatch
    have hbody := Reconcile_body_not_ready nf w inst helper
      { world := s2,
        calls := r.calls ++ [Call.Get req.Name req.Namespace, Call.NewHelper inst] }
      api s3 hnone hpass (by simp [hz]) (by simp [hid]) hlookup hready
    rw [Reconcile_of_body nf w req r inst helper s1 s2 s4 _ _ _ perr _ hget hhelper hbody hpatch]
    cases perr <;> simp [returnedError, time.Second]
  · intro hz hid hready os res aerr s4 hadmin
    have hbody := Reconcile_body_ready nf w inst helper
      { world := s2,
        calls := r.calls ++ [Call.Get req.Name req.Namespace, Call.NewHelper inst] }
      api s3 s4 os res aerr hnone hpass (by simp [hz]) (by simp [hid]) hlookup hready hadmin
    refine ⟨?_, ?_, ?_⟩
    · intro e he
      subst he
      rw [hbody]
      rfl
    · intro he hres
      subst he
      rw [hbody]
      simp [hres, M.pure]
    · intro he hres
      subst he
      rw [hbody]
      simp [hres, hdel]

/-- Witness of C12: the example instance, being deleted with a registered
service, and a KeystoneAPI that is ready: the admin client is asked for and
`reconcileDelete` runs with it. -/
theorem Reconcile_deleting_routes_witness :
    deletedInstance.Status.Conditions ≠ none ∧
    IsZero deletedInstance.DeletionTimestamp = false ∧
    IsZero readyKeystoneAPI.DeletionTimestamp = true ∧
    deletedInstance.Status.ServiceID ≠ "" ∧
    readyKeystoneAPI.IsReady = true ∧
    Reconcile.body exampleServiceNotFound
        (exampleWorld deletedInstance (some readyKeystoneAPI) noFault) deletedInstance
        exampleHelper
        { world := adoptedBackend,
          calls := adoptedRun.calls ++
            [Call.Get "placement" "openstack", Call.NewHelper deletedInstance] } =
      reconcileDelete (exampleWorld deletedInstance (some readyKeystoneAPI) noFault)
        ((deletedInstance.markTrue KeystoneAPIReadyCondition
          MessageFormat.KeystoneAPIReadyMessage []).markTrue
          AdminServiceClientReadyCondition MessageFormat.AdminServiceClientReadyMessage [])
        exampleHelper (some (exampleOpenStack noFault)) (some readyKeystoneAPI)
        { world := adoptedBackend,
          calls := adoptedRun.calls ++
            [Call.Get "placement" "openstack", Call.NewHelper deletedInstance] ++
            [Call.GetKeystoneAPI "openstack", Call.GetAdminServiceClient readyKeystoneAPI] } :=
  ⟨by decide, rfl, rfl, by decide, by decide,
    ((Reconcile_deleting_routes exampleServiceNotFound
      (exampleWorld deletedInstance (some readyKeystoneAPI) noFault) exampleRequest adoptedRun
      deletedInstance exampleHelper readyKeystoneAPI adoptedBackend adoptedBackend adoptedBackend
      rfl rfl (by decide) rfl rfl).2.2.2.2 rfl (by decide) (by decide)
      (some (exampleOpenStack noFault)) {} none adoptedBackend rfl).2.2 rfl rfl⟩

/-- Counterexample to C12 as stated: the example instance is being deleted
with a registered service, the lookup finds its KeystoneAPI, which is not
being deleted and not ready. `Reconcile` requeues after five seconds: no
deletion path is reached, the KeystoneAPI is not updated and the instance
that is patched still carries its finalizer. -/
theorem Reconcile_deleting_waits_for_keystoneAPI :
    IsZero deletedInstance.DeletionTimestamp = false ∧
    IsZero waitingKeystoneAPI.DeletionTimestamp = true ∧
    waitingKeystoneAPI.IsReady = false ∧
    Reconcile exampleServiceNotFound
        (exampleWorld deletedInstance (some waitingKeystoneAPI) noFault) exampleRequest
        adoptedRun =
      (Res.ok ({ RequeueAfter := 5000000000 }, none),
        { world := adoptedBackend,
          calls := [
            Call.Get "placement" "openstack",
            Call.NewHelper deletedInstance,
            Call.GetKeystoneAPI "openstack",
            Call.PatchInstance
              (patchedInstance (deletedInstance.setCondition
                (FalseCondition KeystoneAPIReadyCondition Reason.RequestedReason
                  Severity.SeverityInfo
                  MessageFormat.KeystoneAPIReadyWaitingMessage [])))] }) ∧
    "openstack.org/keystoneservice" ∈
      (patchedInstance (deletedInstance.setCondition
        (FalseCondition KeystoneAPIReadyCondition Reason.RequestedReason
          Severity.SeverityInfo
          MessageFormat.KeystoneAPIReadyWaitingMessage []))).Finalizers :=
  ⟨rfl, rfl, by decide, rfl, by decide⟩

/-! ## Failures of the backend in `reconcileDelete` -/

/-- Whenever `reconcileDelete` returns an error, the instance it leaves
carries the finalizers it came with and the result is empty. -/
theorem reconcileDelete_error_keeps_finalizers {σ : Type} (w : World σ)
    (inst : KeystoneService) (helper : Helper) (os : Option (OpenStack σ))
    (keystoneAPI : Option KeystoneAPI) :
    (reconcileDelete w inst helper os keystoneAPI).returns
      (fun out => out.2.2 ≠ none → out.1.Finalizers = inst.Finalizers ∧ out.2.1 = {}) := by
  have hfin : ∀ i : KeystoneService, i.Finalizers = inst.Finalizers →
      (reconcileDelete.finalizers w i helper keystoneAPI).returns
        (fun out => out.2.2 ≠ none → out.1.Finalizers = inst.Finalizers ∧ out.2.1 = {}) := by
    intro i hi
    unfold reconcileDelete.finalizers
    cases keystoneAPI with
    | none => exact M.returns_pure _ (fun h => absurd rfl h)
    | some api =>
      dsimp only
      split
      · refine M.returns_bind (M.returns_any _) ?_
        rintro err -
        cases err with
        | some e => exact M.returns_pure _ (fun _ => ⟨hi, rfl⟩)
        | none => exact M.returns_pure _ (fun h => absurd rfl h)
      · exact M.returns_pure _ (fun h => absurd rfl h)
  unfold reconcileDelete
  split
  · refine M.returns_bind (M.returns_any _) ?_
    rintro err -
    cases err with
    | some e => exact M.returns_pure _ (fun _ => ⟨rfl, rfl⟩)
    | none =>
      refine M.returns_bind (M.returns_any _) ?_
      rintro err -
      cases err with
      | some e => exact M.returns_pure _ (fun _ => ⟨rfl, rfl⟩)
      | none => exact hfin _ rfl
  · exact hfin inst rfl

/-- C27: `reconcileDelete` stops at the first failure of the backend. When
`DeleteUser` fails, `DeleteService` is not called; when `DeleteUser` or
`DeleteService` fails, the error is returned with the instance as it came
(`Status.ServiceID` and its own finalizer kept) and no `Update` of the
KeystoneAPI is issued, so the token stays there; and whenever `reconcileDelete`
returns an error, that of a failing `Update` of the KeystoneAPI included, the
finalizer of the instance is not removed. -/
theorem reconcileDelete_stops_at_failure {σ : Type} (w : World σ) (inst : KeystoneService)
    (helper : Helper) (os : OpenStack σ) (keystoneAPI : Option KeystoneAPI) (r : Run σ)
    (hid : inst.Status.ServiceID ≠ "") :
    (∀ e s1, os.DeleteUser inst.Spec.ServiceUser "default" r.world = (Res.ok (some e), s1) →
      reconcileDelete w inst helper (some os) keystoneAPI r =
        (Res.ok (inst, {}, some e),
          { world := s1,
            calls := r.calls ++ [Call.DeleteUser inst.Spec.ServiceUser "default"] })) ∧
    (∀ e s1 s2, os.DeleteUser inst.Spec.ServiceUser "default" r.world = (Res.ok none, s1) →
      os.DeleteService inst.Status.ServiceID s1 = (Res.ok (some e), s2) →
      reconcileDelete w inst helper (some os) keystoneAPI r =
        (Res.ok (inst, {}, some e),
          { world := s2,
            calls := r.calls ++ [Call.DeleteUser inst.Spec.ServiceUser "default",
              Call.DeleteService inst.Status.ServiceID] })) ∧
    (∀ api e s1 s2 s3, keystoneAPI = some api →
      helper.GetFinalizer ++ "-" ++ inst.Name ∈ api.Finalizers →
      os.DeleteUser inst.Spec.ServiceUser "default" r.world = (Res.ok none, s1) →
      os.DeleteService inst.Status.ServiceID s1 = (Res.ok none, s2) →
      w.Update (withoutFinalizer api (helper.GetFinalizer ++ "-" ++ inst.Name)) s2
        = (Res.ok (some e), s3) →
      reconcileDelete w inst helper (some os) keystoneAPI r =
        (Res.ok (withServiceID inst "", {}, some e),
          { world := s3,
            calls := r.calls ++ [Call.DeleteUser inst.Spec.ServiceUser "default",
              Call.DeleteService inst.Status.ServiceID,
              Call.Update
                (withoutFinalizer api (helper.GetFinalizer ++ "-" ++ inst.Name))] })) ∧
    (∀ (client : Option (OpenStack σ)) (i : KeystoneService) (run : Run σ)
        (left : KeystoneService) (result : Result) (e : GoError) (r1 : Run σ),
      reconcileDelete w i helper client keystoneAPI run = (Res.ok (left, result, some e), r1) →
      left.Finalizers = i.Finalizers ∧ result = {}) := by
  refine ⟨?_, ?_, ?_, ?_⟩
  · intro e s1 huser
    simp [reconcileDelete, hid, onClient, call, bind, M.bind, pure, M.pure, huser]
  · intro e s1 s2 huser hservice
    simp [reconcileDelete, hid, onClient, call, bind, M.bind, pure, M.pure, huser, hservice]
  · intro api e s1 s2 s3 hsome hpresent huser hservice hupdate
    subst hsome
    rw [reconcileDelete_cleanup w inst helper os (some api) r s1 s2 hid huser hservice,
      reconcileDelete_finalizers_some,
      reconcileDeleteFinalizersOnly_present w (withServiceID inst "") helper api _ (some e) s3
        hpresent hupdate]
    simp
  · intro client i run left result e r1 hrun
    exact reconcileDelete_error_keeps_finalizers w i helper client keystoneAPI run _ r1 hrun
      (by simp)

/-- Witness of C27: the example instance, being deleted with a registered
service, when `DeleteUser` fails. -/
theorem reconcileDelete_stops_at_failure_witness :
    deletedInstance.Status.ServiceID ≠ "" ∧
    reconcileDelete (exampleWorld deletedInstance (some readyKeystoneAPI) deleteUserFault)
        deletedInstance exampleHelper (some (exampleOpenStack deleteUserFault))
        (some readyKeystoneAPI) adoptedRun =
      (Res.ok (deletedInstance, {},
          some { text := "keystone: 503 service unavailable", notFound := false }),
        { world := adoptedBackend,
          calls := adoptedRun.calls ++ [Call.DeleteUser "placement" "default"] }) :=
  ⟨by decide,
    (reconcileDelete_stops_at_failure
      (exampleWorld deletedInstance (some readyKeystoneAPI) deleteUserFault) deletedInstance
      exampleHelper (exampleOpenStack deleteUserFault) (some readyKeystoneAPI) adoptedRun
      (by decide)).1 _ adoptedBackend rfl⟩

/-! ## Errors of `reconcileService` before a service is found -/

/-- C29: when `GetService` finds no service and `CreateService` fails,
`reconcileService` returns the error of `CreateService`, and
`Status.ServiceID` is the identifier `CreateService` returned next to the
error, whatever it held before. On the other error path before a service is
found, a failing `GetService`, the instance is returned as it came with
`GetService` as the only call. -/
theorem reconcileService_create_failure_overwrites_id {σ : Type} (nf : String)
    (inst : KeystoneService) (os : OpenStack σ) (r : Run σ) :
    (∀ gerr s1 id e s2,
      os.GetService inst.Spec.ServiceType inst.Spec.ServiceName r.world
        = (Res.ok (none, gerr), s1) →
      (∀ g, gerr = some g → strings.Contains g.text nf = true) →
      os.CreateService (wantedService inst) s1 = (Res.ok (id, some e), s2) →
      reconcileService nf inst (some os) r =
        (Res.ok (withServiceID inst id, some e),
          { world := s2,
            calls := r.calls ++ [Call.GetService inst.Spec.ServiceType inst.Spec.ServiceName,
              Call.CreateService (wantedService inst)] }) ∧
      (withServiceID inst id).Status.ServiceID = id) ∧
    (∀ service e s1,
      os.GetService inst.Spec.ServiceType inst.Spec.ServiceName r.world
        = (Res.ok (service, some e), s1) →
      strings.Contains e.text nf = false →
      reconcileService nf inst (some os) r =
        (Res.ok (inst, some e),
          { world := s1,
            calls := r.calls ++
              [Call.GetService inst.Spec.ServiceType inst.Spec.ServiceName] })) := by
  refine ⟨?_, ?_⟩
  · intro gerr s1 id e s2 hget hgerr hcreate
    refine ⟨?_, rfl⟩
    rw [reconcileService_absent nf inst os r gerr s1 hget
      ((getServiceFails_eq_false_iff nf gerr).2 hgerr), hcreate]
  · intro service e s1 hget he
    exact reconcileService_getFails nf inst os r service (some e) s1 hget
      (by simp [getServiceFails, he])

/-- Witness of C29: the example instance with a stale identifier on an empty
backend whose `CreateService` fails: the identifier becomes the empty string
the failing call returns. -/
theorem reconcileService_create_failure_overwrites_id_witness :
    staleInstance.Status.ServiceID = "stale" ∧
    reconcileService exampleServiceNotFound staleInstance
        (some (exampleOpenStack createServiceFault)) emptyRun =
      (Res.ok (withServiceID staleInstance "",
          some { text := "keystone: 500 internal error", notFound := false }),
        { world := emptyRun.world,
          calls := emptyRun.calls ++
            [Call.GetService "placement" "placement",
              Call.CreateService (wantedService staleInstance)] }) :=
  ⟨rfl,
    ((reconcileService_create_failure_overwrites_id exampleServiceNotFound staleInstance
      (exampleOpenStack createServiceFault) emptyRun).1
      (some { text := "placement service not found in keystone", notFound := false })
      emptyRun.world "" _ emptyRun.world rfl
      (fun g hg => by
        cases hg
        decide)
      rfl).1⟩

/-! ## The comparison of descriptions -/

/-- C30: the description of a found service is the dynamically typed entry
`description` of its `Extra`, compared with the string
`Spec.ServiceDescription`. When the entry is missing or holds something other
than a string, the comparison says "differs" for every desired description,
the empty string included, and `reconcileService` issues `UpdateService` after
`GetService` on every run in which such a service is found, also when the
enabled flag agrees. -/
theorem reconcileService_untyped_description_updates {σ : Type} (nf : String)
    (inst : KeystoneService) (os : OpenStack σ) (r : Run σ) (svc : services.Service)
    (err : Option GoError) (s1 : σ)
    (hget : os.GetService inst.Spec.ServiceType inst.Spec.ServiceName r.world
      = (Res.ok (some svc, err), s1))
    (herr : ∀ e, err = some e → strings.Contains e.text nf = true)
    (hdesc : svc.Extra.lookup "description" = none ∨
      ∃ v, svc.Extra.lookup "description" = some v ∧ ∀ s, v ≠ Any.str s) :
    (mapIndex svc.Extra "description").neString inst.Spec.ServiceDescription = true ∧
    (mapIndex svc.Extra "description").neString "" = true ∧
    issued (reconcileService nf inst (some os)) r =
      [Call.GetService inst.Spec.ServiceType inst.Spec.ServiceName,
        Call.UpdateService (wantedService inst) svc.ID] := by
  have hne : ∀ s, mapIndex svc.Extra "description" ≠ Any.str s := by
    intro s
    rcases hdesc with h | ⟨v, h, hv⟩
    · simp [mapIndex, h]
    · simpa [mapIndex, h] using hv s
  refine ⟨(Any.neString_eq_true_iff _ _).2 (hne _), (Any.neString_eq_true_iff _ _).2 (hne _), ?_⟩
  rw [reconcileService_found_calls nf inst os r svc err s1 hget
    ((getServiceFails_eq_false_iff nf err).2 herr)]
  rw [if_neg (fun h => hne _ h.2)]

/-- Witness of C30: the example instance asking for the empty description, and
a backend whose service has the flag asked for and no description. -/
theorem reconcileService_untyped_description_updates_witness :
    bareService.Enabled = plainInstance.Spec.Enabled ∧
    plainInstance.Spec.ServiceDescription = "" ∧
    bareService.Extra.lookup "description" = none ∧
    issued (reconcileService exampleServiceNotFound plainInstance
        (some (exampleOpenStack noFault))) bareRun =
      [Call.GetService "placement" "placement",
        Call.UpdateService (wantedService plainInstance) "placement/placement"] :=
  ⟨rfl, rfl, by decide,
    (reconcileService_untyped_description_updates exampleServiceNotFound plainInstance
      (exampleOpenStack noFault) bareRun bareService none bareRun.world rfl
      (fun _ h => nomatch h) (Or.inl (by decide))).2.2⟩

/-! ## The ways out of `Reconcile` -/

/-- C23: when the body of `Reconcile` panics after the deferred function is
registered, the deferred function panics again with the same value and issues
no call: the conditions are not recomputed and the instance is not patched.
`Reconcile` ends with that panic, in the run state the body left, and does not
return. -/
theorem Reconcile_panic_is_raised_again {σ : Type} (nf : String) (w : World σ) (req : Request)
    (r : Run σ) (inst : KeystoneService) (helper : Helper) (s1 s2 : σ) (v : String)
    (r1 : Run σ)
    (hget : w.Get req.Name req.Namespace r.world = (Res.ok (inst, none), s1))
    (hhelper : w.NewHelper inst s1 = (Res.ok (helper, none), s2))
    (hbody : Reconcile.body nf w inst helper
        { world := s2,
          calls := r.calls ++ [Call.Get req.Name req.Namespace, Call.NewHelper inst] }
      = (Res.panic v, r1)) :
    Reconcile.deferred w (Res.panic v) r1 = (Res.panic v, r1) ∧
    issued (Reconcile.deferred w (Res.panic v)) r1 = [] ∧
    Reconcile nf w req r = (Res.panic v, r1) ∧
    ∀ out r2, Reconcile nf w req r ≠ (Res.ok out, r2) := by
  have hrun : Reconcile nf w req r = (Res.panic v, r1) := by
    rw [Reconcile_run nf w req r inst helper s1 s2 hget hhelper, hbody]
    rfl
  refine ⟨rfl, ?_, hrun, ?_⟩
  · apply issued_eq_of_calls
    simp [Reconcile.deferred, M.panic]
  · intro out r2 h
    rw [hrun] at h
    simp at h

/-- Witness of C23: the example instance in a cluster whose provider hands out
a nil admin client: the service sync dereferences it and panics. -/
theorem Reconcile_panic_is_raised_again_witness :
    Reconcile exampleServiceNotFound (clientlessWorld liveInstance (some readyKeystoneAPI) noFault)
        exampleRequest emptyRun =
      (Res.panic nilDereference,
        { world := emptyRun.world,
          calls := [
            Call.Get "placement" "openstack",
            Call.NewHelper liveInstance,
            Call.GetKeystoneAPI "openstack",
            Call.GetAdminServiceClient readyKeystoneAPI] }) :=
  (Reconcile_panic_is_raised_again exampleServiceNotFound
    (clientlessWorld liveInstance (some readyKeystoneAPI) noFault) exampleRequest emptyRun
    liveInstance exampleHelper emptyRun.world emptyRun.world nilDereference
    { world := emptyRun.world,
      calls := [
        Call.Get "placement" "openstack",
        Call.NewHelper liveInstance,
        Call.GetKeystoneAPI "openstack",
        Call.GetAdminServiceClient readyKeystoneAPI] }
    rfl rfl rfl).2.2.1

/-- C22, as amended: once the instance is fetched and the helper built, every
way the body of `Reconcile` returns (success, error or early return) is
followed by the recomputation of the Ready condition and one status patch of
the instance, and `Reconcile` returns only after that patch. When the instance
is not found or cannot be read, or the helper cannot be built, `Reconcile`
returns before the deferred function is registered, with `Get` (and
`NewHelper`) as its only calls. -/
theorem Reconcile_patches_on_exit {σ : Type} (nf : String) (w : World σ) (req : Request)
    (r : Run σ) :
    (∀ inst helper s1 s2,
      w.Get req.Name req.Namespace r.world = (Res.ok (inst, none), s1) →
      w.NewHelper inst s1 = (Res.ok (helper, none), s2) →
      (∀ left result err r1,
        Reconcile.body nf w inst helper
            { world := s2,
              calls := r.calls ++ [Call.Get req.Name req.Namespace, Call.NewHelper inst] }
          = (Res.ok (left, result, err), r1) →
        (Reconcile nf w req r).2.calls =
          r1.calls ++ [Call.PatchInstance (patchedInstance left)] ∧
        (patchedInstance left).Status.Conditions =
          some (Reconcile.updateReady (left.Status.Conditions.getD []))) ∧
      (∀ out r2, Reconcile nf w req r = (Res.ok out, r2) →
        ∃ left result err r1,
          Reconcile.body nf w inst helper
              { world := s2,
                calls := r.calls ++ [Call.Get req.Name req.Namespace, Call.NewHelper inst] }
            = (Res.ok (left, result, err), r1) ∧
          out.1 = result ∧
          r2.calls = r1.calls ++ [Call.PatchInstance (patchedInstance left)])) ∧
    (∀ inst e s1,
      w.Get req.Name req.Namespace r.world = (Res.ok (inst, some e), s1) →
      Reconcile nf w req r =
        (Res.ok ({}, if k8s_errors.IsNotFound e then none else some e),
          { world := s1, calls := r.calls ++ [Call.Get req.Name req.Namespace] })) ∧
    (∀ inst helper e s1 s2,
      w.Get req.Name req.Namespace r.world = (Res.ok (inst, none), s1) →
      w.NewHelper inst s1 = (Res.ok (helper, some e), s2) →
      Reconcile nf w req r =
        (Res.ok ({}, some e),
          { world := s2,
            calls := r.calls ++
              [Call.Get req.Name req.Namespace, Call.NewHelper inst] })) := by
  refine ⟨?_, ?_, ?_⟩
  · intro inst helper s1 s2 hget hhelper
    have hrun := Reconcile_run nf w req r inst helper s1 s2 hget hhelper
    refine ⟨?_, ?_⟩
    · intro left result err r1 hbody
      refine ⟨?_, rfl⟩
      rw [hrun, hbody, Reconcile_deferred_ok]
      rcases w.PatchInstance (patchedInstance left) r1.world with ⟨res, s⟩
      rcases res with perr | v <;> rfl
    · intro out r2 hout
      rw [hrun] at hout
      rcases hb : Reconcile.body nf w inst helper
          { world := s2,
            calls := r.calls ++ [Call.Get req.Name req.Namespace, Call.NewHelper inst] }
        with ⟨res, r1⟩
      rw [hb] at hout
      rcases res with ⟨left, result, err⟩ | v
      · refine ⟨left, result, err, r1, rfl, ?_⟩
        rw [Reconcile_deferred_ok] at hout
        rcases hp : w.PatchInstance (patchedInstance left) r1.world with ⟨pres, s⟩
        rw [hp] at hout
        rcases pres with perr | pv
        · simp only [Prod.mk.injEq, Res.ok.injEq] at hout
          obtain ⟨hres, hr2⟩ := hout
          rw [← hres, ← hr2]
          exact ⟨rfl, rfl⟩
        · simp at hout
      · simp [Reconcile.deferred, M.panic] at hout
  · intro inst e s1 hget
    cases hnf : k8s_errors.IsNotFound e <;>
      simp [Reconcile, call, bind, M.bind, pure, M.pure, hget, hnf]
  · intro inst helper e s1 s2 hget hhelper
    simp [Reconcile, call, bind, M.bind, pure, M.pure, hget, hhelper]

/-- Witness of C22: the example instance in a cluster without a KeystoneAPI:
the body returns early with a requeue, and the status patch follows. -/
theorem Reconcile_patches_on_exit_witness :
    (Reconcile exampleServiceNotFound (exampleWorld liveInstance none noFault) exampleRequest
        emptyRun).2.calls =
      [Call.Get "placement" "openstack", Call.NewHelper liveInstance,
        Call.GetKeystoneAPI "openstack"] ++
      [Call.PatchInstance
        (patchedInstance (liveInstance.setCondition
          (FalseCondition KeystoneAPIReadyCondition Reason.ErrorReason
            Severity.SeverityWarning MessageFormat.KeystoneAPIReadyNotFoundMessage [])))] :=
  (((Reconcile_patches_on_exit exampleServiceNotFound (exampleWorld liveInstance none noFault)
    exampleRequest emptyRun).1 liveInstance exampleHelper emptyRun.world emptyRun.world rfl
    rfl).1
    (liveInstance.setCondition
      (FalseCondition KeystoneAPIReadyCondition Reason.ErrorReason
        Severity.SeverityWarning MessageFormat.KeystoneAPIReadyNotFoundMessage []))
    { RequeueAfter := time.Second * 5 } none
    { world := emptyRun.world,
      calls := [Call.Get "placement" "openstack", Call.NewHelper liveInstance,
        Call.GetKeystoneAPI "openstack"] }
    rfl).1

/-- Counterexample to C22 as stated: three exits of `Reconcile` without a
status patch. The instance of the request is gone: `Reconcile` returns an
empty result and no error after `Get`. Reading the instance fails, or the
helper cannot be built: `Reconcile` returns the error after `Get`, or after
`Get` and `NewHelper`. -/
theorem Reconcile_exits_without_patch :
    Reconcile exampleServiceNotFound (exampleWorld liveInstance none getGoneFault)
        exampleRequest emptyRun =
      (Res.ok ({}, none),
        { world := emptyRun.world, calls := [Call.Get "placement" "openstack"] }) ∧
    Reconcile exampleServiceNotFound (exampleWorld liveInstance none getFault)
        exampleRequest emptyRun =
      (Res.ok ({}, some { text := "context deadline exceeded", notFound := false }),
        { world := emptyRun.world, calls := [Call.Get "placement" "openstack"] }) ∧
    Reconcile exampleServiceNotFound (exampleWorld liveInstance none helperFault)
        exampleRequest emptyRun =
      (Res.ok ({}, some { text := "no kind is registered for the type", notFound := false }),
        { world := emptyRun.world,
          calls := [Call.Get "placement" "openstack", Call.NewHelper liveInstance] }) :=
  ⟨rfl, rfl, rfl⟩

/-! ## A registered service keeps the instance -/

/-- C28: a KeystoneService that is being deleted with a non-empty
`Status.ServiceID` (conditions initialised) keeps its finalizer while its
service may still be registered. When the lookup of the KeystoneAPI reports
not-found, or finds a KeystoneAPI that is neither being deleted nor ready,
`Reconcile` returns a requeue after five seconds; when the KeystoneAPI is ready
and the request for the admin client returns an error or a requeue, `Reconcile`
returns an error or that requeue. In each case the calls are the lookup, the
request for the admin client where it is reached, and the status patch (no
`DeleteUser`, no `DeleteService`, no `Update` of the KeystoneAPI), and the
instance that is patched carries the finalizers it came with. -/
theorem Reconcile_registered_service_keeps_finalizer {σ : Type} (nf : String) (w : World σ)
    (req : Request) (r : Run σ) (inst : KeystoneService) (helper : Helper) (s1 s2 : σ)
    (hget : w.Get req.Name req.Namespace r.world = (Res.ok (inst, none), s1))
    (hhelper : w.NewHelper inst s1 = (Res.ok (helper, none), s2))
    (hconds : inst.Status.Conditions ≠ none)
    (hdel : IsZero inst.DeletionTimestamp = false)
    (hid : inst.Status.ServiceID ≠ "") :
    (∀ kapi e s3 left perr s4,
      w.GetKeystoneAPI inst.Namespace s2 = (Res.ok (kapi, some e), s3) →
      k8s_errors.IsNotFound e = true →
      left = inst.setCondition (FalseCondition KeystoneAPIReadyCondition Reason.ErrorReason
        Severity.SeverityWarning MessageFormat.KeystoneAPIReadyNotFoundMessage []) →
      w.PatchInstance (patchedInstance left) s3 = (Res.ok perr, s4) →
      Reconcile nf w req r =
        (Res.ok ({ RequeueAfter := 5000000000 }, perr),
          { world := s4,
            calls := r.calls ++ [
              Call.Get req.Name req.Namespace,
              Call.NewHelper inst,
              Call.GetKeystoneAPI inst.Namespace,
              Call.PatchInstance (patchedInstance left)] }) ∧
      (patchedInstance left).Finalizers = inst.Finalizers) ∧
    (∀ api s3 left perr s4,
      w.GetKeystoneAPI inst.Namespace s2 = (Res.ok (some api, none), s3) →
      IsZero api.DeletionTimestamp = true →
      api.IsReady = false →
      left = inst.setCondition (FalseCondition KeystoneAPIReadyCondition
        Reason.RequestedReason Severity.SeverityInfo
        MessageFormat.KeystoneAPIReadyWaitingMessage []) →
      w.PatchInstance (patchedInstance left) s3 = (Res.ok perr, s4) →
      Reconcile nf w req r =
        (Res.ok ({ RequeueAfter := 5000000000 }, perr),
          { world := s4,
            calls := r.calls ++ [
              Call.Get req.Name req.Namespace,
              Call.NewHelper inst,
              Call.GetKeystoneAPI inst.Namespace,
              Call.PatchInstance (patchedInstance left)] }) ∧
      (patchedInstance left).Finalizers = inst.Finalizers) ∧
    (∀ api s3 os res e s4 left perr s5,
      w.GetKeystoneAPI inst.Namespace s2 = (Res.ok (some api, none), s3) →
      IsZero api.DeletionTimestamp = true →
      api.IsReady = true →
      w.GetAdminServiceClient api s3 = (Res.ok (os, res, some e), s4) →
      left = (inst.markTrue KeystoneAPIReadyCondition
          MessageFormat.KeystoneAPIReadyMessage []).setCondition
        (FalseCondition AdminServiceClientReadyCondition Reason.ErrorReason
          Severity.SeverityWarning MessageFormat.AdminServiceClientReadyErrorMessage
          [e.text]) →
      w.PatchInstance (patchedInstance left) s4 = (Res.ok perr, s5) →
      Reconcile nf w req r =
        (Res.ok ({}, some (perr.getD e)),
          { world := s5,
            calls := r.calls ++ [
              Call.Get req.Name req.Namespace,
              Call.NewHelper inst,
              Call.GetKeystoneAPI inst.Namespace,
              Call.GetAdminServiceClient api,
              Call.PatchInstance (patchedInstance left)] }) ∧
      (patchedInstance left).Finalizers = inst.Finalizers) ∧
    (∀ api s3 os res s4 left perr s5,
      w.GetKeystoneAPI inst.Namespace s2 = (Res.ok (some api, none), s3) →
      IsZero api.DeletionTimestamp = true →
      api.IsReady = true →
      w.GetAdminServiceClient api s3 = (Res.ok (os, res, none), s4) →
      res ≠ {} →
      left = (inst.markTrue KeystoneAPIReadyCondition
          MessageFormat.KeystoneAPIReadyMessage []).setCondition
        (FalseCondition AdminServiceClientReadyCondition Reason.RequestedReason
          Severity.SeverityInfo MessageFormat.AdminServiceClientReadyWaitingMessage []) →
      w.PatchInstance (patchedInstance left) s4 = (Res.ok perr, s5) →
      Reconcile nf w req r =
        (Res.ok (res, perr),
          { world := s5,
            calls := r.calls ++ [
              Call.Get req.Name req.Namespace,
              Call.NewHelper inst,
              Call.GetKeystoneAPI inst.Namespace,
              Call.GetAdminServiceClient api,
              Call.PatchInstance (patchedInstance left)] }) ∧
      (patchedInstance left).Finalizers = inst.Finalizers) := by
  have hnone := isNone_of_ne_none inst hconds
  have hpass := Reconcile_body_passes_finalizer inst helper (Or.inl hdel)
  refine ⟨?_, ?_, ?_, ?_⟩
  · intro kapi e s3 left perr s4 hlookup hnf hleft hpatch
    subst hleft
    refine ⟨?_, rfl⟩
    have hbody := Reconcile_body_not_found nf w inst helper
      { world := s2,
        calls := r.calls ++ [Call.Get req.Name req.Namespace, Call.NewHelper inst] }
      kapi e s3 hnone hpass (by simp [hid]) hlookup hnf
    rw [Reconcile_of_body nf w req r inst helper s1 s2 s4 _ _ _ perr _ hget hhelper hbody hpatch]
    cases perr <;> simp [returnedError, time.Second]
  · intro api s3 left perr s4 hlookup hz hready hleft hpatch
    subst hleft
    refine ⟨?_, rfl⟩
    have hbody := Reconcile_body_not_ready nf w inst helper
      { world := s2,
        calls := r.calls ++ [Call.Get req.Name req.Namespace, Call.NewHelper inst] }
      api s3 hnone hpass (by simp [hz]) (by simp [hid]) hlookup hready
    rw [Reconcile_of_body nf w req r inst helper s1 s2 s4 _ _ _ perr _ hget hhelper hbody hpatch]
    cases perr <;> simp [returnedError, time.Second]
  · intro api s3 os res e s4 left perr s5 hlookup hz hready hadmin hleft hpatch
    subst hleft
    refine ⟨?_, rfl⟩
    have hbody := Reconcile_body_ready nf w inst helper
      { world := s2,
        calls := r.calls ++ [Call.Get req.Name req.Namespace, Call.NewHelper inst] }
      api s3 s4 os res (some e) hnone hpass (by simp [hz]) (by simp [hid]) hlookup hready hadmin
    have hbody2 : Reconcile.body nf w inst helper
        { world := s2,
          calls := r.calls ++ [Call.Get req.Name req.Namespace, Call.NewHelper inst] } =
        (Res.ok ((inst.markTrue KeystoneAPIReadyCondition
              MessageFormat.KeystoneAPIReadyMessage []).setCondition
            (FalseCondition AdminServiceClientReadyCondition Reason.ErrorReason
              Severity.SeverityWarning MessageFormat.AdminServiceClientReadyErrorMessage
              [e.text]), {}, some e),
          { world := s4,
            calls := r.calls ++ [Call.Get req.Name req.Namespace, Call.NewHelper inst] ++
              [Call.GetKeystoneAPI inst.Namespace, Call.GetAdminServiceClient api] }) := by
      rw [hbody]
      rfl
    rw [Reconcile_of_body nf w req r inst helper s1 s2 s5 _ _ _ perr _ hget hhelper hbody2 hpatch]
    cases perr <;> simp [returnedError]
  · intro api s3 os res s4 left perr s5 hlookup hz hready hadmin hres hleft hpatch
    subst hleft
    refine ⟨?_, rfl⟩
    have hbody := Reconcile_body_ready nf w inst helper
      { world := s2,
        calls := r.calls ++ [Call.Get req.Name req.Namespace, Call.NewHelper inst] }
      api s3 s4 os res none hnone hpass (by simp [hz]) (by simp [hid]) hlookup hready hadmin
    have hbody2 : Reconcile.body nf w inst helper
        { world := s2,
          calls := r.calls ++ [Call.Get req.Name req.Namespace, Call.NewHelper inst] } =
        (Res.ok ((inst.markTrue KeystoneAPIReadyCondition
              MessageFormat.KeystoneAPIReadyMessage []).setCondition
            (FalseCondition AdminServiceClientReadyCondition Reason.RequestedReason
              Severity.SeverityInfo MessageFormat.AdminServiceClientReadyWaitingMessage []),
            res, none),
          { world := s4,
            calls := r.calls ++ [Call.Get req.Name req.Namespace, Call.NewHelper inst] ++
              [Call.GetKeystoneAPI inst.Namespace, Call.GetAdminServiceClient api] }) := by
      rw [hbody]
      simp [hres, M.pure]
    rw [Reconcile_of_body nf w req r inst helper s1 s2 s5 _ _ _ perr _ hget hhelper hbody2 hpatch]
    cases perr <;> simp [returnedError]

/-- Witness of C28: the example instance, being deleted with a registered
service, when the admin client cannot be had. -/
theorem Reconcile_registered_service_keeps_finalizer_witness :
    deletedInstance.Status.Conditions ≠ none ∧
    IsZero deletedInstance.DeletionTimestamp = false ∧
    deletedInstance.Status.ServiceID ≠ "" ∧
    readyKeystoneAPI.IsReady = true ∧
    Reconcile exampleServiceNotFound
        (exampleWorld deletedInstance (some readyKeystoneAPI) adminClientFault) exampleRequest
        adoptedRun =
      (Res.ok ({}, some { text := "keystone endpoint not reachable", notFound := false }),
        { world := adoptedBackend,
          calls := adoptedRun.calls ++ [
            Call.Get "placement" "openstack",
            Call.NewHelper deletedInstance,
            Call.GetKeystoneAPI "openstack",
            Call.GetAdminServiceClient readyKeystoneAPI,
            Call.PatchInstance
              (patchedInstance
                ((deletedInstance.markTrue KeystoneAPIReadyCondition
                    MessageFormat.KeystoneAPIReadyMessage []).setCondition
                  (FalseCondition AdminServiceClientReadyCondition Reason.ErrorReason
                    Severity.SeverityWarning
                    MessageFormat.AdminServiceClientReadyErrorMessage
                    ["keystone endpoint not reachable"])))] }) :=
  ⟨by decide, rfl, by decide, by decide,
    ((Reconcile_registered_service_keeps_finalizer exampleServiceNotFound
      (exampleWorld deletedInstance (some readyKeystoneAPI) adminClientFault) exampleRequest
      adoptedRun deletedInstance exampleHelper adoptedBackend adoptedBackend rfl rfl (by decide)
      rfl (by decide)).2.2.1 readyKeystoneAPI adoptedBackend none {}
      { text := "keystone endpoint not reachable", notFound := false } adoptedBackend _ none
      adoptedBackend rfl rfl (by decide) rfl rfl rfl).1⟩

/-! ## Errors and the conditions they leave -/

/-- The body of `Reconcile` when the lookup of the KeystoneAPI fails for a
reason other than a missing object. -/
theorem Reconcile_body_lookup_error {σ : Type} (nf : String) (w : World σ)
    (inst : KeystoneService) (helper : Helper) (r : Run σ) (kapi : Option KeystoneAPI)
    (e : GoError) (s3 : σ)
    (hconds : inst.Status.Conditions.isNone = false)
    (hpass : (IsZero inst.DeletionTimestamp &&
      (controllerutil.AddFinalizer inst.Finalizers helper.GetFinalizer).2) = false)
    (hlookup : w.GetKeystoneAPI inst.Namespace r.world = (Res.ok (kapi, some e), s3))
    (hnf : k8s_errors.IsNotFound e = false) :
    Reconcile.body nf w inst helper r =
      (Res.ok (inst.setCondition (FalseCondition KeystoneAPIReadyCondition Reason.ErrorReason
          Severity.SeverityWarning MessageFormat.KeystoneAPIReadyErrorMessage [e.text]),
        {}, some e),
        { world := s3, calls := r.calls ++ [Call.GetKeystoneAPI inst.Namespace] }) := by
  simp [Reconcile.body, hconds, hpass, call, bind, M.bind, pure, M.pure, hlookup, hnf]

/-- The service and user part of `reconcileNormal` when the service sync
returns an error. -/
theorem reconcileNormal_sync_service_error {σ : Type} (nf : String) (w : World σ)
    (inst : KeystoneService) (os : Option (OpenStack σ)) (r : Run σ)
    (inst1 : KeystoneService) (e : GoError) (r1 : Run σ)
    (hservice : reconcileService nf inst os r = (Res.ok (inst1, some e), r1)) :
    reconcileNormal.sync nf w inst os r =
      (Res.ok (inst1.setCondition (FalseCondition KeystoneServiceOSServiceReadyCondition
          Reason.ErrorReason Severity.SeverityWarning
          MessageFormat.KeystoneServiceOSServiceReadyErrorMessage [e.text]), {}, some e),
        r1) := by
  unfold reconcileNormal.sync
  change M.bind _ _ r = _
  unfold M.bind
  rw [hservice]
  rfl

/-- The service and user part of `reconcileNormal` when the service is in place
and the user sync returns an error. -/
theorem reconcileNormal_sync_user_error {σ : Type} (nf : String) (w : World σ)
    (inst : KeystoneService) (os : Option (OpenStack σ)) (r : Run σ)
    (inst1 : KeystoneService) (r1 : Run σ) (res : Result) (e : GoError) (r2 : Run σ)
    (hservice : reconcileService nf inst os r = (Res.ok (inst1, none), r1))
    (huser : reconcileUser w
        (inst1.markTrue KeystoneServiceOSServiceReadyCondition
          MessageFormat.KeystoneServiceOSServiceReadyMessage
          [inst1.Spec.ServiceName, inst1.Status.ServiceID]) os r1
      = (Res.ok (res, some e), r2)) :
    reconcileNormal.sync nf w inst os r =
      (Res.ok ((inst1.markTrue KeystoneServiceOSServiceReadyCondition
            MessageFormat.KeystoneServiceOSServiceReadyMessage
            [inst1.Spec.ServiceName, inst1.Status.ServiceID]).setCondition
          (FalseCondition KeystoneServiceOSUserReadyCondition Reason.ErrorReason
            Severity.SeverityWarning MessageFormat.KeystoneServiceOSUserReadyErrorMessage
            [e.text]), res, some e),
        r2) := by
  unfold reconcileNormal.sync
  change M.bind _ _ r = _
  unfold M.bind
  rw [hservice]
  change M.bind _ _ r1 = _
  unfold M.bind
  rw [huser]
  rfl

/-- C21, as amended: an error `Reconcile` returns from the lookup of the
KeystoneAPI, the request for the admin client, the service sync or the user
sync comes after the sub-condition of that stage (`KeystoneAPIReady`,
`AdminServiceClientReady`, `KeystoneServiceOSServiceReady`,
`KeystoneServiceOSUserReady`) was set to False with the reason `Error`, the
severity `Warning` and the text of the error, and that condition is in the
status that is patched. An error of the `Update` that registers the finalizer
on the KeystoneAPI, and an error of a delete path, are returned with the
conditions of the instance left as they were. -/
theorem stage_errors_set_conditions {σ : Type} (nf : String) (w : World σ)
    (inst : KeystoneService) (helper : Helper) (os : Option (OpenStack σ)) (r : Run σ) :
    (∀ kapi e s3, inst.Status.Conditions ≠ none →
      (IsZero inst.DeletionTimestamp = false ∨ helper.GetFinalizer ∈ inst.Finalizers) →
      w.GetKeystoneAPI inst.Namespace r.world = (Res.ok (kapi, some e), s3) →
      k8s_errors.IsNotFound e = false →
      Reconcile.body nf w inst helper r =
        (Res.ok (inst.setCondition (FalseCondition KeystoneAPIReadyCondition
            Reason.ErrorReason Severity.SeverityWarning
            MessageFormat.KeystoneAPIReadyErrorMessage [e.text]), {}, some e),
          { world := s3, calls := r.calls ++ [Call.GetKeystoneAPI inst.Namespace] })) ∧
    (∀ api s3 client res e s4, inst.Status.Conditions ≠ none →
      (IsZero inst.DeletionTimestamp = false ∨ helper.GetFinalizer ∈ inst.Finalizers) →
      w.GetKeystoneAPI inst.Namespace r.world = (Res.ok (some api, none), s3) →
      ¬ (IsZero inst.DeletionTimestamp = false ∧ IsZero api.DeletionTimestamp = false) →
      ¬ (IsZero inst.DeletionTimestamp = false ∧ inst.Status.ServiceID = "") →
      api.IsReady = true →
      w.GetAdminServiceClient api s3 = (Res.ok (client, res, some e), s4) →
      Reconcile.body nf w inst helper r =
        (Res.ok ((inst.markTrue KeystoneAPIReadyCondition
              MessageFormat.KeystoneAPIReadyMessage []).setCondition
            (FalseCondition AdminServiceClientReadyCondition Reason.ErrorReason
              Severity.SeverityWarning MessageFormat.AdminServiceClientReadyErrorMessage
              [e.text]), {}, some e),
          { world := s4,
            calls := r.calls ++ [Call.GetKeystoneAPI inst.Namespace,
              Call.GetAdminServiceClient api] })) ∧
    (∀ inst1 e r1, reconcileService nf inst os r = (Res.ok (inst1, some e), r1) →
      reconcileNormal.sync nf w inst os r =
        (Res.ok (inst1.setCondition (FalseCondition KeystoneServiceOSServiceReadyCondition
            Reason.ErrorReason Severity.SeverityWarning
            MessageFormat.KeystoneServiceOSServiceReadyErrorMessage [e.text]), {}, some e),
          r1)) ∧
    (∀ inst1 r1 res e r2, reconcileService nf inst os r = (Res.ok (inst1, none), r1) →
      reconcileUser w
          (inst1.markTrue KeystoneServiceOSServiceReadyCondition
            MessageFormat.KeystoneServiceOSServiceReadyMessage
            [inst1.Spec.ServiceName, inst1.Status.ServiceID]) os r1
        = (Res.ok (res, some e), r2) →
      reconcileNormal.sync nf w inst os r =
        (Res.ok ((inst1.markTrue KeystoneServiceOSServiceReadyCondition
              MessageFormat.KeystoneServiceOSServiceReadyMessage
              [inst1.Spec.ServiceName, inst1.Status.ServiceID]).setCondition
            (FalseCondition KeystoneServiceOSUserReadyCondition Reason.ErrorReason
              Severity.SeverityWarning MessageFormat.KeystoneServiceOSUserReadyErrorMessage
              [e.text]), res, some e),
          r2)) ∧
    (∀ (left : KeystoneService) (t : CondType) (reason : Reason) (severity : Severity)
        (messageFormat : MessageFormat) (messageArgs : List String),
      t ≠ ReadyCondition →
      FalseCondition t reason severity messageFormat messageArgs ∈
        (patchedInstance (left.setCondition
          (FalseCondition t reason severity messageFormat messageArgs))).Status.Conditions.getD
          []) ∧
    (∀ api e s, helper.GetFinalizer ++ "-" ++ inst.Name ∉ api.Finalizers →
      w.Update (withFinalizer api (helper.GetFinalizer ++ "-" ++ inst.Name)) r.world
        = (Res.ok (some e), s) →
      reconcileNormal nf w inst helper os (some api) r =
        (Res.ok (inst, {}, some e),
          { world := s,
            calls := r.calls ++ [Call.Update
              (withFinalizer api (helper.GetFinalizer ++ "-" ++ inst.Name))] })) ∧
    (∀ keystoneAPI left result err r1,
      reconcileDelete w inst helper os keystoneAPI r = (Res.ok (left, result, err), r1) →
      left.Status.Conditions = inst.Status.Conditions) ∧
    (∀ keystoneAPI left result err r1,
      reconcileDeleteFinalizersOnly w inst helper keystoneAPI r
        = (Res.ok (left, result, err), r1) →
      left.Status.Conditions = inst.Status.Conditions) := by
  refine ⟨?_, ?_, ?_, ?_, ?_, ?_, ?_, ?_⟩
  · intro kapi e s3 hconds hreach hlookup hnf
    exact Reconcile_body_lookup_error nf w inst helper r kapi e s3 (isNone_of_ne_none inst hconds)
      (Reconcile_body_passes_finalizer inst helper hreach) hlookup hnf
  · intro api s3 client res e s4 hconds hreach hlookup hshort1 hshort2 hready hadmin
    rw [Reconcile_body_ready nf w inst helper r api s3 s4 client res (some e)
      (isNone_of_ne_none inst hconds) (Reconcile_body_passes_finalizer inst helper hreach)
      hshort1 hshort2 hlookup hready hadmin]
    rfl
  · intro inst1 e r1 hservice
    exact reconcileNormal_sync_service_error nf w inst os r inst1 e r1 hservice
  · intro inst1 r1 res e r2 hservice huser
    exact reconcileNormal_sync_user_error nf w inst os r inst1 r1 res e r2 hservice huser
  · intro left t reason severity messageFormat messageArgs ht
    exact mem_patchedInstance_setCondition left _ ht
  · intro api e s habsent hupdate
    rw [reconcileNormal_absent nf w inst helper os api r habsent, hupdate]
  · intro keystoneAPI left result err r1 hrun
    exact reconcileDelete_keeps_conditions w inst helper os keystoneAPI r _ r1 hrun
  · intro keystoneAPI left result err r1 hrun
    exact reconcileDeleteFinalizersOnly_keeps_conditions w inst helper keystoneAPI r _ r1 hrun

/-- Witness of C21: the example instance when the lookup of the KeystoneAPI
fails. -/
theorem stage_errors_set_conditions_witness :
    Reconcile.body exampleServiceNotFound (exampleWorld liveInstance none lookupFault)
        liveInstance exampleHelper emptyRun =
      (Res.ok (liveInstance.setCondition (FalseCondition KeystoneAPIReadyCondition
          Reason.ErrorReason Severity.SeverityWarning
          MessageFormat.KeystoneAPIReadyErrorMessage ["connection reset by peer"]), {},
          some { text := "connection reset by peer", notFound := false }),
        { world := emptyRun.world,
          calls := emptyRun.calls ++ [Call.GetKeystoneAPI "openstack"] }) :=
  (stage_errors_set_conditions exampleServiceNotFound
    (exampleWorld liveInstance none lookupFault) liveInstance exampleHelper none emptyRun).1
    none { text := "connection reset by peer", notFound := false } emptyRun.world (by decide)
    (Or.inr (by decide)) rfl rfl

/-- Counterexample to C21 as stated. First, the `Update` that registers the
finalizer on the KeystoneAPI fails: `Reconcile` returns the error, and no
condition of the status that is patched is False. Second, `DeleteUser` fails
on the delete path: `Reconcile` returns the error, and again no condition of
the status that is patched is False. -/
theorem Reconcile_error_without_false_condition :
    Reconcile exampleServiceNotFound
        (exampleWorld liveInstance (some freshKeystoneAPI) updateFault) exampleRequest
        emptyRun =
      (Res.ok ({}, some { text := "etcdserver: request timed out", notFound := false }),
        { world := emptyRun.world,
          calls := [
            Call.Get "placement" "openstack",
            Call.NewHelper liveInstance,
            Call.GetKeystoneAPI "openstack",
            Call.GetAdminServiceClient freshKeystoneAPI,
            Call.Update
              (withFinalizer freshKeystoneAPI "openstack.org/keystoneservice-placement"),
            Call.PatchInstance
              (patchedInstance
                ((liveInstance.markTrue KeystoneAPIReadyCondition
                    MessageFormat.KeystoneAPIReadyMessage []).markTrue
                  AdminServiceClientReadyCondition
                  MessageFormat.AdminServiceClientReadyMessage []))] }) ∧
    (∀ c ∈ (patchedInstance
          ((liveInstance.markTrue KeystoneAPIReadyCondition
              MessageFormat.KeystoneAPIReadyMessage []).markTrue
            AdminServiceClientReadyCondition
            MessageFormat.AdminServiceClientReadyMessage [])).Status.Conditions.getD [],
      c.Status ≠ ConditionStatus.ConditionFalse) ∧
    Reconcile exampleServiceNotFound
        (exampleWorld deletedInstance (some readyKeystoneAPI) deleteUserFault) exampleRequest
        adoptedRun =
      (Res.ok ({}, some { text := "keystone: 503 service unavailable", notFound := false }),
        { world := adoptedBackend,
          calls := [
            Call.Get "placement" "openstack",
            Call.NewHelper deletedInstance,
            Call.GetKeystoneAPI "openstack",
            Call.GetAdminServiceClient readyKeystoneAPI,
            Call.DeleteUser "placement" "default",
            Call.PatchInstance
              (patchedInstance
                ((deletedInstance.markTrue KeystoneAPIReadyCondition
                    MessageFormat.KeystoneAPIReadyMessage []).markTrue
                  AdminServiceClientReadyCondition
                  MessageFormat.AdminServiceClientReadyMessage []))] }) ∧
    (∀ c ∈ (patchedInstance
          ((deletedInstance.markTrue KeystoneAPIReadyCondition
              MessageFormat.KeystoneAPIReadyMessage []).markTrue
            AdminServiceClientReadyCondition
            MessageFormat.AdminServiceClientReadyMessage [])).Status.Conditions.getD [],
      c.Status ≠ ConditionStatus.ConditionFalse) :=
  ⟨rfl, by decide, rfl, by decide⟩

/-! ## The admission webhook -/

/-- The error of `KeystoneAPI.ValidateCreate` is nil exactly when the
validation of the service overrides reports nothing. -/
theorem v1beta1.ValidateCreate_eq_none_iff
    (validate : v1beta1.Path → List (String × v1beta1.RoutedOverrideSpec) → v1beta1.ErrorList)
    (r : v1beta1.KeystoneAPI) :
    (r.ValidateCreate validate).2 = none ↔
      validate ["spec", "override", "service"]
        r.Spec.KeystoneAPISpecCore.Override.Service = [] := by
  simp only [v1beta1.KeystoneAPI.ValidateCreate, v1beta1.KeystoneAPISpec.ValidateCreate,
    v1beta1.KeystoneAPISpecCore.ValidateCreate, v1beta1.NewPath, v1beta1.Path.Child,
    List.nil_append, List.cons_append]
  cases h : validate ["spec", "override", "service"]
      r.Spec.KeystoneAPISpecCore.Override.Service with
  | nil => simp
  | cons e es => simp

/-- C24, as amended: `KeystoneAPI.ValidateCreate` does not look at
`FernetMaxActiveKeys`. It returns an error exactly when the validation of the
keys of `override.service` reports one, and its answer is the same whatever
the size of the key ring: a KeystoneAPI with a key ring below 3, -1 for one,
and no invalid override passes it. -/
theorem ValidateCreate_ignores_key_ring_size
    (validate : v1beta1.Path → List (String × v1beta1.RoutedOverrideSpec) → v1beta1.ErrorList)
    (r : v1beta1.KeystoneAPI) (n : Option Int) :
    ((r.ValidateCreate validate).2 = none ↔
      validate ["spec", "override", "service"]
        r.Spec.KeystoneAPISpecCore.Override.Service = []) ∧
    v1beta1.KeystoneAPI.ValidateCreate validate
        { r with Spec := { r.Spec with
          KeystoneAPISpecCore := { r.Spec.KeystoneAPISpecCore with FernetMaxActiveKeys := n } } }
      = r.ValidateCreate validate ∧
    (validate ["spec", "override", "service"]
        r.Spec.KeystoneAPISpecCore.Override.Service = [] →
      v1beta1.KeystoneAPI.ValidateCreate validate
          { r with Spec := { r.Spec with
            KeystoneAPISpecCore :=
              { r.Spec.KeystoneAPISpecCore with FernetMaxActiveKeys := some (-1) } } }
        = (none, none)) := by
  refine ⟨v1beta1.ValidateCreate_eq_none_iff validate r, rfl, ?_⟩
  intro h
  simp [v1beta1.KeystoneAPI.ValidateCreate, v1beta1.KeystoneAPISpec.ValidateCreate,
    v1beta1.KeystoneAPISpecCore.ValidateCreate, v1beta1.NewPath, v1beta1.Path.Child, h]

/-- Witness of C24: a KeystoneAPI with an override for an endpoint that does
not exist is rejected, with a key ring of 5 and with one of -1 alike. -/
theorem ValidateCreate_ignores_key_ring_size_witness :
    (v1beta1.badOverrideKeystoneAPI.ValidateCreate v1beta1.exampleValidateRoutedOverrides).2 ≠
      none ∧
    v1beta1.KeystoneAPI.ValidateCreate v1beta1.exampleValidateRoutedOverrides
        { v1beta1.badOverrideKeystoneAPI with
          Spec := { v1beta1.badOverrideKeystoneAPI.Spec with
            KeystoneAPISpecCore :=
              { v1beta1.badOverrideKeystoneAPI.Spec.KeystoneAPISpecCore with
                FernetMaxActiveKeys := some (-1) } } }
      = v1beta1.badOverrideKeystoneAPI.ValidateCreate v1beta1.exampleValidateRoutedOverrides :=
  ⟨by decide,
    (ValidateCreate_ignores_key_ring_size v1beta1.exampleValidateRoutedOverrides
      v1beta1.badOverrideKeystoneAPI (some (-1))).2.1⟩

/-- Counterexample to C24 as stated: the KeystoneAPI of the test, with a key
ring of -1 and no override, passes `KeystoneAPI.ValidateCreate`. -/
theorem ValidateCreate_accepts_small_key_ring :
    v1beta1.lowRingKeystoneAPI.Spec.KeystoneAPISpecCore.FernetMaxActiveKeys = some (-1) ∧
    ((-1 : Int) < 3) ∧
    v1beta1.lowRingKeystoneAPI.ValidateCreate v1beta1.exampleValidateRoutedOverrides
      = (none, none) :=
  ⟨rfl, by decide, by decide⟩

/-! ## The fernet key ring -/

theorem fernet.keyName_zero : fernet.keyName 0 = "FernetKeys0" := by decide

theorem fernet.keyName_one : fernet.keyName 1 = "FernetKeys1" := by decide

theorem fernet.keyName_two : fernet.keyName 2 = "FernetKeys2" := by decide

theorem fernet.keyName_three : fernet.keyName 3 = "FernetKeys3" := by decide

theorem fernet.keyName_four : fernet.keyName 4 = "FernetKeys4" := by decide

/-- The data of the secret of a ring of five keys. -/
theorem fernet.secretData_five (a b c d e : String) :
    fernet.secretData [a, b, c, d, e] =
      [("FernetKeys0", a), ("FernetKeys1", b), ("FernetKeys2", c), ("FernetKeys3", d),
        ("FernetKeys4", e)] := by
  simp [fernet.secretData, List.enum, List.enumFrom, fernet.keyName_zero, fernet.keyName_one,
    fernet.keyName_two, fernet.keyName_three, fernet.keyName_four]

/-- What the rotation test asserts of two rings of five keys. -/
theorem fernet.rotationAsserted_five (a b c d e a1 b1 c1 d1 e1 : String) :
    fernet.rotationAsserted (fernet.secretData [a, b, c, d, e])
        (fernet.secretData [a1, b1, c1, d1, e1]) = true ↔
      a = e1 ∧ b ≠ a1 ∧ c = b1 ∧ d = c1 := by
  rw [fernet.secretData_five, fernet.secretData_five]
  simp [fernet.rotationAsserted, List.range, List.range.loop, fernet.SecretData.get,
    List.lookup, fernet.keyName_zero, fernet.keyName_one, fernet.keyName_two,
    fernet.keyName_three, fernet.keyName_four]

/-- C25, as amended: the rotation the spec describes takes a ring of five keys
`[k0,k1,k2,k3,k4]` to `[k_new,k0,k1,k2,k3]`: for every `i < 4` the key at old
index `i` is the key at new index `i+1`, index 0 holds the generated key, and
the key at old index 4, when it differs from the other keys, is nowhere in the
new ring. The rotation test asserts another mapping of the names
`FernetKeys0` to `FernetKeys4`: the key at old index 0 is at new index 4, the
keys at old indexes 2 and 3 are at new indexes 1 and 2, and the key at old
index 1 is not at new index 0. The ring of the spec meets these assertions
only when `k0`, `k1`, `k2` and `k3` are one and the same key; a ring that
meets them is `[k_new,k2,k3,k4,k0]`. -/
theorem fernet_rotation_of_five (k0 k1 k2 k3 k4 fresh : String) :
    fernet.rotate [k0, k1, k2, k3, k4] fresh = [fresh, k0, k1, k2, k3] ∧
    (∀ i, i < 4 →
      (fernet.rotate [k0, k1, k2, k3, k4] fresh)[i + 1]? = [k0, k1, k2, k3, k4][i]?) ∧
    (fernet.rotate [k0, k1, k2, k3, k4] fresh)[0]? = some fresh ∧
    (k4 ≠ fresh → k4 ∉ [k0, k1, k2, k3] →
      k4 ∉ fernet.rotate [k0, k1, k2, k3, k4] fresh) ∧
    (fernet.rotationAsserted (fernet.secretData [k0, k1, k2, k3, k4])
        (fernet.secretData (fernet.rotate [k0, k1, k2, k3, k4] fresh)) = true ↔
      k0 = k3 ∧ k1 ≠ fresh ∧ k2 = k0 ∧ k3 = k1) ∧
    (fernet.rotationAsserted (fernet.secretData [k0, k1, k2, k3, k4])
        (fernet.secretData [fresh, k2, k3, k4, k0]) = true ↔ k1 ≠ fresh) := by
  have hrot : fernet.rotate [k0, k1, k2, k3, k4] fresh = [fresh, k0, k1, k2, k3] := rfl
  refine ⟨hrot, ?_, rfl, ?_, ?_, ?_⟩
  · intro i hi
    rw [hrot]
    interval_cases i <;> rfl
  · intro hfresh hold
    rw [hrot]
    intro hmem
    rcases List.mem_cons.1 hmem with h | h
    · exact hfresh h
    · exact hold h
  · rw [hrot, fernet.rotationAsserted_five]
  · rw [fernet.rotationAsserted_five]
    simp

/-- Witness of C25: the ring `k0` to `k4` and the generated key `k5`. -/
theorem fernet_rotation_of_five_witness :
    fernet.rotate fernet.exampleRing "k5" = ["k5", "k0", "k1", "k2", "k3"] ∧
    "k4" ∉ fernet.rotate fernet.exampleRing "k5" :=
  ⟨(fernet_rotation_of_five "k0" "k1" "k2" "k3" "k4" "k5").1,
    (fernet_rotation_of_five "k0" "k1" "k2" "k3" "k4" "k5").2.2.2.1 (by decide) (by decide)⟩

/-- Counterexample to C25 as stated: on the ring `k0` to `k4`, the result
`[k5,k0,k1,k2,k3]` of the rotation fails the assertions of the rotation test,
which the ring `[k5,k2,k3,k4,k0]` meets. -/
theorem fernet_rotation_test_asserts_other_ring :
    fernet.rotate fernet.exampleRing "k5" = ["k5", "k0", "k1", "k2", "k3"] ∧
    fernet.rotationAsserted (fernet.secretData fernet.exampleRing)
        (fernet.secretData (fernet.rotate fernet.exampleRing "k5")) = false ∧
    fernet.rotationAsserted (fernet.secretData fernet.exampleRing)
        (fernet.secretData ["k5", "k2", "k3", "k4", "k0"]) = true :=
  ⟨rfl, by decide, by decide⟩

/-- The names of the entries of the secret of a ring. -/
theorem fernet.secretData_names (ring : fernet.Ring) :
    (fernet.secretData ring).map Prod.fst = (List.range ring.length).map fernet.keyName := by
  simp only [fernet.secretData, List.map_map]
  rw [← List.enum_map_fst ring, List.map_map]
  rfl

/-- Every name of the form `FernetKeys<i>` starts with `FernetKeys`. -/
theorem fernet.hasPrefix_keyName (i : Nat) :
    fernet.hasPrefix (fernet.keyName i) "FernetKeys" = true := by
  simp only [fernet.hasPrefix, fernet.keyName, String.toList, String.data_append]
  exact List.isPrefixOf_iff_prefix.2 (List.prefix_append _ _)

/-- A name among the entries is found by `lookup`. -/
theorem fernet.lookup_isSome_of_mem (data : fernet.SecretData) (k v : String)
    (h : (k, v) ∈ data) : (data.lookup k).isSome = true := by
  cases hl : data.lookup k with
  | some x => rfl
  | none =>
    have := (List.lookup_eq_none_iff.1 hl) (k, v) h
    simp at this

/-- The secret of a ring meets the assertion of the tests on the number of
keys, for the length of the ring. -/
theorem fernet.keysAsserted_secretData (ring : fernet.Ring) :
    fernet.keysAsserted (fernet.secretData ring) ring.length = true := by
  have hall : ∀ kv ∈ fernet.secretData ring, fernet.hasPrefix kv.1 "FernetKeys" = true := by
    intro kv hkv
    simp only [fernet.secretData, List.mem_map] at hkv
    obtain ⟨p, -, rfl⟩ := hkv
    exact fernet.hasPrefix_keyName p.1
  have hfilter : (fernet.secretData ring).filter
      (fun kv => fernet.hasPrefix kv.1 "FernetKeys") = fernet.secretData ring :=
    List.filter_eq_self.2 hall
  have hlen : (fernet.secretData ring).length = ring.length := by
    simp [fernet.secretData]
  simp only [fernet.keysAsserted, hfilter, hlen, beq_self_eq_true, Bool.true_and,
    List.all_eq_true, List.mem_range]
  intro i hi
  apply fernet.lookup_isSome_of_mem _ _ (ring.get ⟨i, hi⟩)
  simp only [fernet.secretData, List.mem_map]
  refine ⟨(i, ring.get ⟨i, hi⟩), ?_, rfl⟩
  rw [List.mk_mem_enum_iff_getElem?]
  simp

/-- The resize brings the ring to the size asked for. -/
theorem fernet.length_resize (ring : fernet.Ring) (n : Nat) (fresh : Nat → String) :
    (fernet.resize ring n fresh).length = n := by
  unfold fernet.resize
  split_ifs with h1 h2
  · simp only [List.length_append, List.length_map, List.length_range']
    omega
  · simp only [List.length_take]
    omega
  · omega

/-- C26: after the key ring is brought to the configured size `N`, as the spec
describes the resize, the ring has `N` keys and the secret holds the entries
`FernetKeys0` to `FernetKeys(N-1)`, which is what the tests on the number of
keys assert (for 3, for 100, for every `N`). Going from 5 keys to 4 removes the
key at the highest index and leaves the four others in place; going from 5
keys to 6 appends one generated key and leaves the five others in place; and a
rotation leaves the number of keys as it is. -/
theorem fernet_ring_has_configured_size (ring : fernet.Ring) (n : Nat)
    (fresh : Nat → String) :
    (fernet.resize ring n fresh).length = n ∧
    (fernet.secretData (fernet.resize ring n fresh)).map Prod.fst =
      (List.range n).map fernet.keyName ∧
    fernet.keysAsserted (fernet.secretData (fernet.resize ring n fresh)) n = true ∧
    (ring.length = 5 →
      fernet.resize ring 4 fresh = ring.dropLast ∧
      (∀ i, i < 4 → (fernet.resize ring 4 fresh)[i]? = ring[i]?) ∧
      (fernet.resize ring 4 fresh)[4]? = none) ∧
    (ring.length = 5 →
      fernet.resize ring 6 fresh = ring ++ [fresh 5] ∧
      (∀ i, i < 5 → (fernet.resize ring 6 fresh)[i]? = ring[i]?)) ∧
    (∀ key, ring ≠ [] → (fernet.rotate ring key).length = ring.length) := by
  have hlen := fernet.length_resize ring n fresh
  refine ⟨hlen, ?_, ?_, ?_, ?_, ?_⟩
  · rw [fernet.secretData_names, hlen]
  · have h := fernet.keysAsserted_secretData (fernet.resize ring n fresh)
    rw [hlen] at h
    exact h
  · intro h5
    have h4 : fernet.resize ring 4 fresh = ring.take 4 := by
      simp [fernet.resize, h5]
    refine ⟨?_, ?_, ?_⟩
    · rw [h4, List.dropLast_eq_take, h5]
    · intro i hi
      rw [h4, List.getElem?_take, if_pos hi]
    · rw [h4, List.getElem?_take]
      simp
  · intro h5
    have h6 : fernet.resize ring 6 fresh = ring ++ [fresh 5] := by
      simp [fernet.resize, h5, List.range']
    refine ⟨h6, ?_⟩
    intro i hi
    rw [h6, List.getElem?_append_left (by omega)]
  · intro key hne
    have hpos : 0 < ring.length := List.length_pos.2 hne
    simp only [fernet.rotate, List.length_cons, List.length_dropLast]
    omega

/-- Witness of C26: the example ring of five keys taken to four and to six
keys, and a ring of three keys made from nothing. -/
theorem fernet_ring_has_configured_size_witness :
    fernet.resize fernet.exampleRing 4 fernet.exampleFresh = ["k0", "k1", "k2", "k3"] ∧
    fernet.resize fernet.exampleRing 6 fernet.exampleFresh =
      ["k0", "k1", "k2", "k3", "k4", "g5"] ∧
    fernet.secretData (fernet.resize [] 3 fernet.exampleFresh) =
      [("FernetKeys0", "g0"), ("FernetKeys1", "g1"), ("FernetKeys2", "g2")] ∧
    fernet.keysAsserted (fernet.secretData (fernet.resize [] 100 fernet.exampleFresh)) 100
      = true :=
  ⟨((fernet_ring_has_configured_size fernet.exampleRing 4 fernet.exampleFresh).2.2.2.1
      rfl).1,
    ((fernet_ring_has_configured_size fernet.exampleRing 6 fernet.exampleFresh).2.2.2.2.1
      rfl).1.trans (by decide),
    by decide,
    (fernet_ring_has_configured_size [] 100 fernet.exampleFresh).2.2.1⟩

end Keystone
